import Mathlib

/-!
Shallow embedding of the corm ORM engine (src/src/corm.c, the latest
backend-abstracted iteration) together with an idealized SQL backend.

Modelling conventions:
* Machine integers are `Int`/`Nat`; struct instances are value maps keyed by
  byte offset (`Instance := Nat → Value`), so a typed read/write through a
  field offset becomes a lookup/update at that offset.
* The pluggable backend vtable is split into (a) its dialect functions,
  kept as data (`backend_ops_t`), and (b) an idealized relational engine
  shared by all backends: prepared statements carry the structured command
  that the generated SQL text denotes, and `step` executes it against an
  in-memory table store.  The SQL text actually handed to `prepare`/
  `execute` is recorded verbatim in an event log.
* The heap is a set of abstract pointers with an allocation-success oracle
  (`Heap.ok`), so malloc failure paths of the C code stay reachable.
* The scoped string arena is its `used` counter plus capacity; the string
  helpers account the exact byte counts the C code allocates.
-/

/-- Field semantic types, from include/corm.h. -/
inductive field_type_e where
  | INT
  | INT64
  | FLOAT
  | DOUBLE
  | STRING
  | BOOL
  | BLOB
  | BELONGS_TO
  | HAS_MANY
deriving DecidableEq, Repr

/-- Flag bits, from include/corm.h. -/
def PRIMARY_KEY : Nat := 1

def NOT_NULL : Nat := 2

def UNIQUE : Nat := 4

def AUTO_INC : Nat := 8

/-- `flags & f` as a boolean test. -/
def hasFlag (flags f : Nat) : Bool := flags &&& f ≠ 0

/-- FK delete actions, from include/corm.h. -/
inductive fk_delete_action_e where
  | FK_NO_ACTION
  | FK_CASCADE
  | FK_SET_NULL
  | FK_RESTRICT
deriving DecidableEq, Repr

/-- A typed field value as stored in a caller struct.  Strings model
`char*` (none = NULL pointer); blobs model `blob_t` by their content bytes
(a NULL or zero-sized blob is the empty list); `vPtr` models the `void*`
relation pointer of BELONGS_TO / HAS_MANY fields.  Float and double
payloads are rationals; the exact C `float`→`double` widening is the
identity on this carrier. -/
inductive Value where
  | vInt (n : Int)
  | vInt64 (n : Int)
  | vFloat (x : Rat)
  | vDouble (x : Rat)
  | vBool (b : Bool)
  | vString (s : Option String)
  | vBlob (b : List Nat)
  | vPtr (p : Option Nat)
deriving DecidableEq, Repr

/-- The value read when a zero-initialized (memset 0) struct is read at a
field of the given type. -/
def zeroValue : field_type_e → Value
  | .INT => .vInt 0
  | .INT64 => .vInt64 0
  | .FLOAT => .vFloat 0
  | .DOUBLE => .vDouble 0
  | .STRING => .vString none
  | .BOOL => .vBool false
  | .BLOB => .vBlob []
  | .BELONGS_TO => .vPtr none
  | .HAS_MANY => .vPtr none

/-- A caller struct instance: typed values keyed by byte offset. -/
def Instance : Type := Nat → Value

/-- Field descriptor, from include/corm.h.  `validator` models the
`bool (*)(void* value, const char** error_msg)` callback: it returns the
success flag and the message it stored (none = left NULL).
`related_model` is the registry index the resolved `model_meta_t*`
pointer refers to. -/
structure field_info_t where
  name : String
  offset : Nat
  type : field_type_e
  flags : Nat := 0
  max_length : Nat := 0
  validator : Option (Value → Bool × Option String) := none
  target_model_name : String := ""
  fk_column_name : String := ""
  count_offset : Nat := 0
  on_delete : fk_delete_action_e := .FK_NO_ACTION
  related_model : Option Nat := none

/-- Entity descriptor, from include/corm.h.  `primary_key_field` holds a
copy of the field the C pointer refers to (set by registration). -/
structure model_meta_t where
  table_name : String
  struct_size : Nat
  fields : List field_info_t
  primary_key_field : Option field_info_t := none

/-- A value as stored by the SQL engine (SQLite storage classes). -/
inductive SqlVal where
  | null
  | int (n : Int)
  | real (x : Rat)
  | text (s : String)
  | blob (b : List Nat)
deriving DecidableEq, Repr

/-- One result row: column name / value pairs in schema order. -/
structure Row where
  cols : List (String × SqlVal)
deriving DecidableEq, Repr

/-- Look up the first column of the given name in a row. -/
def lookupCol (r : Row) (name : String) : Option SqlVal :=
  (r.cols.find? (fun c => c.1 = name)).map (·.2)

/-- One table of the idealized engine: its schema (column name paired with
whether the column is an auto-increment primary key), its rows, and the
next auto-increment id. -/
structure table_data_t where
  schema : List (String × Bool)
  rows : List Row
  next_id : Int := 1

/-- The idealized backend database: named tables plus the last-insert-id
register of the connection. -/
structure db_state_t where
  tables : List (String × table_data_t)
  last_id : Int := 0

/-- The heap: a counter of abstract pointers, the live set, and an oracle
deciding whether the n-th pointer request succeeds (modelling malloc
failure). -/
structure Heap where
  next : Nat
  live : Finset Nat
  ok : Nat → Bool

/-- Events observable at the core/backend boundary plus the log macros. -/
inductive Event where
  | logError (msg : String)
  | logWarn (msg : String)
  | prepare (sql : String)
  | execSql (sql : String)
  | stepEv
  | finalizeEv
  | resetEv
  | setForeignKeys (enabled : Bool)
deriving DecidableEq, Repr

/-- The dialect part of the backend vtable (include/corm_backend.h),
kept as data.  `raw_where_eval` is the engine oracle giving the meaning of
an opaque raw WHERE fragment under a parameter list. -/
structure backend_ops_t where
  name : String
  get_placeholder : Nat → String
  get_auto_increment : String
  get_type_name : field_type_e → Nat → String
  raw_where_eval : String → List SqlVal → Row → Bool

/-- The sqlite backend dialect (backends/sqlite/corm_backend_sqlite.c).
Its raw-WHERE meaning is an arbitrary fixed oracle. -/
def sqlite_backend (raw : String → List SqlVal → Row → Bool) : backend_ops_t where
  name := "sqlite"
  get_placeholder := fun _ => "?"
  get_auto_increment := "AUTOINCREMENT"
  get_type_name := fun t _ =>
    match t with
    | .INT => "INTEGER"
    | .BOOL => "INTEGER"
    | .INT64 => "INTEGER"
    | .FLOAT => "REAL"
    | .DOUBLE => "REAL"
    | .STRING => "TEXT"
    | .BLOB => "BLOB"
    | _ => "TEXT"
  raw_where_eval := raw

/-- The postgresql backend dialect
(backends/postgresql/corm_backend_postgresql.c). -/
def postgres_backend (raw : String → List SqlVal → Row → Bool) : backend_ops_t where
  name := "postgres"
  get_placeholder := fun i => "$" ++ toString i
  get_auto_increment := ""
  get_type_name := fun t maxLen =>
    match t with
    | .INT => "INTEGER"
    | .BOOL => "BOOLEAN"
    | .INT64 => "BIGINT"
    | .FLOAT => "REAL"
    | .DOUBLE => "DOUBLE PRECISION"
    | .STRING => if maxLen > 0 then "VARCHAR(" ++ toString maxLen ++ ")" else "TEXT"
    | .BLOB => "BYTEA"
    | _ => "TEXT"
  raw_where_eval := raw

/-- The full program state threaded through every operation: the handle
(registered models, capacity, backend), the engine database, the heap and
the scoped arena, and the observable event log. -/
structure S where
  db : db_state_t
  heap : Heap
  models : List model_meta_t
  model_capacity : Nat
  arena_used : Nat
  arena_size : Nat
  backend : backend_ops_t
  log : List Event

/-- Append an event to the log. -/
def S.emit (s : S) (e : Event) : S := { s with log := s.log ++ [e] }

/-- CORM_ALIGN_UP with the default pointer alignment of 8. -/
def alignUp (n : Nat) : Nat := ((n + 7) / 8) * 8

/-- corm_arena_alloc: bump `used` by the aligned request, unless the
request is empty or exceeds capacity (in which case the C code returns
NULL and leaves `used` unchanged). -/
def corm_arena_alloc (s : S) (size : Nat) : S :=
  if size = 0 then s
  else if alignUp s.arena_used + size > s.arena_size then s
  else { s with arena_used := alignUp s.arena_used + size }

/-- corm_arena_start_temp: record the checkpoint. -/
def corm_arena_start_temp (s : S) : Nat := s.arena_used

/-- corm_arena_end_temp: roll `used` back to the checkpoint. -/
def corm_arena_end_temp (s : S) (checkpoint : Nat) : S :=
  { s with arena_used := checkpoint }

/-- corm_str_fmt: the formatted text is supplied already rendered; the
arena accounts `len + 1` bytes exactly as vsnprintf sizing does. -/
def corm_str_fmt (s : S) (text : String) : String × S :=
  (text, corm_arena_alloc s (text.length + 1))

/-- corm_str_cat: concatenation allocating `a.size + b.size + 1`. -/
def corm_str_cat (s : S) (a b : String) : String × S :=
  (a ++ b, corm_arena_alloc s (a.length + b.length + 1))

/-- corm_alloc_fn: request a fresh pointer from the heap; the oracle
decides whether this allocation succeeds. -/
def corm_alloc_fn (s : S) : Option Nat × S :=
  if s.heap.ok s.heap.next then
    (some s.heap.next,
      { s with heap := { next := s.heap.next + 1,
                         live := insert s.heap.next s.heap.live,
                         ok := s.heap.ok } })
  else
    (none, { s with heap := { s.heap with next := s.heap.next + 1 } })

/-- corm_free_fn: release a pointer. -/
def corm_free_fn (s : S) (p : Nat) : S :=
  { s with heap := { s.heap with live := s.heap.live.erase p } }

/-- free of a possibly-NULL pointer (free(NULL) is a no-op). -/
def corm_free_opt (s : S) : Option Nat → S
  | none => s
  | some p => corm_free_fn s p

/-- Result container, from include/corm.h.  `data` / `allocations_ptr` /
`self_ptr` are the heap identities of the instance buffer, the tracking
array and the container itself; `instances` is the model-level content of
the instance buffer. -/
structure corm_result_t where
  data : Option Nat := none
  instances : List Instance := []
  count : Int := 0
  allocations : List Nat := []
  allocation_capacity : Nat := 16
  allocations_ptr : Nat
  self_ptr : Nat

/-- corm_result_create: allocate the container and an empty tracking list
of capacity 16; on failure of either allocation nothing stays live. -/
def corm_result_create (s : S) : Option corm_result_t × S :=
  let (cPtr, s) := corm_alloc_fn s
  match cPtr with
  | none => (none, s)
  | some c =>
    let (aPtr, s) := corm_alloc_fn s
    match aPtr with
    | none => (none, corm_free_fn s c)
    | some a =>
      (some { data := none, instances := [], count := 0, allocations := [],
              allocation_capacity := 16, allocations_ptr := a, self_ptr := c }, s)

/-- corm_result_track: append a pointer to the tracking list, growing the
array geometrically; returns false (tracking nothing) if the growth
allocation fails. -/
def corm_result_track (s : S) (res : corm_result_t) (p : Nat) :
    Bool × corm_result_t × S :=
  if res.allocations.length ≥ res.allocation_capacity then
    let (newArr, s) := corm_alloc_fn s
    match newArr with
    | none => (false, res, s)
    | some q =>
      let s := corm_free_fn s res.allocations_ptr
      let res := { res with allocations_ptr := q,
                            allocation_capacity := res.allocation_capacity * 2,
                            allocations := res.allocations ++ [p] }
      (true, res, s)
  else
    (true, { res with allocations := res.allocations ++ [p] }, s)

/-- corm_result_alloc: allocate-then-track as one step; when tracking
fails the fresh allocation is freed and NULL returned. -/
def corm_result_alloc (s : S) (res : corm_result_t) : Option Nat × corm_result_t × S :=
  let (ptr, s) := corm_alloc_fn s
  match ptr with
  | none => (none, res, s)
  | some p =>
    let (ok, res, s) := corm_result_track s res p
    if ok then (some p, res, s) else (none, res, corm_free_fn s p)

/-- corm_free_result: free every tracked pointer, then the tracking array,
then the instance buffer, then the container. -/
def corm_free_result (s : S) (res : corm_result_t) : S :=
  let s := res.allocations.foldl corm_free_fn s
  let s := corm_free_fn s res.allocations_ptr
  let s := corm_free_opt s res.data
  corm_free_fn s res.self_ptr

/-- corm_register_model, src/src/corm.c lines 285-315: scan for primary
key fields (the C loop keeps the last match), reject unless exactly one,
then reject when the registry is full, else record the primary key and
append the model. -/
def corm_register_model (s : S) (meta : model_meta_t) : Bool × model_meta_t × S :=
  let pks := meta.fields.filter (fun f => hasFlag f.flags PRIMARY_KEY)
  let pk_count := pks.length
  if pk_count = 0 then
    (false, meta, s.emit (.logError ("Model " ++ meta.table_name ++
      " must have exactly one PRIMARY_KEY field")))
  else if pk_count > 1 then
    (false, meta, s.emit (.logError ("Model " ++ meta.table_name ++ " has " ++
      toString pk_count ++ " PRIMARY_KEY fields, expected 1")))
  else
    let meta := { meta with primary_key_field := pks.getLast? }
    if s.models.length ≥ s.model_capacity then
      (false, meta, s.emit (.logError ("Maximum number of models (" ++
        toString s.model_capacity ++ ") reached. Define CORM_MAX_MODELS to increase.")))
    else
      (true, meta, { s with models := s.models ++ [meta] })

/-- Is a field a relationship field (excluded from columns)? -/
def isRel (t : field_type_e) : Bool := t = .BELONGS_TO || t = .HAS_MANY

/-- The structured command a piece of generated SQL denotes. -/
inductive stmt_kind where
  | selectWhereEq (table col : String)
  | selectCount (table col : String)
  | selectCountAll (table : String)
  | selectAll (table : String)
  | selectWhereRaw (table whereClause : String)
  | insertCmd (table : String) (cols : List String)
  | updateCmd (table : String) (setCols : List String) (whereCol : String)
  | deleteWhereEq (table col : String)
deriving Repr

/-- The table a statement targets. -/
def stmt_kind.table : stmt_kind → String
  | .selectWhereEq t _ => t
  | .selectCount t _ => t
  | .selectCountAll t => t
  | .selectAll t => t
  | .selectWhereRaw t _ => t
  | .insertCmd t _ => t
  | .updateCmd t _ _ => t
  | .deleteWhereEq t _ => t

/-- A prepared statement: its command, the bound parameters (index/value),
and the row cursor. -/
structure StmtState where
  cmd : stmt_kind
  binds : List (Nat × SqlVal) := []
  cursor : Nat := 0

/-- Look up a table in the engine database. -/
def db_get_table (db : db_state_t) (t : String) : Option table_data_t :=
  (db.tables.find? (fun e => e.1 = t)).map (·.2)

/-- Replace a table in the engine database. -/
def db_set_table (db : db_state_t) (t : String) (td : table_data_t) : db_state_t :=
  { db with tables := db.tables.map (fun e => if e.1 = t then (t, td) else e) }

/-- backend prepare: the SQL text is sent to the backend (logged
verbatim); preparation fails when the statement's table does not exist,
as a real engine rejects such SQL. -/
def backend_prepare (s : S) (sql : String) (cmd : stmt_kind) : Option StmtState × S :=
  let s := s.emit (.prepare sql)
  match db_get_table s.db cmd.table with
  | some _ => (some { cmd := cmd }, s)
  | none => (none, s)

/-- backend finalize. -/
def backend_finalize (s : S) : S := s.emit .finalizeEv

/-- backend reset: rewind the cursor. -/
def backend_reset (s : S) (st : StmtState) : StmtState × S :=
  ({ st with cursor := 0 }, s.emit .resetEv)

/-- Convert a typed field value to the SQL value the matching
bind_{int,int64,double,string,blob,null} call transmits
(bind_param_by_type, src/src/corm.c lines 380-420).  `none` is the
unsupported-type / representation-mismatch failure. -/
def corm_to_sql (v : Value) (ty : field_type_e) : Option SqlVal :=
  match ty, v with
  | .INT, .vInt n => some (.int n)
  | .BOOL, .vBool b => some (.int (if b then 1 else 0))
  | .INT64, .vInt64 n => some (.int n)
  | .FLOAT, .vFloat x => some (.real x)
  | .DOUBLE, .vDouble x => some (.real x)
  | .STRING, .vString (some str) => some (.text str)
  | .STRING, .vString none => some .null
  | .BLOB, .vBlob b => some (if b.length > 0 then .blob b else .null)
  | _, _ => none

/-- bind_param_by_type: record the parameter on the statement. -/
def bind_param_by_type (st : StmtState) (idx : Nat) (v : Value) (ty : field_type_e) :
    Option StmtState :=
  (corm_to_sql v ty).map (fun sv => { st with binds := st.binds ++ [(idx, sv)] })

/-- The parameter bound at an index. -/
def bound_param (st : StmtState) (idx : Nat) : Option SqlVal :=
  (st.binds.find? (fun b => b.1 = idx)).map (·.2)

/-- All bound parameters in bind order. -/
def bound_params (st : StmtState) : List SqlVal := st.binds.map (·.2)

/-- The result rows a select statement yields against the current
database. -/
def stmt_rows (s : S) (st : StmtState) : List Row :=
  match st.cmd with
  | .selectWhereEq t c =>
    match db_get_table s.db t, bound_param st 1 with
    | some td, some v => td.rows.filter (fun r => lookupCol r c = some v)
    | _, _ => []
  | .selectCount t c =>
    match db_get_table s.db t, bound_param st 1 with
    | some td, some v =>
      [⟨[("COUNT", .int (td.rows.filter (fun r => lookupCol r c = some v)).length)]⟩]
    | _, _ => [⟨[("COUNT", .int 0)]⟩]
  | .selectCountAll t =>
    match db_get_table s.db t with
    | some td => [⟨[("COUNT", .int td.rows.length)]⟩]
    | none => [⟨[("COUNT", .int 0)]⟩]
  | .selectAll t =>
    match db_get_table s.db t with
    | some td => td.rows
    | none => []
  | .selectWhereRaw t wc =>
    match db_get_table s.db t with
    | some td => td.rows.filter (s.backend.raw_where_eval wc (bound_params st))
    | none => []
  | _ => []

/-- Execute a data-modifying statement against the database. INSERT fills
schema columns absent from the column list with NULL, except an
auto-increment primary key column which receives the fresh id; the fresh
id also becomes the connection's last-insert-id. -/
def exec_dml (s : S) (st : StmtState) : Int × S :=
  match st.cmd with
  | .insertCmd t cols =>
    match db_get_table s.db t with
    | none => (-1, s)
    | some td =>
      let rid := td.next_id
      let provided := cols.zip (bound_params st)
      let row : Row := ⟨td.schema.map (fun c =>
        (c.1, match provided.find? (fun pv => pv.1 = c.1) with
              | some pv => pv.2
              | none => if c.2 then .int rid else .null))⟩
      let td := { td with rows := td.rows ++ [row], next_id := td.next_id + 1 }
      (0, { s with db := { tables := (db_set_table s.db t td).tables, last_id := rid } })
  | .updateCmd t setCols wc =>
    match db_get_table s.db t, (bound_params st).getLast? with
    | some td, some wv =>
      let setvals := setCols.zip (bound_params st)
      let td := { td with rows := td.rows.map (fun r =>
        if lookupCol r wc = some wv then
          ⟨r.cols.map (fun c =>
            match setvals.find? (fun sv => sv.1 = c.1) with
            | some sv => (c.1, sv.2)
            | none => c)⟩
        else r) }
      (0, { s with db := db_set_table s.db t td })
    | _, _ => (-1, s)
  | .deleteWhereEq t c =>
    match db_get_table s.db t, bound_param st 1 with
    | some td, some wv =>
      let td := { td with rows := td.rows.filter (fun r => ¬(lookupCol r c = some wv)) }
      (0, { s with db := db_set_table s.db t td })
    | _, _ => (-1, s)
  | _ => (0, s)

/-- Is the statement a select (cursor-driven)? -/
def stmt_kind.isSelect : stmt_kind → Bool
  | .insertCmd _ _ => false
  | .updateCmd _ _ _ => false
  | .deleteWhereEq _ _ => false
  | _ => true

/-- backend step: 1 = row available, 0 = done, -1 = error.  A select
yields its rows one by one; a DML statement executes on its (single)
step. -/
def backend_step (s : S) (st : StmtState) : Int × Option Row × StmtState × S :=
  let s := s.emit .stepEv
  if st.cmd.isSelect then
    let rows := stmt_rows s st
    match rows.get? st.cursor with
    | some row => (1, some row, { st with cursor := st.cursor + 1 }, s)
    | none => (0, none, st, s)
  else
    let (r, s) := exec_dml s st
    (r, none, st, s)

/-- A `while (step(stmt) == 1) count++;` loop: consume all remaining rows,
returning how many were seen.  Selects do not modify the database, so the
row list is stable across the iterations. -/
def step_all (s : S) (st : StmtState) : Nat × StmtState × S :=
  let rows := stmt_rows s st
  let n := rows.length - st.cursor
  (n, { st with cursor := rows.length },
   { s with log := s.log ++ List.replicate (n + 1) Event.stepEv })

/-- Positional column access (column_int(stmt, i) etc. index by position). -/
def column_at (r : Row) (i : Nat) : SqlVal :=
  ((r.cols.get? i).map (·.2)).getD .null

/-- column_type: 0 = null, 1 = int, 2 = float, 3 = text, 4 = blob. -/
def column_type_of : SqlVal → Nat
  | .null => 0
  | .int _ => 1
  | .real _ => 2
  | .text _ => 3
  | .blob _ => 4

/-- column_int / column_int64. -/
def column_int : SqlVal → Int
  | .int n => n
  | .real x => x.floor
  | _ => 0

/-- column_double. -/
def column_double : SqlVal → Rat
  | .real x => x
  | .int n => (n : Rat)
  | _ => 0

/-- column_text (NULL when the value has no text representation we model). -/
def column_text : SqlVal → Option String
  | .text str => some str
  | _ => none

/-- column_blob content (with column_bytes = its length). -/
def column_blob : SqlVal → List Nat
  | .blob b => b
  | _ => []

/-- extract_field_from_column, src/src/corm.c lines 317-378: a SQL NULL
column (type 0) leaves the field untouched and succeeds; otherwise the
value is converted per field type; string/blob content is copied into a
fresh tracked allocation (on allocation failure the field is left
untouched, still succeeding). -/
def extract_field_from_column (s : S) (res : corm_result_t) (colv : SqlVal)
    (cur : Value) (ty : field_type_e) : Bool × Value × corm_result_t × S :=
  if column_type_of colv = 0 then (true, cur, res, s)
  else
    match ty with
    | .INT => (true, .vInt (column_int colv), res, s)
    | .BOOL => (true, .vBool (column_int colv ≠ 0), res, s)
    | .INT64 => (true, .vInt64 (column_int colv), res, s)
    | .FLOAT => (true, .vFloat (column_double colv), res, s)
    | .DOUBLE => (true, .vDouble (column_double colv), res, s)
    | .STRING =>
      match column_text colv with
      | some str =>
        let (p, res, s) := corm_result_alloc s res
        match p with
        | some _ => (true, .vString (some str), res, s)
        | none => (true, cur, res, s)
      | none => (true, cur, res, s)
    | .BLOB =>
      let b := column_blob colv
      if b.length > 0 then
        let (p, res, s) := corm_result_alloc s res
        match p with
        | some _ => (true, .vBlob b, res, s)
        | none => (true, cur, res, s)
      else (true, cur, res, s)
    | _ => (false, cur, res, s.emit (.logWarn "Unsupported field type for extraction"))

/-- The validator loop of corm_save (lines 636-648): run each present
validator in field order against the raw field value; return the first
failure with the field name and the message (NULL message becomes
"Unknown error" in the log). -/
def run_validators (inst : Instance) : List field_info_t → Option (String × String)
  | [] => none
  | f :: rest =>
    match f.validator with
    | some vf =>
      let (ok, msg) := vf (inst f.offset)
      if ok then run_validators inst rest
      else some (f.name, msg.getD "Unknown error")
    | none => run_validators inst rest

/-- corm_record_exists, src/src/corm.c lines 456-486: a
`SELECT COUNT(*) ... WHERE pk = ?` probe inside its own arena scope;
any failure counts as "does not exist". -/
def corm_record_exists (s : S) (meta : model_meta_t) (pk_field : field_info_t)
    (pk_value : Value) : Bool × S :=
  let cp := corm_arena_start_temp s
  let ph := s.backend.get_placeholder 1
  let (sql, s) := corm_str_fmt s ("SELECT COUNT(*) FROM " ++ meta.table_name ++
    " WHERE " ++ pk_field.name ++ " = " ++ ph ++ ";")
  let (stOpt, s) := backend_prepare s sql (.selectCount meta.table_name pk_field.name)
  match stOpt with
  | none =>
    (false, corm_arena_end_temp (s.emit (.logError "Failed to prepare statement")) cp)
  | some st =>
    match bind_param_by_type st 1 pk_value pk_field.type with
    | none => (false, corm_arena_end_temp (backend_finalize s) cp)
    | some st =>
      let (r, rowOpt, _st, s) := backend_step s st
      let ex :=
        if r = 1 then
          match rowOpt with
          | some row => decide (0 < column_int (column_at row 0))
          | none => false
        else false
      (ex, corm_arena_end_temp (backend_finalize s) cp)

/-- The fields of the UPDATE SET list: non-relationship, not primary key,
not auto-increment (loop conditions at lines 661-671). -/
def update_set_fields (meta : model_meta_t) : List field_info_t :=
  meta.fields.filter (fun f =>
    !isRel f.type && !(hasFlag f.flags PRIMARY_KEY || hasFlag f.flags AUTO_INC))

/-- The fields of the INSERT column list: non-relationship and not
auto-increment (loop conditions at lines 693-703). -/
def insert_fields (meta : model_meta_t) : List field_info_t :=
  meta.fields.filter (fun f => !isRel f.type && !hasFlag f.flags AUTO_INC)

/-- The fields bound as parameters by corm_save (loop conditions at lines
733-747): non-relationship, not auto-increment, and not the primary key
when updating. -/
def save_bind_fields (meta : model_meta_t) (is_update : Bool) : List field_info_t :=
  meta.fields.filter (fun f =>
    !isRel f.type && !hasFlag f.flags AUTO_INC &&
    !(is_update && hasFlag f.flags PRIMARY_KEY))

/-- The UPDATE SET-list string-building loop (lines 659-682), with its
exact sequence of arena allocations. -/
def save_update_sql_loop (s : S) (sql : String) (first : Bool) (idx : Nat) :
    List field_info_t → String × Nat × S
  | [] => (sql, idx, s)
  | f :: rest =>
    if isRel f.type then save_update_sql_loop s sql first idx rest
    else if hasFlag f.flags PRIMARY_KEY || hasFlag f.flags AUTO_INC then
      save_update_sql_loop s sql first idx rest
    else
      let (sql, s) := if first then (sql, s) else corm_str_cat s sql ", "
      let ph := s.backend.get_placeholder idx
      let (piece, s) := corm_str_fmt s (f.name ++ "=" ++ ph)
      let (sql, s) := corm_str_cat s sql piece
      save_update_sql_loop s sql false (idx + 1) rest

/-- The INSERT column/VALUES string-building loop (lines 691-717), with
its exact sequence of arena allocations. -/
def save_insert_sql_loop (s : S) (sql vals : String) (first : Bool) (idx : Nat) :
    List field_info_t → String × String × Nat × S
  | [] => (sql, vals, idx, s)
  | f :: rest =>
    if isRel f.type then save_insert_sql_loop s sql vals first idx rest
    else if hasFlag f.flags AUTO_INC then save_insert_sql_loop s sql vals first idx rest
    else
      let (sql, vals, s) :=
        if first then (sql, vals, s)
        else
          let (sql, s) := corm_str_cat s sql ", "
          let (vals, s) := corm_str_cat s vals ", "
          (sql, vals, s)
      let (namePiece, s) := corm_str_fmt s f.name
      let (sql, s) := corm_str_cat s sql namePiece
      let ph := s.backend.get_placeholder idx
      let (phPiece, s) := corm_str_fmt s ph
      let (vals, s) := corm_str_cat s vals phPiece
      save_insert_sql_loop s sql vals false (idx + 1) rest

/-- The bind loop of corm_save / corm_where_raw: bind each field value in
order at consecutive indices; on failure report the failing index. -/
def bind_fields (st : StmtState) (inst : Instance) (idx : Nat) :
    List field_info_t → Except Nat (StmtState × Nat)
  | [] => .ok (st, idx)
  | f :: rest =>
    match bind_param_by_type st idx (inst f.offset) f.type with
    | none => .error idx
    | some st => bind_fields st inst (idx + 1) rest

/-- The tail of corm_save after binding (lines 769-791): execute the
statement; on success of an INSERT whose primary key is auto-increment,
write the backend's last-insert-id back into the instance's primary-key
field (for int / int64 keys). -/
def corm_save_finish (s : S) (st : StmtState) (cp : Nat) (is_update : Bool)
    (pk_field : field_info_t) (inst : Instance) : Bool × Instance × S :=
  let (r, _row, _st, s) := backend_step s st
  if r < 0 then
    (false, inst, corm_arena_end_temp (backend_finalize (s.emit (.logError
      ("Failed to execute " ++ (if is_update then "UPDATE" else "INSERT"))))) cp)
  else
    let inst :=
      if !is_update && hasFlag pk_field.flags AUTO_INC then
        let last_id := s.db.last_id
        if pk_field.type = .INT then Function.update inst pk_field.offset (.vInt last_id)
        else if pk_field.type = .INT64 then
          Function.update inst pk_field.offset (.vInt64 last_id)
        else inst
      else inst
    (true, inst, corm_arena_end_temp (backend_finalize s) cp)

/-- The UPDATE statement text construction of corm_save (lines 656-686). -/
def save_build_update_sql (s : S) (meta : model_meta_t) (pk_field : field_info_t) :
    String × S :=
  let (sql, s) := corm_str_fmt s ("UPDATE " ++ meta.table_name ++ " SET ")
  let (sql, idx, s) := save_update_sql_loop s sql true 1 meta.fields
  let wph := s.backend.get_placeholder idx
  let (piece, s) := corm_str_fmt s (" WHERE " ++ pk_field.name ++ "=" ++ wph ++ ";")
  corm_str_cat s sql piece

/-- The INSERT statement text construction of corm_save (lines 687-722). -/
def save_build_insert_sql (s : S) (meta : model_meta_t) : String × S :=
  let (sql, s) := corm_str_fmt s ("INSERT INTO " ++ meta.table_name ++ " (")
  let vals := "VALUES ("
  let (sql, vals, _idx, s) := save_insert_sql_loop s sql vals true 1 meta.fields
  let (sql, s) := corm_str_cat s sql ") "
  let (vals, s) := corm_str_cat s vals ");"
  corm_str_cat s sql vals

/-- The tail of corm_save from statement preparation onward (lines
724-791): prepare, bind the non-excluded fields, bind the primary key in
the UPDATE case, then execute. -/
def corm_save_exec (s : S) (meta : model_meta_t) (sql : String) (cmd : stmt_kind)
    (cp : Nat) (is_update : Bool) (pk_field : field_info_t) (pk_value : Value)
    (inst : Instance) : Bool × Instance × S :=
  let (stOpt, s) := backend_prepare s sql cmd
  match stOpt with
  | none =>
    (false, inst, corm_arena_end_temp (s.emit (.logError
      "Failed to prepare statement")) cp)
  | some st =>
    match bind_fields st inst 1 (save_bind_fields meta is_update) with
    | .error idx =>
      (false, inst, corm_arena_end_temp (backend_finalize (s.emit (.logError
        ("Failed to bind parameter " ++ toString idx)))) cp)
    | .ok (st, idx) =>
      if is_update then
        match bind_param_by_type st idx pk_value pk_field.type with
        | none => (false, inst, corm_arena_end_temp (backend_finalize s) cp)
        | some st => corm_save_finish s st cp is_update pk_field inst
      else corm_save_finish s st cp is_update pk_field inst

/-- corm_save, src/src/corm.c lines 626-792. -/
def corm_save (s : S) (meta : model_meta_t) (inst : Instance) : Bool × Instance × S :=
  let cp := corm_arena_start_temp s
  match meta.primary_key_field with
  | none =>
    (false, inst, corm_arena_end_temp (s.emit (.logError
      ("Primary key field not found in model " ++ meta.table_name))) cp)
  | some pk_field =>
    match run_validators inst meta.fields with
    | some (fname, msg) =>
      (false, inst, corm_arena_end_temp (s.emit (.logError
        ("Validation failed for field " ++ fname ++ ": " ++ msg))) cp)
    | none =>
      let pk_value := inst pk_field.offset
      let (is_update, s) := corm_record_exists s meta pk_field pk_value
      if is_update then
        let (sql, s) := save_build_update_sql s meta pk_field
        corm_save_exec s meta sql (.updateCmd meta.table_name
          ((update_set_fields meta).map (·.name)) pk_field.name) cp
          is_update pk_field pk_value inst
      else
        let (sql, s) := save_build_insert_sql s meta
        corm_save_exec s meta sql (.insertCmd meta.table_name
          ((insert_fields meta).map (·.name))) cp is_update pk_field pk_value inst

/-- The zero-initialized instance a query operation materializes into
(memset(instance, 0, struct_size)). -/
def zeroInstance (meta : model_meta_t) : Instance :=
  meta.fields.foldl (fun m f => Function.update m f.offset (zeroValue f.type))
    (fun _ => Value.vInt 0)

/-- The column-index lookup loop (column name equality scan). -/
def find_column_index (row : Row) (name : String) : Option Nat :=
  row.cols.findIdx? (fun c => c.1 = name)

/-- The row-materialization loop shared by corm_find / corm_find_all /
corm_where_raw / corm_load_has_many: for each non-relationship field,
locate its column by name (a missing column is skipped, with a warning in
the find_all/where_raw/has_many variants) and extract the value. -/
def materialize_fields (s : S) (res : corm_result_t) (row : Row) (inst : Instance)
    (warn : Bool) : List field_info_t → Instance × corm_result_t × S
  | [] => (inst, res, s)
  | f :: rest =>
    if isRel f.type then materialize_fields s res row inst warn rest
    else
      match find_column_index row f.name with
      | none =>
        let s := if warn then
            s.emit (.logWarn ("Column " ++ f.name ++ " not found in result set"))
          else s
        materialize_fields s res row inst warn rest
      | some j =>
        let colv := column_at row j
        let (_ok, v, res, s) := extract_field_from_column s res colv (inst f.offset) f.type
        materialize_fields s res row (Function.update inst f.offset v) warn rest

/-- The materialization tail of corm_find once a row is available (lines
828-874): create the tracked container, allocate and zero the instance,
and extract every field of the single row. -/
def corm_find_fill (s : S) (meta : model_meta_t) (row : Row) (cp : Nat) :
    Option corm_result_t × S :=
  let (resOpt, s) := corm_result_create s
  match resOpt with
  | none => (none, corm_arena_end_temp (backend_finalize s) cp)
  | some res =>
    let (instPtr, s) := corm_alloc_fn s
    match instPtr with
    | none =>
      let s := corm_free_fn s res.allocations_ptr
      let s := corm_free_fn s res.self_ptr
      (none, corm_arena_end_temp (backend_finalize s) cp)
    | some d =>
      let res := { res with data := some d, count := 1 }
      let (inst, res, s) :=
        materialize_fields s res row (zeroInstance meta) false meta.fields
      let res := { res with instances := [inst] }
      (some res, corm_arena_end_temp (backend_finalize s) cp)

/-- The tail of corm_find from the step call onward (lines 820-874). -/
def corm_find_exec (s : S) (meta : model_meta_t) (st : StmtState) (cp : Nat) :
    Option corm_result_t × S :=
  let (r, rowOpt, _st, s) := backend_step s st
  match rowOpt with
  | none => (none, corm_arena_end_temp (backend_finalize s) cp)
  | some row =>
    if r = 1 then corm_find_fill s meta row cp
    else (none, corm_arena_end_temp (backend_finalize s) cp)

/-- corm_find, src/src/corm.c lines 794-875.  (When the model has no
primary-key pointer set the C code dereferences NULL; that unreachable
state is modelled as immediate failure.) -/
def corm_find (s : S) (meta : model_meta_t) (pkv : Value) : Option corm_result_t × S :=
  let cp := corm_arena_start_temp s
  match meta.primary_key_field with
  | none => (none, corm_arena_end_temp s cp)
  | some pkf =>
    let ph := s.backend.get_placeholder 1
    let (sql, s) := corm_str_fmt s ("SELECT * FROM " ++ meta.table_name ++
      " WHERE " ++ pkf.name ++ " = " ++ ph ++ ";")
    let (stOpt, s) := backend_prepare s sql (.selectWhereEq meta.table_name pkf.name)
    match stOpt with
    | none =>
      (none, corm_arena_end_temp (s.emit (.logError "Failed to prepare SELECT")) cp)
    | some st =>
      match bind_param_by_type st 1 pkv pkf.type with
      | none =>
        (none, corm_arena_end_temp (backend_finalize (s.emit (.logError
          "Failed to bind primary key"))) cp)
      | some st => corm_find_exec s meta st cp

/-- The `while (step == 1 && idx < n)` materialization loop over a row
list: each iteration steps, materializes one fresh zeroed instance, and
extracts every field. -/
def materialize_rows (s : S) (res : corm_result_t) (meta : model_meta_t)
    (warn : Bool) : List Row → List Instance × corm_result_t × S
  | [] => ([], res, s)
  | row :: rest =>
    let s := s.emit .stepEv
    let (inst, res, s) := materialize_fields s res row (zeroInstance meta) warn meta.fields
    let (insts, res, s) := materialize_rows s res meta warn rest
    (inst :: insts, res, s)

/-- The main-query tail of corm_find_all (lines 921-971): prepare the
SELECT *, materialize up to record_count rows. -/
def corm_find_all_fill (s : S) (meta : model_meta_t) (res : corm_result_t) (d : Nat)
    (record_count : Int) (cp : Nat) : Option corm_result_t × S :=
  let res := { res with data := some d, count := record_count }
  let (sql, s) := corm_str_fmt s ("SELECT * FROM " ++ meta.table_name ++ ";")
  let (stOpt, s) := backend_prepare s sql (.selectAll meta.table_name)
  match stOpt with
  | none =>
    let s := s.emit (.logError "Failed to prepare find_all query")
    let s := corm_free_fn s d
    let s := corm_free_fn s res.allocations_ptr
    let s := corm_free_fn s res.self_ptr
    (none, corm_arena_end_temp s cp)
  | some st =>
    let rows := (stmt_rows s st).take record_count.toNat
    let (insts, res, s) := materialize_rows s res meta true rows
    let s := s.emit .stepEv
    let res := { res with instances := insts }
    (some res, corm_arena_end_temp (backend_finalize s) cp)

/-- The container-and-buffer allocation of corm_find_all once a nonzero
record count is known (lines 902-919). -/
def corm_find_all_alloc (s : S) (meta : model_meta_t) (record_count : Int) (cp : Nat) :
    Option corm_result_t × S :=
  let (resOpt, s) := corm_result_create s
  match resOpt with
  | none => (none, corm_arena_end_temp s cp)
  | some res =>
    let (instPtr, s) := corm_alloc_fn s
    match instPtr with
    | none =>
      let s := corm_free_fn s res.allocations_ptr
      let s := corm_free_fn s res.self_ptr
      (none, corm_arena_end_temp (s.emit (.logError
        "Failed to allocate instances array")) cp)
    | some d => corm_find_all_fill s meta res d record_count cp

/-- The tail of corm_find_all from the count-step onward (lines 891-971). -/
def corm_find_all_exec (s : S) (meta : model_meta_t) (cst : StmtState) (cp : Nat) :
    Option corm_result_t × S :=
  let (r, rowOpt, _cst, s) := backend_step s cst
  let record_count : Int :=
    if r = 1 then
      match rowOpt with
      | some row => column_int (column_at row 0)
      | none => 0
    else 0
  let s := backend_finalize s
  if record_count = 0 then (none, corm_arena_end_temp s cp)
  else corm_find_all_alloc s meta record_count cp

/-- corm_find_all, src/src/corm.c lines 877-972. -/
def corm_find_all (s : S) (meta : model_meta_t) : Option corm_result_t × S :=
  let cp := corm_arena_start_temp s
  let (count_sql, s) := corm_str_fmt s ("SELECT COUNT(*) FROM " ++ meta.table_name ++ ";")
  let (cstOpt, s) := backend_prepare s count_sql (.selectCountAll meta.table_name)
  match cstOpt with
  | none =>
    (none, corm_arena_end_temp (s.emit (.logError "Failed to prepare count query")) cp)
  | some cst => corm_find_all_exec s meta cst cp

/-- The parameter bind loop of corm_where_raw (lines 995-1002): bind the
i-th parameter at index i+1; on failure report the loop index. -/
def bind_raw_params (st : StmtState) (i : Nat) :
    List (Value × field_type_e) → Except Nat StmtState
  | [] => .ok st
  | (v, ty) :: rest =>
    match bind_param_by_type st (i + 1) v ty with
    | none => .error i
    | some st => bind_raw_params st (i + 1) rest

/-- The materialization tail of corm_where_raw once a nonzero row count
is known (lines 1015-1075): reset, create the container, allocate and
fill the instance array. -/
def corm_where_raw_fill (s : S) (meta : model_meta_t) (st : StmtState) (cp : Nat)
    (result_count : Nat) : Option corm_result_t × S :=
  let (st, s) := backend_reset s st
  let (resOpt, s) := corm_result_create s
  match resOpt with
  | none => (none, corm_arena_end_temp (backend_finalize s) cp)
  | some res =>
    let (instPtr, s) := corm_alloc_fn s
    match instPtr with
    | none =>
      let s := s.emit (.logError "Failed to allocate instances array")
      let s := corm_free_fn s res.allocations_ptr
      let s := corm_free_fn s res.self_ptr
      (none, corm_arena_end_temp (backend_finalize s) cp)
    | some d =>
      let res := { res with data := some d, count := (result_count : Int) }
      let rows := (stmt_rows s st).take result_count
      let (insts, res, s) := materialize_rows s res meta true rows
      let s := s.emit .stepEv
      let res := { res with instances := insts }
      (some res, corm_arena_end_temp (backend_finalize s) cp)

/-- The tail of corm_where_raw after successful preparation (lines
995-1075): bind the parameters positionally, count the rows, reset, and
materialize them. -/
def corm_where_raw_exec (s : S) (meta : model_meta_t) (st : StmtState) (cp : Nat)
    (params : List (Value × field_type_e)) : Option corm_result_t × S :=
  match bind_raw_params st 0 params with
  | .error i =>
    (none, corm_arena_end_temp (backend_finalize (s.emit (.logError
      ("Failed to bind parameter " ++ toString i)))) cp)
  | .ok st =>
    let (result_count, st, s) := step_all s st
    if result_count = 0 then (none, corm_arena_end_temp (backend_finalize s) cp)
    else corm_where_raw_fill s meta st cp result_count

/-- corm_where_raw, src/src/corm.c lines 974-1076.  The caller's WHERE
fragment is embedded verbatim into `SELECT * FROM table WHERE fragment;`
and the parameters are bound positionally; no placeholder rewriting takes
place. -/
def corm_where_raw (s : S) (meta : model_meta_t) (where_clause : String)
    (params : List (Value × field_type_e)) : Option corm_result_t × S :=
  let cp := corm_arena_start_temp s
  let (sql, s) := corm_str_fmt s ("SELECT * FROM " ++ meta.table_name ++
    " WHERE " ++ where_clause ++ ";")
  let (stOpt, s) := backend_prepare s sql (.selectWhereRaw meta.table_name where_clause)
  match stOpt with
  | none =>
    (none, corm_arena_end_temp (s.emit (.logError "Failed to prepare WHERE query")) cp)
  | some st => corm_where_raw_exec s meta st cp params

/-- The execution tail of corm_delete (lines 1111-1120): step, finalize,
roll back the arena, and report an error only on a negative step result —
the affected-row count is never inspected. -/
def corm_delete_exec (s : S) (st : StmtState) (cp : Nat) : Bool × S :=
  let (r, _row, _st, s) := backend_step s st
  let s := backend_finalize s
  let s := corm_arena_end_temp s cp
  if r < 0 then (false, s.emit (.logError "Failed to execute DELETE"))
  else (true, s)

/-- corm_delete, src/src/corm.c lines 1078-1121: a single parameterized
DELETE keyed by primary key.  Note: the affected-row count is never
inspected; only a negative step result is an error. -/
def corm_delete (s : S) (meta : model_meta_t) (pk_value : Value) : Bool × S :=
  match meta.primary_key_field with
  | none =>
    (false, s.emit (.logError ("Model " ++ meta.table_name ++ " has no primary key")))
  | some pkf =>
    let cp := corm_arena_start_temp s
    let ph := s.backend.get_placeholder 1
    let (sql, s) := corm_str_fmt s ("DELETE FROM " ++ meta.table_name ++
      " WHERE " ++ pkf.name ++ " = " ++ ph ++ ";")
    let (stOpt, s) := backend_prepare s sql (.deleteWhereEq meta.table_name pkf.name)
    match stOpt with
    | none =>
      (false, corm_arena_end_temp (s.emit (.logError "Failed to prepare DELETE")) cp)
    | some st =>
      match bind_param_by_type st 1 pk_value pkf.type with
      | none =>
        (false, corm_arena_end_temp (backend_finalize (s.emit (.logError
          "Failed to bind primary key"))) cp)
      | some st => corm_delete_exec s st cp

/-- Sync modes, from include/corm.h. -/
inductive corm_sync_mode_e where
  | CORM_SYNC_SAFE
  | CORM_SYNC_DROP
  | CORM_SYNC_MIGRATE
deriving DecidableEq, Repr

/-- The structured meaning of SQL handed to the execute entry point. -/
inductive exec_cmd where
  | createTable (name : String) (schema : List (String × Bool))
  | dropTable (name : String)

/-- backend execute: CREATE TABLE IF NOT EXISTS / DROP TABLE IF EXISTS
semantics; the SQL text is logged verbatim. -/
def backend_execute (s : S) (sql : String) (cmd : exec_cmd) : Bool × S :=
  let s := s.emit (.execSql sql)
  match cmd with
  | .createTable name schema =>
    match db_get_table s.db name with
    | some _ => (true, s)
    | none =>
      (true, { s with db := { s.db with tables :=
        s.db.tables ++ [(name, { schema := schema, rows := [], next_id := 1 })] } })
  | .dropTable name =>
    (true, { s with db := { s.db with
      tables := s.db.tables.filter (fun e => e.1 ≠ name) } })

/-- The engine-side schema of the table corm creates for a model: every
non-relationship field, marked when it is an auto-increment primary key. -/
def schemaOf (meta : model_meta_t) : List (String × Bool) :=
  (meta.fields.filter (fun f => !isRel f.type)).map
    (fun f => (f.name, hasFlag f.flags PRIMARY_KEY && hasFlag f.flags AUTO_INC))

/-- corm_table_exists. -/
def corm_table_exists (s : S) (name : String) : Bool :=
  (db_get_table s.db name).isSome

/-- The column-definition loop of corm_generate_create_table_sql
(lines 491-528), with its exact sequence of arena allocations. -/
def create_cols_loop (s : S) (sql : String) (first : Bool) :
    List field_info_t → String × S
  | [] => (sql, s)
  | f :: rest =>
    if isRel f.type then create_cols_loop s sql first rest
    else
      let (sql, s) := if first then (sql, s) else corm_str_cat s sql ", "
      let tyName := s.backend.get_type_name f.type f.max_length
      let (colDef, s) := corm_str_fmt s (f.name ++ " " ++ tyName)
      let (sql, s) := corm_str_cat s sql colDef
      let (sql, s) :=
        if hasFlag f.flags PRIMARY_KEY then
          let (sql, s) := corm_str_cat s sql " PRIMARY KEY"
          if hasFlag f.flags AUTO_INC then
            let ai := s.backend.get_auto_increment
            if ai.length > 0 then
              let (aiStr, s) := corm_str_fmt s (" " ++ ai)
              corm_str_cat s sql aiStr
            else (sql, s)
          else (sql, s)
        else (sql, s)
      let (sql, s) :=
        if hasFlag f.flags NOT_NULL then corm_str_cat s sql " NOT NULL" else (sql, s)
      let (sql, s) :=
        if hasFlag f.flags UNIQUE then corm_str_cat s sql " UNIQUE" else (sql, s)
      create_cols_loop s sql false rest

/-- The foreign-key-clause loop of corm_generate_create_table_sql
(lines 530-554). -/
def create_fk_loop (s : S) (sql : String) : List field_info_t → String × S
  | [] => (sql, s)
  | f :: rest =>
    if f.type = .BELONGS_TO then
      let (fk, s) := corm_str_fmt s (", FOREIGN KEY (" ++ f.fk_column_name ++
        ") REFERENCES " ++ f.target_model_name ++ "(id)")
      let (fk, s) :=
        match f.on_delete with
        | .FK_CASCADE => corm_str_cat s fk " ON DELETE CASCADE"
        | .FK_SET_NULL => corm_str_cat s fk " ON DELETE SET NULL"
        | .FK_RESTRICT => corm_str_cat s fk " ON DELETE RESTRICT"
        | .FK_NO_ACTION => (fk, s)
      let (sql, s) := corm_str_cat s sql fk
      create_fk_loop s sql rest
    else create_fk_loop s sql rest

/-- corm_generate_create_table_sql, src/src/corm.c lines 488-558.  Note
that this function performs arena allocations with no temporary scope of
its own. -/
def corm_generate_create_table_sql (s : S) (meta : model_meta_t) : String × S :=
  let (sql, s) := corm_str_fmt s ("CREATE TABLE IF NOT EXISTS " ++ meta.table_name ++ " (")
  let (sql, s) := create_cols_loop s sql true meta.fields
  let (sql, s) := create_fk_loop s sql meta.fields
  corm_str_cat s sql ");"

/-- Resolve the relationship fields of one model against the registry
(corm_resolve_relationships inner loops): each relationship field's
target name is looked up among registered models; failure carries the
target and field names for the error log. -/
def resolve_fields (models : List model_meta_t) :
    List field_info_t → Except (String × String) (List field_info_t)
  | [] => .ok []
  | f :: rest =>
    if isRel f.type then
      match models.findIdx? (fun m => m.table_name = f.target_model_name) with
      | none => .error (f.target_model_name, f.name)
      | some k =>
        (resolve_fields models rest).map (fun rs => { f with related_model := some k } :: rs)
    else (resolve_fields models rest).map (fun rs => f :: rs)

/-- Resolution over the whole registry. -/
def resolve_models (models : List model_meta_t) :
    List model_meta_t → Except (String × String) (List model_meta_t)
  | [] => .ok []
  | m :: rest =>
    match resolve_fields models m.fields with
    | .error e => .error e
    | .ok fs => (resolve_models models rest).map (fun ms => { m with fields := fs } :: ms)

/-- corm_resolve_relationships, src/src/corm.c lines 422-450. -/
def corm_resolve_relationships (s : S) : Bool × S :=
  match resolve_models s.models s.models with
  | .error (target, fname) =>
    (false, s.emit (.logError ("Related model " ++ target ++
      " not found for field " ++ fname)))
  | .ok ms => (true, { s with models := ms })

/-- The CORM_SYNC_SAFE loop (lines 566-581): create each missing table;
note that the CREATE TABLE text is built with no arena checkpoint. -/
def sync_safe_loop (s : S) : List model_meta_t → Bool × S
  | [] => (true, s)
  | meta :: rest =>
    if corm_table_exists s meta.table_name then sync_safe_loop s rest
    else
      let (create_sql, s) := corm_generate_create_table_sql s meta
      let (ok, s) := backend_execute s create_sql
        (.createTable meta.table_name (schemaOf meta))
      if ok then sync_safe_loop s rest
      else (false, s.emit (.logError ("Failed to create table " ++ meta.table_name)))

/-- The CORM_SYNC_DROP drop loop (lines 588-600): each DROP statement is
built inside its own arena scope. -/
def sync_drop_loop (s : S) : List model_meta_t → Bool × S
  | [] => (true, s)
  | meta :: rest =>
    let cp := corm_arena_start_temp s
    let (drop_sql, s) := corm_str_fmt s ("DROP TABLE IF EXISTS " ++ meta.table_name ++ ";")
    let (ok, s) := backend_execute s drop_sql (.dropTable meta.table_name)
    if ok then sync_drop_loop (corm_arena_end_temp s cp) rest
    else (false, corm_arena_end_temp (s.emit (.logError
      ("Failed to drop table " ++ meta.table_name))) cp)

/-- The CORM_SYNC_DROP recreate loop (lines 604-612): CREATE TABLE text
built with no arena checkpoint. -/
def sync_create_loop (s : S) : List model_meta_t → Bool × S
  | [] => (true, s)
  | meta :: rest =>
    let (create_sql, s) := corm_generate_create_table_sql s meta
    let (ok, s) := backend_execute s create_sql
      (.createTable meta.table_name (schemaOf meta))
    if ok then sync_create_loop s rest
    else (false, s.emit (.logError ("Failed to create table " ++ meta.table_name)))

/-- corm_sync, src/src/corm.c lines 560-624. -/
def corm_sync (s : S) (mode : corm_sync_mode_e) : Bool × S :=
  let (rok, s) := corm_resolve_relationships s
  if !rok then (false, s)
  else
    match mode with
    | .CORM_SYNC_SAFE => sync_safe_loop s s.models
    | .CORM_SYNC_DROP =>
      let s := s.emit (.setForeignKeys false)
      let (ok, s) := sync_drop_loop s s.models
      if !ok then (false, s)
      else
        let s := s.emit (.setForeignKeys true)
        sync_create_loop s s.models
    | .CORM_SYNC_MIGRATE =>
      (false, s.emit (.logError "CORM_SYNC_MIGRATE is not implemented yet"))

/-- The belongs-to zero-value sentinel check (lines 1146-1162): 0 for
int/bool/int64 foreign keys, the NULL pointer for string foreign keys;
any other foreign-key type is never treated as null. -/
def fk_is_null (fkv : Value) : field_type_e → Bool
  | .INT => fkv = .vInt 0
  | .BOOL => fkv = .vBool false
  | .INT64 => fkv = .vInt64 0
  | .STRING => fkv = .vString none
  | _ => false

/-- The merge loop of corm_load_belongs_to (lines 1189-1196): re-track
every allocation of the nested result into the caller-provided container;
stop at the first tracking failure. -/
def track_all (s : S) (parent : corm_result_t) : List Nat → Bool × corm_result_t × S
  | [] => (true, parent, s)
  | p :: rest =>
    let (ok, parent, s) := corm_result_track s parent p
    if ok then track_all s parent rest
    else (false, parent, s.emit (.logError
      "Failed to track allocation for related field"))

/-- corm_load_belongs_to, src/src/corm.c lines 1123-1210.  The resolved
`field->related_model` pointer is the registry index stored by
resolution.  When the foreign key is the zero sentinel the relation
pointer is nulled and no query is issued; otherwise the related row is
fetched with corm_find and its allocations are merged into the
caller-provided result. -/
def corm_load_belongs_to (s : S) (parent_result : corm_result_t) (inst : Instance)
    (meta : model_meta_t) (field : field_info_t) :
    Bool × corm_result_t × Instance × S :=
  match meta.fields.find? (fun f => f.name = field.fk_column_name) with
  | none =>
    (false, parent_result, inst, s.emit (.logError ("Foreign key field " ++
      field.fk_column_name ++ " not found in model " ++ meta.table_name)))
  | some fk_field =>
    match field.related_model.bind (fun i => s.models.get? i) with
    | none =>
      (false, parent_result, inst, s.emit (.logError
        ("Related model not resolved for field " ++ field.name)))
    | some related_meta =>
      let fkv := inst fk_field.offset
      if fk_is_null fkv fk_field.type then
        (true, parent_result, Function.update inst field.offset (.vPtr none), s)
      else
        let (relResOpt, s) := corm_find s related_meta fkv
        match relResOpt with
        | none =>
          (false, parent_result, inst, s.emit (.logWarn
            ("Related instance not found for field " ++ field.name)))
        | some related_result =>
          match related_result.data with
          | none => (false, parent_result, inst, s)
          | some dptr =>
            let (ok, parent_result, s) := corm_result_track s parent_result dptr
            if !ok then
              let s := related_result.allocations.foldl corm_free_fn s
              let s := corm_free_fn s related_result.allocations_ptr
              let s := corm_free_fn s dptr
              let s := corm_free_fn s related_result.self_ptr
              (false, parent_result, inst, s)
            else
              let (all_tracked, parent_result, s) :=
                track_all s parent_result related_result.allocations
              let s := corm_free_fn s related_result.allocations_ptr
              let s := corm_free_fn s related_result.self_ptr
              if !all_tracked then
                (false, parent_result, inst, s.emit (.logError
                  "Relation loading failed, some allocations may leak"))
              else
                (true, parent_result,
                  Function.update inst field.offset (.vPtr (some dptr)), s)

/-- The tail of corm_load_has_many from the counting loop onward (lines
1245-1314). -/
def corm_load_has_many_exec (s : S) (parent_result : corm_result_t) (inst : Instance)
    (field : field_info_t) (related_meta : model_meta_t) (st : StmtState) (cp : Nat) :
    Bool × corm_result_t × Instance × S :=
  let (count, st, s) := step_all s st
  let (st, s) := backend_reset s st
  if count > 0 then
    let (instPtr, s) := corm_alloc_fn s
    match instPtr with
    | none =>
      (false, parent_result, inst, corm_arena_end_temp (backend_finalize
        (s.emit (.logError "Failed to allocate instances array"))) cp)
    | some d =>
      let (ok, parent_result, s) := corm_result_track s parent_result d
      if !ok then
        let s := s.emit (.logError "Failed to track instances array")
        let s := corm_free_fn s d
        (false, parent_result, inst,
          corm_arena_end_temp (backend_finalize s) cp)
      else
        let rows := (stmt_rows s st).take count
        let (_insts, parent_result, s) :=
          materialize_rows s parent_result related_meta true rows
        let s := s.emit .stepEv
        let s := backend_finalize s
        let s := corm_arena_end_temp s cp
        let inst := Function.update inst field.offset (.vPtr (some d))
        let inst := Function.update inst field.count_offset (.vInt count)
        (true, parent_result, inst, s)
  else
    let s := s.emit .stepEv
    let s := backend_finalize s
    let s := corm_arena_end_temp s cp
    let inst := Function.update inst field.offset (.vPtr none)
    let inst := Function.update inst field.count_offset (.vInt count)
    (true, parent_result, inst, s)

/-- corm_load_has_many, src/src/corm.c lines 1212-1315: fetch all rows of
the target entity whose foreign-key column equals this instance's primary
key, materialize them into a fresh buffer tracked by the caller-provided
result, and write the buffer pointer and the row count into the relation
and count offsets. -/
def corm_load_has_many (s : S) (parent_result : corm_result_t) (inst : Instance)
    (meta : model_meta_t) (field : field_info_t) :
    Bool × corm_result_t × Instance × S :=
  let cp := corm_arena_start_temp s
  match field.related_model.bind (fun i => s.models.get? i) with
  | none =>
    (false, parent_result, inst, corm_arena_end_temp (s.emit (.logError
      ("Related model not resolved for field " ++ field.name))) cp)
  | some related_meta =>
    match meta.primary_key_field with
    | none => (false, parent_result, inst, corm_arena_end_temp s cp)
    | some pkf =>
      let pk_value := inst pkf.offset
      let ph := s.backend.get_placeholder 1
      let (sql, s) := corm_str_fmt s ("SELECT * FROM " ++ related_meta.table_name ++
        " WHERE " ++ field.fk_column_name ++ " = " ++ ph ++ ";")
      let (stOpt, s) := backend_prepare s sql
        (.selectWhereEq related_meta.table_name field.fk_column_name)
      match stOpt with
      | none =>
        (false, parent_result, inst, corm_arena_end_temp (s.emit (.logError
          "Failed to prepare has_many query")) cp)
      | some st =>
        match bind_param_by_type st 1 pk_value pkf.type with
        | none =>
          (false, parent_result, inst,
            corm_arena_end_temp (backend_finalize s) cp)
        | some st =>
          corm_load_has_many_exec s parent_result inst field related_meta st cp

/-- corm_load_relation, src/src/corm.c lines 1317-1338: look up the named
field and dispatch on its relationship kind. -/
def corm_load_relation (s : S) (result : corm_result_t) (meta : model_meta_t)
    (inst : Instance) (field_name : String) : Bool × corm_result_t × Instance × S :=
  match meta.fields.find? (fun f => f.name = field_name) with
  | none =>
    (false, result, inst, s.emit (.logError ("Field " ++ field_name ++
      " does not exist in " ++ meta.table_name)))
  | some field =>
    if field.type = .BELONGS_TO then corm_load_belongs_to s result inst meta field
    else if field.type = .HAS_MANY then corm_load_has_many s result inst meta field
    else (false, result, inst, s)

/-- Count occurrences of a character in a string (used to reason about
placeholder markers in generated SQL). -/
def countChar (c : Char) (str : String) : Nat :=
  (str.toList.filter (fun d => d = c)).length

/-- The SELECT statement text corm_where_raw sends to the backend. -/
def where_raw_sql (meta : model_meta_t) (wc : String) : String :=
  "SELECT * FROM " ++ meta.table_name ++ " WHERE " ++ wc ++ ";"

/-- Primary-key-flagged field count of a model. -/
def pkCount (meta : model_meta_t) : Nat :=
  (meta.fields.filter (fun f => hasFlag f.flags PRIMARY_KEY)).length

/-- A raw-WHERE oracle matching nothing (concrete scenarios). -/
def rawNone : String → List SqlVal → Row → Bool := fun _ _ _ => false

/-- An empty heap whose allocations always succeed. -/
def heap0 : Heap := { next := 0, live := ∅, ok := fun _ => true }

/-- Concrete model: users(id INT PK AUTO_INC, name STRING, age INT,
is_active BOOL), as registration leaves it. -/
def user_id_field : field_info_t :=
  { name := "id", offset := 0, type := .INT, flags := PRIMARY_KEY ||| AUTO_INC }

def user_name_field : field_info_t := { name := "name", offset := 8, type := .STRING }

def user_age_field : field_info_t := { name := "age", offset := 16, type := .INT }

def user_active_field : field_info_t :=
  { name := "is_active", offset := 24, type := .BOOL }

def user_meta : model_meta_t :=
  { table_name := "users", struct_size := 32,
    fields := [user_id_field, user_name_field, user_age_field, user_active_field],
    primary_key_field := some user_id_field }

/-- The users table as corm_sync creates it, still empty. -/
def users_table : table_data_t := { schema := schemaOf user_meta, rows := [], next_id := 1 }

/-- A base state: users table synced, one registered model. -/
def S0 (bk : backend_ops_t) : S :=
  { db := { tables := [("users", users_table)], last_id := 0 },
    heap := heap0, models := [user_meta], model_capacity := 128,
    arena_used := 0, arena_size := 1048576, backend := bk, log := [] }

/-- A fresh user instance (id 0, about to be inserted). -/
def user_inst : Instance := fun off =>
  if off = 0 then .vInt 0
  else if off = 8 then .vString (some "alice")
  else if off = 16 then .vInt 30
  else if off = 24 then .vBool true
  else .vInt 0

/-- A model with no primary-key-flagged field (for register failure). -/
def no_pk_meta : model_meta_t :=
  { table_name := "bad", struct_size := 8, fields := [user_name_field] }

/-- The event log only grows: s' extends s. -/
def LogExt (s t : S) : Prop := ∃ d, t.log = s.log ++ d

/-- A validator that always rejects, setting a message. -/
def name_required_validator : Value → Bool × Option String :=
  fun _ => (false, some "name required")

/-- A users model whose name field carries a failing validator. -/
def vuser_name_field : field_info_t :=
  { name := "name", offset := 8, type := .STRING,
    validator := some name_required_validator }

def vuser_meta : model_meta_t :=
  { table_name := "users", struct_size := 32,
    fields := [user_id_field, vuser_name_field],
    primary_key_field := some user_id_field }

/-- Concrete model: posts(id INT PK AUTO_INC, user_id INT, user
belongs-to users via user_id), registered alongside users. -/
def post_id_field : field_info_t :=
  { name := "id", offset := 0, type := .INT, flags := PRIMARY_KEY ||| AUTO_INC }

def post_user_id_field : field_info_t := { name := "user_id", offset := 8, type := .INT }

def post_rel_field : field_info_t :=
  { name := "user", offset := 16, type := .BELONGS_TO,
    target_model_name := "users", fk_column_name := "user_id", related_model := some 0 }

def post_meta : model_meta_t :=
  { table_name := "posts", struct_size := 24,
    fields := [post_id_field, post_user_id_field, post_rel_field],
    primary_key_field := some post_id_field }

/-- A parent result container (abstract heap identities). -/
def res0 : corm_result_t := { allocations_ptr := 100, self_ptr := 101 }

/-- A post instance whose foreign key holds 0 (the no-relation
sentinel). -/
def post_inst_zero : Instance := fun off =>
  if off = 16 then .vPtr none else .vInt 0

/-- Concrete model pair with a string-typed key: tags(name STRING PK) and
notes(id INT PK, tag_name STRING, tag belongs-to tags via tag_name). -/
def tag_name_field : field_info_t :=
  { name := "name", offset := 0, type := .STRING, flags := PRIMARY_KEY }

def tag_meta : model_meta_t :=
  { table_name := "tags", struct_size := 8, fields := [tag_name_field],
    primary_key_field := some tag_name_field }

def note_id_field : field_info_t :=
  { name := "id", offset := 0, type := .INT, flags := PRIMARY_KEY ||| AUTO_INC }

def note_tag_name_field : field_info_t :=
  { name := "tag_name", offset := 8, type := .STRING }

def note_rel_field : field_info_t :=
  { name := "tag", offset := 16, type := .BELONGS_TO,
    target_model_name := "tags", fk_column_name := "tag_name", related_model := some 0 }

def note_meta : model_meta_t :=
  { table_name := "notes", struct_size := 24,
    fields := [note_id_field, note_tag_name_field, note_rel_field],
    primary_key_field := some note_id_field }

/-- The empty tags table. -/
def tags_table : table_data_t := { schema := schemaOf tag_meta, rows := [], next_id := 1 }

/-- State with an empty tags table and the tags model registered. -/
def S6 : S :=
  { db := { tables := [("tags", tags_table)], last_id := 0 },
    heap := heap0, models := [tag_meta], model_capacity := 128,
    arena_used := 0, arena_size := 1048576,
    backend := sqlite_backend rawNone, log := [] }

/-- A note instance whose string foreign key is a non-NULL empty string. -/
def note_inst_empty_fk : Instance := fun off =>
  if off = 8 then .vString (some "")
  else if off = 16 then .vPtr none
  else .vInt 0

/-- A state whose users table has not been created yet. -/
def S9 : S :=
  { db := { tables := [], last_id := 0 },
    heap := heap0, models := [user_meta], model_capacity := 128,
    arena_used := 0, arena_size := 1048576,
    backend := sqlite_backend rawNone, log := [] }

/-- Heap well-formedness: every live pointer is below the counter. -/
def HeapFresh (h : Heap) : Prop := ∀ p ∈ h.live, p < h.next

/-- The set of heap pointers a result container owns: its tracked
allocations, the tracking array, the container itself, and the instance
buffer when present. -/
def resFootprint (res : corm_result_t) : Finset Nat :=
  res.allocations.toFinset ∪ {res.allocations_ptr, res.self_ptr} ∪ res.data.toFinset

/-- The heap of state `s` is the baseline heap `h0` plus exactly the
extra footprint `F`, disjoint from the baseline, still well-formed, with
a monotone counter. -/
def HInv (h0 : Heap) (s : S) (F : Finset Nat) : Prop :=
  s.heap.live = h0.live ∪ F ∧ Disjoint F h0.live ∧ HeapFresh s.heap ∧
    h0.next ≤ s.heap.next

/-- The pointers a container owns are pairwise separated: the array, the
container, the buffer and the tracked list never alias. -/
def ResSep (res : corm_result_t) : Prop :=
  res.allocations_ptr ∉ res.allocations ∧ res.allocations_ptr ≠ res.self_ptr ∧
  res.self_ptr ∉ res.allocations ∧
  (∀ d, res.data = some d →
    d ∉ res.allocations ∧ d ≠ res.allocations_ptr ∧ d ≠ res.self_ptr) ∧
  res.allocations.Nodup

/-- The non-relationship fields of a model (the columns of its table). -/
def nonRelFields (meta : model_meta_t) : List field_info_t :=
  meta.fields.filter (fun f => !isRel f.type)

/-- The bind list the corm_save bind loop produces on success: consecutive
indices paired with the SQL value of each field. -/
def bindsOf (inst : Instance) : Nat → List field_info_t → List (Nat × SqlVal)
  | _, [] => []
  | i, f :: rest =>
    (i, (corm_to_sql (inst f.offset) f.type).getD .null) :: bindsOf inst (i + 1) rest

/-- A heap whose allocation oracle always succeeds. -/
def OracleTrue (s : S) : Prop := ∀ n, s.heap.ok n = true

/-- The row the idealized INSERT of exec_dml appends: each schema column
takes its bound value when its name is in the column list, else NULL,
except an auto-increment primary-key column which takes the fresh id. -/
def insertedRow (td : table_data_t) (cols : List String) (svs : List SqlVal) : Row :=
  ⟨td.schema.map (fun c =>
    (c.1, match (cols.zip svs).find? (fun pv => pv.1 = c.1) with
          | some pv => pv.2
          | none => if c.2 then .int td.next_id else .null))⟩

/-- A raw-WHERE oracle matching every row (concrete scenarios). -/
def rawAll : String → List SqlVal → Row → Bool := fun _ _ _ => true

/-- A stored user row with id 1. -/
def user_row1 : Row :=
  ⟨[("id", .int 1), ("name", .text "alice"), ("age", .int 30), ("is_active", .int 1)]⟩

/-- The users table holding that row. -/
def users_table1 : table_data_t :=
  { schema := schemaOf user_meta, rows := [user_row1], next_id := 2 }

/-- A post instance whose foreign key points at user 1. -/
def post_inst : Instance := fun off =>
  if off = 0 then .vInt 1 else if off = 8 then .vInt 1 else .vInt 0

/-- A heap with three live pointers 0, 1, 2. -/
def heap8 : Heap := { next := 3, live := {0, 1, 2}, ok := fun _ => true }

/-- A result container owning exactly those three pointers. -/
def parent8 : corm_result_t :=
  { data := some 2, instances := [], count := 1, allocations := [],
    allocation_capacity := 16, allocations_ptr := 0, self_ptr := 1 }

/-- A populated state: a stored user, the user model in registry slot 0,
and a heap carrying the three pointers parent8 owns. -/
def S8 : S :=
  { db := { tables := [("users", users_table1)], last_id := 1 },
    heap := heap8, models := [user_meta], model_capacity := 128,
    arena_used := 0, arena_size := 1048576, backend := sqlite_backend rawAll, log := [] }


/-- C10: for every field type, when the backend reports the column value
as SQL NULL (column type 0), extract_field_from_column succeeds, leaves
the field at its current (zero-initialized) value, and neither allocates
nor tracks anything (result container, heap, log all unchanged). -/
theorem C10_null_column_extract (s : S) (res : corm_result_t) (cur : Value)
    (ty : field_type_e) :
    extract_field_from_column s res .null cur ty = (true, cur, res, s) := rfl

theorem arena_alloc_db (s : S) (n : Nat) : (corm_arena_alloc s n).db = s.db := by
  unfold corm_arena_alloc; split_ifs <;> rfl

theorem arena_alloc_log (s : S) (n : Nat) : (corm_arena_alloc s n).log = s.log := by
  unfold corm_arena_alloc; split_ifs <;> rfl

theorem arena_alloc_heap (s : S) (n : Nat) : (corm_arena_alloc s n).heap = s.heap := by
  unfold corm_arena_alloc; split_ifs <;> rfl

theorem arena_alloc_models (s : S) (n : Nat) :
    (corm_arena_alloc s n).models = s.models := by
  unfold corm_arena_alloc; split_ifs <;> rfl

theorem arena_alloc_backend (s : S) (n : Nat) :
    (corm_arena_alloc s n).backend = s.backend := by
  unfold corm_arena_alloc; split_ifs <;> rfl

/-- C1: corm_register_model fails with the SchemaError log exactly when
the primary-key-flagged field count is not 1 (checked before capacity);
with exactly one primary key it fails with the CapacityError log exactly
when the registry is full; on success the entity (with its primary key
resolved) is appended to the handle's model list. -/
theorem C1_register_model_spec (s : S) (meta : model_meta_t) :
    ((corm_register_model s meta).1 = false ↔
      (pkCount meta ≠ 1 ∨ s.models.length ≥ s.model_capacity)) ∧
    (pkCount meta = 0 →
      corm_register_model s meta = (false, meta, s.emit (.logError ("Model " ++
        meta.table_name ++ " must have exactly one PRIMARY_KEY field")))) ∧
    (1 < pkCount meta →
      corm_register_model s meta = (false, meta, s.emit (.logError ("Model " ++
        meta.table_name ++ " has " ++ toString (pkCount meta) ++
        " PRIMARY_KEY fields, expected 1")))) ∧
    (pkCount meta = 1 → s.models.length ≥ s.model_capacity →
      (corm_register_model s meta).2.2 = s.emit (.logError
        ("Maximum number of models (" ++ toString s.model_capacity ++
         ") reached. Define CORM_MAX_MODELS to increase.")) ∧
      (corm_register_model s meta).2.2.models = s.models) ∧
    (pkCount meta = 1 → s.models.length < s.model_capacity →
      corm_register_model s meta =
        (true,
         { meta with primary_key_field :=
            (meta.fields.filter (fun f => hasFlag f.flags PRIMARY_KEY)).getLast? },
         { s with models := s.models ++
            [{ meta with primary_key_field :=
              (meta.fields.filter (fun f => hasFlag f.flags PRIMARY_KEY)).getLast? }] })) := by
  unfold pkCount
  refine ⟨?_, ?_, ?_, ?_, ?_⟩
  · simp only [corm_register_model]
    split_ifs with h0 h1 h2 <;> simp <;> omega
  · intro h0
    simp [corm_register_model, h0]
  · intro h1
    have h0 : ¬(meta.fields.filter (fun f => hasFlag f.flags PRIMARY_KEY)).length = 0 := by
      omega
    simp [corm_register_model, h0, h1]
  · intro h1 h2
    have h0 : ¬(meta.fields.filter (fun f => hasFlag f.flags PRIMARY_KEY)).length = 0 := by
      omega
    have h1' : ¬(meta.fields.filter (fun f => hasFlag f.flags PRIMARY_KEY)).length > 1 := by
      omega
    simp [corm_register_model, h0, h1', h2, S.emit]
  · intro h1 h2
    have h0 : ¬(meta.fields.filter (fun f => hasFlag f.flags PRIMARY_KEY)).length = 0 := by
      omega
    have h1' : ¬(meta.fields.filter (fun f => hasFlag f.flags PRIMARY_KEY)).length > 1 := by
      omega
    have h2' : ¬(s.models.length ≥ s.model_capacity) := by omega
    simp [corm_register_model, h0, h1', h2']

/-- Witness for C1: the concrete users model registers successfully into a
non-full registry, and a model with zero primary keys is rejected. -/
theorem C1_register_model_witness :
    (corm_register_model (S0 (sqlite_backend rawNone)) user_meta).1 = true ∧
    (corm_register_model (S0 (sqlite_backend rawNone)) no_pk_meta).1 = false := by
  constructor
  · have h := (C1_register_model_spec (S0 (sqlite_backend rawNone)) user_meta).2.2.2.2
      (by decide) (by decide)
    rw [h]
  · have h := (C1_register_model_spec (S0 (sqlite_backend rawNone)) no_pk_meta).2.1
      (by decide)
    rw [h]

/-- C4 (code evaluated at the failing input): deleting a primary key that
matches no row — the users table is empty — affects zero rows, yet
corm_delete returns true: the code never inspects the affected-row count,
so the NotFoundError case the claim describes does not exist. -/
theorem C4_delete_zero_rows_returns_true :
    (corm_delete (S0 (sqlite_backend rawNone)) user_meta (.vInt 999)).1 = true ∧
    ((db_get_table (S0 (sqlite_backend rawNone)).db "users").map
      (fun td => td.rows)) = some [] ∧
    ((db_get_table (corm_delete (S0 (sqlite_backend rawNone)) user_meta
        (.vInt 999)).2.db "users").map (fun td => td.rows)) = some [] := by
  refine ⟨rfl, rfl, rfl⟩

/-- C5 counterexample: under the postgres dialect (placeholders $1, $2,
...), a WHERE fragment with one "?" marker is sent to the backend
verbatim: the emitted SQL contains the "?" unchanged and no "$"
placeholder at all, so the number of backend placeholders emitted (0) is
not the number of markers (1). -/
theorem C5_counterexample_postgres_passthrough :
    (corm_where_raw (S0 (postgres_backend rawNone)) user_meta "age > ?"
      [(.vInt 20, .INT)]).2.log =
      [.prepare "SELECT * FROM users WHERE age > ?;", .stepEv, .finalizeEv] ∧
    countChar '?' "age > ?" = 1 ∧
    countChar '$' "SELECT * FROM users WHERE age > ?;" = 0 ∧
    (S0 (postgres_backend rawNone)).backend.get_placeholder 1 = "$1" ∧
    countChar '?' "SELECT * FROM users WHERE age > ?;" ≠ 0 := by
  refine ⟨rfl, by decide, by decide, rfl, by decide⟩

theorem LogExt.refl (s : S) : LogExt s s := ⟨[], by simp⟩

theorem LogExt.trans {s t u : S} (h1 : LogExt s t) (h2 : LogExt t u) : LogExt s u := by
  obtain ⟨d1, hd1⟩ := h1
  obtain ⟨d2, hd2⟩ := h2
  exact ⟨d1 ++ d2, by simp [hd2, hd1]⟩

theorem LogExt.of_eq {s t : S} (h : t.log = s.log) : LogExt s t := ⟨[], by simp [h]⟩

theorem logExt_emit (s : S) (e : Event) : LogExt s (s.emit e) := ⟨[e], rfl⟩

theorem logExt_end_temp (s : S) (cp : Nat) : LogExt s (corm_arena_end_temp s cp) :=
  ⟨[], by simp [corm_arena_end_temp]⟩

theorem logExt_finalize (s : S) : LogExt s (backend_finalize s) := ⟨[.finalizeEv], rfl⟩

theorem logExt_arena_alloc (s : S) (n : Nat) : LogExt s (corm_arena_alloc s n) :=
  .of_eq (arena_alloc_log s n)

theorem logExt_alloc_fn (s : S) : LogExt s (corm_alloc_fn s).2 := by
  unfold corm_alloc_fn
  split_ifs <;> exact ⟨[], by simp⟩

theorem logExt_free_fn (s : S) (p : Nat) : LogExt s (corm_free_fn s p) :=
  ⟨[], by simp [corm_free_fn]⟩

theorem logExt_free_fold (ps : List Nat) : ∀ s : S, LogExt s (ps.foldl corm_free_fn s) := by
  induction ps with
  | nil => exact fun s => .refl s
  | cons p rest ih =>
    exact fun s => (logExt_free_fn s p).trans (ih (corm_free_fn s p))

theorem logExt_result_create (s : S) : LogExt s (corm_result_create s).2 := by
  unfold corm_result_create
  rcases hq : corm_alloc_fn s with ⟨cPtr, s1⟩
  have h1 : LogExt s s1 := by
    have h := logExt_alloc_fn s
    rwa [hq] at h
  rcases cPtr with _ | c
  · simpa using h1
  · rcases hq2 : corm_alloc_fn s1 with ⟨aPtr, s2⟩
    have h2 : LogExt s1 s2 := by
      have h := logExt_alloc_fn s1
      rwa [hq2] at h
    rcases aPtr with _ | a
    · simpa [hq2] using h1.trans (h2.trans (logExt_free_fn s2 c))
    · simpa [hq2] using h1.trans h2

theorem logExt_result_track (s : S) (res : corm_result_t) (p : Nat) :
    LogExt s (corm_result_track s res p).2.2 := by
  unfold corm_result_track
  split_ifs
  · rcases hq : corm_alloc_fn s with ⟨qPtr, s1⟩
    have h1 : LogExt s s1 := by
      have h := logExt_alloc_fn s
      rwa [hq] at h
    rcases qPtr with _ | q
    · simpa using h1
    · simpa using h1.trans (logExt_free_fn s1 res.allocations_ptr)
  · exact .refl _

theorem logExt_result_alloc (s : S) (res : corm_result_t) :
    LogExt s (corm_result_alloc s res).2.2 := by
  unfold corm_result_alloc
  rcases hq : corm_alloc_fn s with ⟨pPtr, s1⟩
  have h1 : LogExt s s1 := by
    have h := logExt_alloc_fn s
    rwa [hq] at h
  rcases pPtr with _ | p
  · simpa using h1
  · rcases hq2 : corm_result_track s1 res p with ⟨ok, res', s2⟩
    have h2 : LogExt s1 s2 := by
      have h := logExt_result_track s1 res p
      rwa [hq2] at h
    rcases ok with _ | _
    · simpa [hq2] using h1.trans (h2.trans (logExt_free_fn s2 p))
    · simpa [hq2] using h1.trans h2

theorem logExt_extract (s : S) (res : corm_result_t) (colv : SqlVal) (cur : Value)
    (ty : field_type_e) : LogExt s (extract_field_from_column s res colv cur ty).2.2.2 := by
  unfold extract_field_from_column
  split_ifs
  · exact .refl _
  · match ty with
    | .INT | .BOOL | .INT64 | .FLOAT | .DOUBLE => exact .refl _
    | .BELONGS_TO | .HAS_MANY => exact logExt_emit _ _
    | .STRING =>
      simp only []
      rcases column_text colv with _ | str
      · exact .refl _
      · simp only []
        have h := logExt_result_alloc s res
        rcases hq : corm_result_alloc s res with ⟨p, res', s'⟩
        rw [hq] at h
        rcases p with _ | p <;> exact h
    | .BLOB =>
      simp only []
      split_ifs
      · have h := logExt_result_alloc s res
        rcases hq : corm_result_alloc s res with ⟨p, res', s'⟩
        rw [hq] at h
        rcases p with _ | p <;> exact h
      · exact .refl _

theorem logExt_materialize_fields (row : Row) (warn : Bool) :
    ∀ (flds : List field_info_t) (s : S) (res : corm_result_t) (inst : Instance),
      LogExt s (materialize_fields s res row inst warn flds).2.2 := by
  intro flds
  induction flds with
  | nil => intro s res inst; exact .refl _
  | cons f rest ih =>
    intro s res inst
    unfold materialize_fields
    by_cases hrel : isRel f.type
    · simpa [hrel] using ih s res inst
    · rcases hcol : find_column_index row f.name with _ | j
      · by_cases hw : warn
        · simpa [hrel, hcol, hw] using (logExt_emit s _).trans (ih _ _ _)
        · simpa [hrel, hcol, hw] using ih s res inst
      · have h := logExt_extract s res (column_at row j) (inst f.offset) f.type
        rcases hq : extract_field_from_column s res (column_at row j) (inst f.offset)
          f.type with ⟨ok, v, res', s'⟩
        rw [hq] at h
        simpa [hrel, hcol, hq] using h.trans (ih _ _ _)

theorem logExt_materialize_rows (meta : model_meta_t) (warn : Bool) :
    ∀ (rows : List Row) (s : S) (res : corm_result_t),
      LogExt s (materialize_rows s res meta warn rows).2.2 := by
  intro rows
  induction rows with
  | nil => intro s res; exact .refl _
  | cons row rest ih =>
    intro s res
    unfold materialize_rows
    rcases hq : materialize_fields (s.emit .stepEv) res row (zeroInstance meta)
      warn meta.fields with ⟨inst, res', s'⟩
    rcases hq2 : materialize_rows s' res' meta warn rest with ⟨insts, res'', s''⟩
    have h : LogExt (s.emit .stepEv) s' := by
      have h0 := logExt_materialize_fields row warn meta.fields (s.emit .stepEv) res
        (zeroInstance meta)
      rwa [hq] at h0
    have h2 : LogExt s' s'' := by
      have h0 := ih s' res'
      rwa [hq2] at h0
    simpa [hq, hq2] using ((logExt_emit s .stepEv).trans h).trans h2

theorem countChar_append (c : Char) (a b : String) :
    countChar c (a ++ b) = countChar c a + countChar c b := by
  simp [countChar, String.toList]

theorem backend_prepare_eq (s : S) (sql : String) (cmd : stmt_kind) :
    backend_prepare s sql cmd =
      ((db_get_table s.db cmd.table).map (fun _ => ({ cmd := cmd } : StmtState)),
        s.emit (.prepare sql)) := by
  unfold backend_prepare
  rcases hdb : db_get_table s.db cmd.table with _ | td <;> simp [S.emit, hdb]

theorem prepare_shape_of_logExt {s s1 fin : S} (e : Event)
    (h1 : s1.log = s.log ++ [e]) (h2 : LogExt s1 fin) :
    ∃ rest, fin.log = s.log ++ e :: rest := by
  obtain ⟨d, hd⟩ := h2
  exact ⟨d, by simp [hd, h1]⟩

theorem LogExt.step {s t : S} (d : List Event) (h : t.log = s.log ++ d) : LogExt s t :=
  ⟨d, h⟩

theorem logExt_where_raw_fill (s : S) (meta : model_meta_t) (st : StmtState)
    (cp : Nat) (result_count : Nat) :
    LogExt s (corm_where_raw_fill s meta st cp result_count).2 := by
  unfold corm_where_raw_fill
  simp only [backend_reset]
  rcases hrc : corm_result_create (s.emit .resetEv) with ⟨resOpt, s4⟩
  have h4 : LogExt s s4 := by
    have h0 := logExt_result_create (s.emit .resetEv)
    rw [hrc] at h0
    exact (logExt_emit s .resetEv).trans h0
  rcases resOpt with _ | res
  · simpa [hrc] using h4.trans ((logExt_finalize _).trans (logExt_end_temp _ _))
  · rcases ha : corm_alloc_fn s4 with ⟨instPtr, s5⟩
    have h5 : LogExt s4 s5 := by
      have h0 := logExt_alloc_fn s4
      rwa [ha] at h0
    rcases instPtr with _ | d
    · simpa [hrc, ha] using h4.trans (h5.trans ((logExt_emit _ _).trans
        ((logExt_free_fn _ _).trans ((logExt_free_fn _ _).trans
          ((logExt_finalize _).trans (logExt_end_temp _ _))))))
    · rcases hm : materialize_rows s5 ({ res with data := some d, count := (result_count : Int) }) meta true ((stmt_rows s5 { st with cursor := 0 }).take result_count) with ⟨insts, res2, s6⟩
      have h6 : LogExt s5 s6 := by
        have h0 := logExt_materialize_rows meta true
          ((stmt_rows s5 { st with cursor := 0 }).take result_count) s5
          ({ res with data := some d, count := (result_count : Int) })
        rwa [hm] at h0
      simpa [hrc, ha, hm] using h4.trans (h5.trans (h6.trans ((logExt_emit _ _).trans
        ((logExt_finalize _).trans (logExt_end_temp _ _)))))

theorem logExt_where_raw_exec (s : S) (meta : model_meta_t) (st : StmtState)
    (cp : Nat) (params : List (Value × field_type_e)) :
    LogExt s (corm_where_raw_exec s meta st cp params).2 := by
  unfold corm_where_raw_exec
  rcases hb : bind_raw_params st 0 params with i | st1
  · exact (logExt_emit _ _).trans ((logExt_finalize _).trans (logExt_end_temp _ _))
  · simp only [step_all]
    split_ifs
    · exact (LogExt.step _ rfl).trans ((logExt_finalize _).trans (logExt_end_temp _ _))
    · exact LogExt.trans ⟨_, rfl⟩ (logExt_where_raw_fill _ meta _ cp _)

theorem where_raw_prepare_shape (s : S) (meta : model_meta_t) (wc : String)
    (params : List (Value × field_type_e)) :
    ∃ rest, (corm_where_raw s meta wc params).2.log =
      s.log ++ Event.prepare (where_raw_sql meta wc) :: rest := by
  unfold corm_where_raw
  simp only [corm_str_fmt, corm_arena_start_temp, backend_prepare_eq,
    stmt_kind.table, arena_alloc_db]
  rcases hdb : db_get_table s.db meta.table_name with _ | td
  · simp only [hdb, Option.map_none']
    refine prepare_shape_of_logExt _ ?_ ((logExt_emit _ _).trans (logExt_end_temp _ _))
    simp [S.emit, arena_alloc_log, where_raw_sql]
  · simp only [hdb, Option.map_some']
    refine prepare_shape_of_logExt _ ?_ (logExt_where_raw_exec _ meta _ _ params)
    simp [S.emit, arena_alloc_log, where_raw_sql]

/-- C5 (amended): corm_where_raw performs no placeholder rewriting at
all: the WHERE fragment is embedded verbatim into the SQL sent to the
backend (`SELECT * FROM table WHERE fragment;`), so the emitted SQL
contains exactly the fragment's "?" markers unchanged.  These match the
backend placeholder syntax for "?"-style dialects such as SQLite, but are
never translated into the dialect of a "$n"-style backend. -/
theorem C5_amended_where_raw_passthrough (s : S) (meta : model_meta_t) (wc : String)
    (params : List (Value × field_type_e))
    (htable : countChar '?' meta.table_name = 0) :
    (∃ rest, (corm_where_raw s meta wc params).2.log =
      s.log ++ Event.prepare (where_raw_sql meta wc) :: rest) ∧
    countChar '?' (where_raw_sql meta wc) = countChar '?' wc := by
  refine ⟨where_raw_prepare_shape s meta wc params, ?_⟩
  have h1 : countChar '?' "SELECT * FROM " = 0 := by decide
  have h2 : countChar '?' " WHERE " = 0 := by decide
  have h3 : countChar '?' ";" = 0 := by decide
  simp [where_raw_sql, countChar_append, htable, h1, h2, h3]

/-- Witness for C5's amended statement at a concrete query. -/
theorem C5_amended_witness :
    (∃ rest, (corm_where_raw (S0 (sqlite_backend rawNone)) user_meta "age > ?"
      [(.vInt 20, .INT)]).2.log = (S0 (sqlite_backend rawNone)).log ++
      Event.prepare (where_raw_sql user_meta "age > ?") :: rest) ∧
    countChar '?' (where_raw_sql user_meta "age > ?") = countChar '?' "age > ?" :=
  C5_amended_where_raw_passthrough (S0 (sqlite_backend rawNone)) user_meta "age > ?"
    [(.vInt 20, .INT)] (by decide)

/-- C3: when some validator fails, corm_save aborts with exactly that
(first-failing) validator's message before issuing any backend call: the
whole returned state differs from the input only by the single error-log
entry — no SQL is prepared or executed (no backend event is emitted), the
database is untouched, the heap is untouched, and the instance is
unmodified. -/
theorem C3_validation_aborts_before_backend (s : S) (meta : model_meta_t)
    (inst : Instance) (pkf : field_info_t) (fname msg : String)
    (hpk : meta.primary_key_field = some pkf)
    (hval : run_validators inst meta.fields = some (fname, msg)) :
    corm_save s meta inst =
      (false, inst, corm_arena_end_temp (s.emit (.logError
        ("Validation failed for field " ++ fname ++ ": " ++ msg))) s.arena_used) ∧
    (corm_save s meta inst).2.2.db = s.db ∧
    (corm_save s meta inst).2.2.heap = s.heap ∧
    (corm_save s meta inst).2.2.arena_used = s.arena_used ∧
    (corm_save s meta inst).2.2.log = s.log ++ [.logError
      ("Validation failed for field " ++ fname ++ ": " ++ msg)] := by
  have heq : corm_save s meta inst =
      (false, inst, corm_arena_end_temp (s.emit (.logError
        ("Validation failed for field " ++ fname ++ ": " ++ msg))) s.arena_used) := by
    unfold corm_save
    rw [hpk]
    simp [hval, corm_arena_start_temp]
  refine ⟨heq, ?_, ?_, ?_, ?_⟩ <;> rw [heq] <;> rfl

/-- Witness for C3 at a concrete failing validator. -/
theorem C3_validation_witness :
    corm_save (S0 (sqlite_backend rawNone)) vuser_meta user_inst =
      (false, user_inst, corm_arena_end_temp ((S0 (sqlite_backend rawNone)).emit
        (.logError "Validation failed for field name: name required"))
        (S0 (sqlite_backend rawNone)).arena_used) :=
  (C3_validation_aborts_before_backend (S0 (sqlite_backend rawNone)) vuser_meta
    user_inst user_id_field "name" "name required" rfl rfl).1

theorem save_finish_frame (s : S) (st : StmtState) (cp : Nat) (is_update : Bool)
    (pkf : field_info_t) (inst : Instance) :
    (∀ off, off ≠ pkf.offset →
      (corm_save_finish s st cp is_update pkf inst).2.1 off = inst off) ∧
    (((corm_save_finish s st cp is_update pkf inst).1 = false ∨ is_update = true ∨
        hasFlag pkf.flags AUTO_INC = false) →
      (corm_save_finish s st cp is_update pkf inst).2.1 = inst) := by
  unfold corm_save_finish
  rcases hstep : backend_step s st with ⟨r, rowOpt, st2, s2⟩
  by_cases hr : r < 0
  · simp [hstep, hr]
  · constructor
    · intro off hoff
      simp only [hstep]
      split_ifs with h1 h2 h3 <;>
        simp [hr, Function.update_noteq hoff]
    · intro hdisj
      simp only [hstep] at hdisj ⊢
      rcases hdisj with hfail | hupd | hauto
      · simp [hr] at hfail
      · simp [hupd, hr]
      · simp [hauto, hr]

theorem save_exec_frame (s : S) (meta : model_meta_t) (sql : String) (cmd : stmt_kind)
    (cp : Nat) (is_update : Bool) (pk_field : field_info_t) (pk_value : Value)
    (inst : Instance) :
    (∀ off, off ≠ pk_field.offset →
      (corm_save_exec s meta sql cmd cp is_update pk_field pk_value inst).2.1 off =
        inst off) ∧
    (((corm_save_exec s meta sql cmd cp is_update pk_field pk_value inst).1 = false ∨
        is_update = true ∨ hasFlag pk_field.flags AUTO_INC = false) →
      (corm_save_exec s meta sql cmd cp is_update pk_field pk_value inst).2.1 = inst) := by
  unfold corm_save_exec
  rw [backend_prepare_eq]
  rcases hdb : db_get_table s.db cmd.table with _ | td
  · simp [hdb]
  · simp only [hdb, Option.map_some']
    rcases hbf : bind_fields { cmd := cmd } inst 1 (save_bind_fields meta is_update)
      with i | ⟨st2, idx2⟩
    · simp
    · rcases is_update with _ | _
      · simpa using save_finish_frame (s.emit (.prepare sql)) st2 cp false pk_field inst
      · simp only [if_true]
        rcases hbp : bind_param_by_type st2 idx2 pk_value pk_field.type with _ | st3
        · simp
        · simpa using save_finish_frame (s.emit (.prepare sql)) st3 cp true pk_field inst

/-- C7: corm_save never writes to the caller's instance anywhere but the
primary-key field's offset, and it leaves even that untouched unless the
call succeeded, the operation was an INSERT (the pre-check found no
existing row), and the primary key is auto-increment. -/
theorem C7_save_frame (s : S) (meta : model_meta_t) (inst : Instance)
    (pkf : field_info_t) (hpk : meta.primary_key_field = some pkf) :
    (∀ off, off ≠ pkf.offset → (corm_save s meta inst).2.1 off = inst off) ∧
    (((corm_save s meta inst).1 = false ∨
        (corm_record_exists s meta pkf (inst pkf.offset)).1 = true ∨
        hasFlag pkf.flags AUTO_INC = false) →
      (corm_save s meta inst).2.1 = inst) := by
  unfold corm_save
  rw [hpk]
  rcases hval : run_validators inst meta.fields with _ | ⟨fname, msg⟩
  · simp only [hval]
    rcases hre : corm_record_exists s meta pkf (inst pkf.offset) with ⟨isu, s1⟩
    simp only [hre]
    rcases isu with _ | _
    · rcases hbs : save_build_insert_sql s1 meta with ⟨sql, s2⟩
      simpa [hbs] using save_exec_frame s2 meta sql (.insertCmd meta.table_name
        ((insert_fields meta).map (·.name))) s.arena_used false pkf
        (inst pkf.offset) inst
    · rcases hbs : save_build_update_sql s1 meta pkf with ⟨sql, s2⟩
      simpa [hbs] using save_exec_frame s2 meta sql (.updateCmd meta.table_name
        ((update_set_fields meta).map (·.name)) pkf.name) s.arena_used true pkf
        (inst pkf.offset) inst
  · simp [hval]

/-- Witness for C7: a concrete save leaves the name field (offset 8)
byte-identical. -/
theorem C7_save_frame_witness :
    (corm_save (S0 (sqlite_backend rawNone)) user_meta user_inst).2.1 8 =
      user_inst 8 :=
  (C7_save_frame (S0 (sqlite_backend rawNone)) user_meta user_inst
    user_id_field rfl).1 8 (by decide)

/-- C6 counterexample: a belongs-to foreign key holding a non-null empty
string is one of the claimed zero values ("0, empty string, or null
pointer"), yet loading the relation does issue a backend query (a SELECT
is prepared and stepped) and the load reports failure instead of
succeeding with a null relation: only the NULL string pointer is the
sentinel, not the empty string. -/
theorem C6_counterexample_empty_string_fk :
    (corm_load_belongs_to S6 res0 note_inst_empty_fk note_meta note_rel_field).1
      = false ∧
    (corm_load_belongs_to S6 res0 note_inst_empty_fk note_meta note_rel_field).2.2.2.log
      = [.prepare "SELECT * FROM tags WHERE name = ?;", .stepEv, .finalizeEv,
         .logWarn "Related instance not found for field tag"] := by
  exact ⟨rfl, rfl⟩

/-- C6 (amended): the no-relation sentinel is 0 for int/int64/bool
foreign keys and the NULL pointer for string foreign keys (an empty
non-null string is not a sentinel).  On a sentinel value the loader
issues no backend call whatsoever (the state is returned untouched), sets
the relation pointer to null, and succeeds.  On a non-sentinel foreign
key whose target row does not exist, the loader returns failure, leaves
the instance (and hence the relation pointer, null for freshly
materialized instances) unchanged, and only appends a warning. -/
theorem C6_amended_belongs_to (s : S) (res : corm_result_t) (inst : Instance)
    (meta : model_meta_t) (field fkf : field_info_t) (relMeta : model_meta_t)
    (hfk : meta.fields.find? (fun f => f.name = field.fk_column_name) = some fkf)
    (hrel : field.related_model.bind (fun i => s.models.get? i) = some relMeta) :
    (fk_is_null (inst fkf.offset) fkf.type = true →
      corm_load_belongs_to s res inst meta field =
        (true, res, Function.update inst field.offset (.vPtr none), s)) ∧
    (fk_is_null (inst fkf.offset) fkf.type = false →
      ∀ s2, corm_find s relMeta (inst fkf.offset) = (none, s2) →
        corm_load_belongs_to s res inst meta field =
          (false, res, inst, s2.emit (.logWarn
            ("Related instance not found for field " ++ field.name)))) := by
  constructor
  · intro hz
    unfold corm_load_belongs_to
    rw [hfk]
    simp only [hrel, hz, if_true]
  · intro hz s2 hfind
    unfold corm_load_belongs_to
    rw [hfk]
    simp only [hrel, hz, hfind]
    simp

/-- Witness for C6's amended statement: a zero int foreign key loads to a
null relation with no backend interaction. -/
theorem C6_amended_witness :
    corm_load_belongs_to (S0 (sqlite_backend rawNone)) res0 post_inst_zero post_meta
      post_rel_field =
      (true, res0, Function.update post_inst_zero 16 (.vPtr none),
        S0 (sqlite_backend rawNone)) :=
  (C6_amended_belongs_to (S0 (sqlite_backend rawNone)) res0 post_inst_zero post_meta
    post_rel_field post_user_id_field user_meta rfl rfl).1 (by decide)

theorem arena_emit (s : S) (e : Event) : (s.emit e).arena_used = s.arena_used := rfl

theorem arena_free_fn (s : S) (p : Nat) : (corm_free_fn s p).arena_used = s.arena_used := rfl

theorem arena_end_temp (s : S) (cp : Nat) :
    (corm_arena_end_temp s cp).arena_used = cp := rfl

theorem arena_alloc_fn (s : S) : (corm_alloc_fn s).2.arena_used = s.arena_used := by
  unfold corm_alloc_fn
  split_ifs <;> rfl

theorem arena_result_create (s : S) :
    (corm_result_create s).2.arena_used = s.arena_used := by
  unfold corm_result_create
  rcases hq : corm_alloc_fn s with ⟨cPtr, s1⟩
  have h1 : s1.arena_used = s.arena_used := by
    have h := arena_alloc_fn s
    rwa [hq] at h
  rcases cPtr with _ | c
  · simpa using h1
  · rcases hq2 : corm_alloc_fn s1 with ⟨aPtr, s2⟩
    have h2 : s2.arena_used = s1.arena_used := by
      have h := arena_alloc_fn s1
      rwa [hq2] at h
    rcases aPtr with _ | a <;> simp [hq2, arena_free_fn, h2, h1]

theorem arena_result_track (s : S) (res : corm_result_t) (p : Nat) :
    (corm_result_track s res p).2.2.arena_used = s.arena_used := by
  unfold corm_result_track
  split_ifs
  · rcases hq : corm_alloc_fn s with ⟨qPtr, s1⟩
    have h1 : s1.arena_used = s.arena_used := by
      have h := arena_alloc_fn s
      rwa [hq] at h
    rcases qPtr with _ | q <;> simpa using h1
  · rfl

theorem arena_result_alloc (s : S) (res : corm_result_t) :
    (corm_result_alloc s res).2.2.arena_used = s.arena_used := by
  unfold corm_result_alloc
  rcases hq : corm_alloc_fn s with ⟨pPtr, s1⟩
  have h1 : s1.arena_used = s.arena_used := by
    have h := arena_alloc_fn s
    rwa [hq] at h
  rcases pPtr with _ | p
  · simpa using h1
  · rcases hq2 : corm_result_track s1 res p with ⟨ok, res', s2⟩
    have h2 : s2.arena_used = s1.arena_used := by
      have h := arena_result_track s1 res p
      rwa [hq2] at h
    rcases ok with _ | _ <;> simp [hq2, arena_free_fn, h2, h1]

theorem arena_extract (s : S) (res : corm_result_t) (colv : SqlVal) (cur : Value)
    (ty : field_type_e) :
    (extract_field_from_column s res colv cur ty).2.2.2.arena_used = s.arena_used := by
  unfold extract_field_from_column
  split_ifs
  · rfl
  · match ty with
    | .INT | .BOOL | .INT64 | .FLOAT | .DOUBLE => rfl
    | .BELONGS_TO | .HAS_MANY => rfl
    | .STRING =>
      simp only []
      rcases column_text colv with _ | str
      · rfl
      · simp only []
        rcases hq : corm_result_alloc s res with ⟨pPtr, res', s'⟩
        have h := arena_result_alloc s res
        rw [hq] at h
        rcases pPtr with _ | p <;> simpa using h
    | .BLOB =>
      simp only []
      split_ifs
      · rcases hq : corm_result_alloc s res with ⟨pPtr, res', s'⟩
        have h := arena_result_alloc s res
        rw [hq] at h
        rcases pPtr with _ | p <;> simpa using h
      · rfl

theorem arena_materialize_fields (row : Row) (warn : Bool) :
    ∀ (flds : List field_info_t) (s : S) (res : corm_result_t) (inst : Instance),
      (materialize_fields s res row inst warn flds).2.2.arena_used = s.arena_used := by
  intro flds
  induction flds with
  | nil => intro s res inst; rfl
  | cons f rest ih =>
    intro s res inst
    unfold materialize_fields
    by_cases hrel : isRel f.type
    · simpa [hrel] using ih s res inst
    · rcases hcol : find_column_index row f.name with _ | j
      · by_cases hw : warn = true
        · subst hw
          simpa [hrel, hcol] using
            ih (s.emit (.logWarn ("Column " ++ f.name ++ " not found in result set")))
              res inst
        · have hw' : warn = false := by simpa using hw
          subst hw'
          simpa [hrel, hcol] using ih s res inst
      · rcases hq : extract_field_from_column s res (column_at row j) (inst f.offset)
          f.type with ⟨ok, v, res', s'⟩
        have h := arena_extract s res (column_at row j) (inst f.offset) f.type
        rw [hq] at h
        have h2 := ih s' res' (Function.update inst f.offset v)
        simp only [hrel, hcol, hq]
        simp only [Bool.false_eq_true, if_false]
        rw [h2, h]

theorem arena_materialize_rows (meta : model_meta_t) (warn : Bool) :
    ∀ (rows : List Row) (s : S) (res : corm_result_t),
      (materialize_rows s res meta warn rows).2.2.arena_used = s.arena_used := by
  intro rows
  induction rows with
  | nil => intro s res; rfl
  | cons row rest ih =>
    intro s res
    unfold materialize_rows
    rcases hq : materialize_fields (s.emit .stepEv) res row (zeroInstance meta)
      warn meta.fields with ⟨inst, res', s'⟩
    rcases hq2 : materialize_rows s' res' meta warn rest with ⟨insts, res'', s''⟩
    have h1 : s'.arena_used = s.arena_used := by
      have h := arena_materialize_fields row warn meta.fields (s.emit .stepEv) res
        (zeroInstance meta)
      rwa [hq] at h
    have h2 : s''.arena_used = s'.arena_used := by
      have h := ih s' res'
      rwa [hq2] at h
    simp [hq, hq2, h1, h2]

theorem arena_exec_dml (s : S) (st : StmtState) :
    (exec_dml s st).2.arena_used = s.arena_used := by
  unfold exec_dml
  cases st.cmd with
  | insertCmd t cols =>
    rcases hdb : db_get_table s.db t with _ | td <;> simp [hdb, db_set_table]
  | updateCmd t sc wc =>
    rcases hdb : db_get_table s.db t with _ | td <;>
      rcases hl : (bound_params st).getLast? with _ | wv <;> simp [hdb, hl, db_set_table]
  | deleteWhereEq t c =>
    rcases hdb : db_get_table s.db t with _ | td <;>
      rcases hb : bound_param st 1 with _ | wv <;> simp [hdb, hb, db_set_table]
  | selectWhereEq t c => rfl
  | selectCount t c => rfl
  | selectCountAll t => rfl
  | selectAll t => rfl
  | selectWhereRaw t wc => rfl

theorem arena_backend_step (s : S) (st : StmtState) :
    (backend_step s st).2.2.2.arena_used = s.arena_used := by
  unfold backend_step
  split_ifs
  · simp only [List.get?_eq_getElem?]
    rcases hg : (stmt_rows (s.emit Event.stepEv) st)[st.cursor]? with _ | row <;>
      simp [hg, S.emit]
  · rcases hq : exec_dml (s.emit .stepEv) st with ⟨r, s'⟩
    have h := arena_exec_dml (s.emit .stepEv) st
    rw [hq] at h
    simp only [hq]
    simpa using h

theorem arena_find_fill (s : S) (meta : model_meta_t) (row : Row) (cp : Nat) :
    (corm_find_fill s meta row cp).2.arena_used = cp := by
  unfold corm_find_fill
  rcases hrc : corm_result_create s with ⟨resOpt, s1⟩
  rcases resOpt with _ | res
  · simp [hrc, corm_arena_end_temp]
  · rcases ha : corm_alloc_fn s1 with ⟨instPtr, s2⟩
    rcases instPtr with _ | d
    · simp [hrc, ha, corm_arena_end_temp]
    · rcases hm : materialize_fields s2 ({ res with data := some d, count := 1 }) row (zeroInstance meta) false meta.fields with ⟨inst, res2, s3⟩
      simp [hrc, ha, hm, corm_arena_end_temp]

theorem arena_find_exec (s : S) (meta : model_meta_t) (st : StmtState) (cp : Nat) :
    (corm_find_exec s meta st cp).2.arena_used = cp := by
  unfold corm_find_exec
  rcases hstep : backend_step s st with ⟨r, rowOpt, st2, s2⟩
  rcases rowOpt with _ | row
  · simp [hstep, corm_arena_end_temp]
  · by_cases hr : r = 1
    · simp only [hstep, hr, if_true]
      exact arena_find_fill s2 meta row cp
    · simp [hstep, hr, corm_arena_end_temp]

theorem arena_find (s : S) (meta : model_meta_t) (pkv : Value) :
    (corm_find s meta pkv).2.arena_used = s.arena_used := by
  unfold corm_find
  rcases hpk : meta.primary_key_field with _ | pkf
  · simp [corm_arena_end_temp, corm_arena_start_temp]
  · simp only [corm_str_fmt, corm_arena_start_temp, backend_prepare_eq,
      stmt_kind.table, arena_alloc_db]
    rcases hdb : db_get_table s.db meta.table_name with _ | td
    · simp [hdb, corm_arena_end_temp]
    · simp only [hdb, Option.map_some']
      rcases hb : bind_param_by_type ({ cmd := stmt_kind.selectWhereEq meta.table_name pkf.name }) 1 pkv pkf.type with _ | st
      · simp [hb, corm_arena_end_temp]
      · simp only [hb]
        exact arena_find_exec _ meta _ _

theorem arena_find_all_fill (s : S) (meta : model_meta_t) (res : corm_result_t)
    (d : Nat) (record_count : Int) (cp : Nat) :
    (corm_find_all_fill s meta res d record_count cp).2.arena_used = cp := by
  unfold corm_find_all_fill
  simp only [corm_str_fmt, backend_prepare_eq, stmt_kind.table, arena_alloc_db]
  rcases hdb : db_get_table s.db meta.table_name with _ | td
  · simp [hdb, corm_arena_end_temp]
  · simp only [hdb, Option.map_some']
    rcases hm : materialize_rows ((corm_arena_alloc s (("SELECT * FROM " ++ meta.table_name ++ ";").length + 1)).emit (.prepare ("SELECT * FROM " ++ meta.table_name ++ ";"))) ({ res with data := some d, count := record_count }) meta true ((stmt_rows ((corm_arena_alloc s (("SELECT * FROM " ++ meta.table_name ++ ";").length + 1)).emit (.prepare ("SELECT * FROM " ++ meta.table_name ++ ";"))) { cmd := stmt_kind.selectAll meta.table_name }).take record_count.toNat) with ⟨insts, res2, s3⟩
    simp [hm, corm_arena_end_temp]

theorem arena_find_all_alloc (s : S) (meta : model_meta_t) (record_count : Int)
    (cp : Nat) :
    (corm_find_all_alloc s meta record_count cp).2.arena_used = cp := by
  unfold corm_find_all_alloc
  rcases hrc : corm_result_create s with ⟨resOpt, s3⟩
  simp only [hrc]
  rcases resOpt with _ | res
  · simp [corm_arena_end_temp]
  · rcases ha : corm_alloc_fn s3 with ⟨instPtr, s4⟩
    simp only [ha]
    rcases instPtr with _ | d
    · simp [corm_arena_end_temp]
    · exact arena_find_all_fill s4 meta res d _ cp

theorem arena_find_all_exec (s : S) (meta : model_meta_t) (cst : StmtState) (cp : Nat) :
    (corm_find_all_exec s meta cst cp).2.arena_used = cp := by
  unfold corm_find_all_exec
  rcases hstep : backend_step s cst with ⟨r, rowOpt, st2, s2⟩
  simp only [hstep]
  split_ifs <;>
    first
      | simp [corm_arena_end_temp]
      | exact arena_find_all_alloc _ meta _ cp

theorem arena_find_all (s : S) (meta : model_meta_t) :
    (corm_find_all s meta).2.arena_used = s.arena_used := by
  unfold corm_find_all
  simp only [corm_str_fmt, corm_arena_start_temp, backend_prepare_eq,
    stmt_kind.table, arena_alloc_db]
  rcases hdb : db_get_table s.db meta.table_name with _ | td
  · simp [hdb, corm_arena_end_temp]
  · simp only [hdb, Option.map_some']
    exact arena_find_all_exec _ meta _ _

theorem arena_where_raw_fill (s : S) (meta : model_meta_t) (st : StmtState)
    (cp : Nat) (result_count : Nat) :
    (corm_where_raw_fill s meta st cp result_count).2.arena_used = cp := by
  unfold corm_where_raw_fill
  simp only [backend_reset]
  rcases hrc : corm_result_create (s.emit .resetEv) with ⟨resOpt, s1⟩
  rcases resOpt with _ | res
  · simp [hrc, corm_arena_end_temp]
  · rcases ha : corm_alloc_fn s1 with ⟨instPtr, s2⟩
    rcases instPtr with _ | d
    · simp [hrc, ha, corm_arena_end_temp]
    · rcases hm : materialize_rows s2 ({ res with data := some d, count := (result_count : Int) }) meta true ((stmt_rows s2 { st with cursor := 0 }).take result_count) with ⟨insts, res2, s3⟩
      simp [hrc, ha, hm, corm_arena_end_temp]

theorem arena_where_raw_exec (s : S) (meta : model_meta_t) (st : StmtState)
    (cp : Nat) (params : List (Value × field_type_e)) :
    (corm_where_raw_exec s meta st cp params).2.arena_used = cp := by
  unfold corm_where_raw_exec
  rcases hb : bind_raw_params st 0 params with i | st1
  · simp [corm_arena_end_temp]
  · simp only [step_all]
    split_ifs
    · simp [corm_arena_end_temp]
    · exact arena_where_raw_fill _ meta _ cp _

theorem arena_where_raw (s : S) (meta : model_meta_t) (wc : String)
    (params : List (Value × field_type_e)) :
    (corm_where_raw s meta wc params).2.arena_used = s.arena_used := by
  unfold corm_where_raw
  simp only [corm_str_fmt, corm_arena_start_temp, backend_prepare_eq,
    stmt_kind.table, arena_alloc_db]
  rcases hdb : db_get_table s.db meta.table_name with _ | td
  · simp [hdb, corm_arena_end_temp]
  · simp only [hdb, Option.map_some']
    exact arena_where_raw_exec _ meta _ _ params

theorem arena_delete_exec (s : S) (st : StmtState) (cp : Nat) :
    (corm_delete_exec s st cp).2.arena_used = cp := by
  unfold corm_delete_exec
  rcases hstep : backend_step s st with ⟨r, rowOpt, st2, s2⟩
  simp only [hstep]
  split_ifs <;> simp [corm_arena_end_temp, S.emit]

theorem arena_delete (s : S) (meta : model_meta_t) (pkv : Value) :
    (corm_delete s meta pkv).2.arena_used = s.arena_used := by
  unfold corm_delete
  rcases hpk : meta.primary_key_field with _ | pkf
  · rfl
  · simp only [corm_str_fmt, corm_arena_start_temp, backend_prepare_eq,
      stmt_kind.table, arena_alloc_db]
    rcases hdb : db_get_table s.db meta.table_name with _ | td
    · simp [hdb, corm_arena_end_temp]
    · simp only [hdb, Option.map_some']
      rcases hb : bind_param_by_type ({ cmd := stmt_kind.deleteWhereEq meta.table_name pkf.name }) 1 pkv pkf.type with _ | st
      · simp [hb, corm_arena_end_temp]
      · simp only [hb]
        exact arena_delete_exec _ _ _

theorem arena_save_finish (s : S) (st : StmtState) (cp : Nat) (is_update : Bool)
    (pk_field : field_info_t) (inst : Instance) :
    (corm_save_finish s st cp is_update pk_field inst).2.2.arena_used = cp := by
  unfold corm_save_finish
  rcases hstep : backend_step s st with ⟨r, rowOpt, st2, s2⟩
  simp only [hstep]
  split_ifs <;> simp [corm_arena_end_temp]

theorem arena_save_exec (s : S) (meta : model_meta_t) (sql : String) (cmd : stmt_kind)
    (cp : Nat) (is_update : Bool) (pk_field : field_info_t) (pk_value : Value)
    (inst : Instance) :
    (corm_save_exec s meta sql cmd cp is_update pk_field pk_value inst).2.2.arena_used
      = cp := by
  unfold corm_save_exec
  rw [backend_prepare_eq]
  rcases hdb : db_get_table s.db cmd.table with _ | td
  · simp [hdb, corm_arena_end_temp]
  · simp only [hdb, Option.map_some']
    rcases hbf : bind_fields { cmd := cmd } inst 1 (save_bind_fields meta is_update)
      with i | ⟨st2, idx2⟩
    · simp [corm_arena_end_temp]
    · rcases is_update with _ | _
      · simpa using arena_save_finish (s.emit (.prepare sql)) st2 cp false pk_field inst
      · simp only [if_true]
        rcases hbp : bind_param_by_type st2 idx2 pk_value pk_field.type with _ | st3
        · simp [corm_arena_end_temp]
        · simpa using arena_save_finish (s.emit (.prepare sql)) st3 cp true pk_field inst

theorem arena_save (s : S) (meta : model_meta_t) (inst : Instance) :
    (corm_save s meta inst).2.2.arena_used = s.arena_used := by
  unfold corm_save
  rcases hpk : meta.primary_key_field with _ | pkf
  · simp [corm_arena_end_temp, corm_arena_start_temp]
  · rcases hval : run_validators inst meta.fields with _ | ⟨fname, msg⟩
    · simp only [hval]
      rcases hre : corm_record_exists s meta pkf (inst pkf.offset) with ⟨isu, s1⟩
      simp only [hre, corm_arena_start_temp]
      rcases isu with _ | _
      · rcases hbs : save_build_insert_sql s1 meta with ⟨sql, s2⟩
        simpa [hbs] using arena_save_exec s2 meta sql (.insertCmd meta.table_name
          ((insert_fields meta).map (·.name))) s.arena_used false pkf
          (inst pkf.offset) inst
      · rcases hbs : save_build_update_sql s1 meta pkf with ⟨sql, s2⟩
        simpa [hbs] using arena_save_exec s2 meta sql (.updateCmd meta.table_name
          ((update_set_fields meta).map (·.name)) pkf.name) s.arena_used true pkf
          (inst pkf.offset) inst
    · simp [hval, corm_arena_end_temp, corm_arena_start_temp]

theorem arena_free_fold (ps : List Nat) :
    ∀ s : S, (ps.foldl corm_free_fn s).arena_used = s.arena_used := by
  induction ps with
  | nil => intro s; rfl
  | cons p rest ih => intro s; simpa using ih (corm_free_fn s p)

theorem arena_track_all (ps : List Nat) :
    ∀ (s : S) (parent : corm_result_t),
      (track_all s parent ps).2.2.arena_used = s.arena_used := by
  induction ps with
  | nil => intro s parent; rfl
  | cons p rest ih =>
    intro s parent
    unfold track_all
    rcases ht : corm_result_track s parent p with ⟨ok, parent2, s2⟩
    have h2 : s2.arena_used = s.arena_used := by
      have h := arena_result_track s parent p
      rwa [ht] at h
    rcases ok with _ | _ <;> simp [ht, S.emit, h2, ih]

theorem arena_load_has_many_exec (s : S) (parent_result : corm_result_t)
    (inst : Instance) (field : field_info_t) (related_meta : model_meta_t)
    (st : StmtState) (cp : Nat) :
    (corm_load_has_many_exec s parent_result inst field related_meta st cp).2.2.2.arena_used
      = cp := by
  unfold corm_load_has_many_exec
  simp only [step_all, backend_reset]
  split_ifs
  · rcases ha : corm_alloc_fn (({ s with log := s.log ++ List.replicate ((stmt_rows s st).length - st.cursor + 1) Event.stepEv } : S).emit .resetEv) with ⟨instPtr, s2⟩
    simp only [ha]
    rcases instPtr with _ | d
    · simp [corm_arena_end_temp]
    · rcases ht : corm_result_track s2 parent_result d with ⟨ok, parent2, s3⟩
      simp only [ht]
      rcases ok with _ | _
      · simp [corm_arena_end_temp]
      · rcases hm : materialize_rows s3 parent2 related_meta true ((stmt_rows s3 ({ st with cursor := 0 } : StmtState)).take ((stmt_rows s st).length - st.cursor)) with ⟨insts, parent3, s4⟩
        simp [hm, corm_arena_end_temp]
  · simp [corm_arena_end_temp]

theorem arena_load_has_many (s : S) (parent_result : corm_result_t) (inst : Instance)
    (meta : model_meta_t) (field : field_info_t) :
    (corm_load_has_many s parent_result inst meta field).2.2.2.arena_used
      = s.arena_used := by
  unfold corm_load_has_many
  rcases hrm : field.related_model.bind (fun i => s.models.get? i) with _ | relMeta
  · simp [hrm, corm_arena_end_temp, corm_arena_start_temp]
  · simp only [hrm]
    rcases hpk : meta.primary_key_field with _ | pkf
    · simp [corm_arena_end_temp, corm_arena_start_temp]
    · simp only [corm_str_fmt, corm_arena_start_temp, backend_prepare_eq,
        stmt_kind.table, arena_alloc_db]
      rcases hdb : db_get_table s.db relMeta.table_name with _ | td
      · simp [hdb, corm_arena_end_temp]
      · simp only [hdb, Option.map_some']
        rcases hb : bind_param_by_type ({ cmd := stmt_kind.selectWhereEq relMeta.table_name field.fk_column_name }) 1 (inst pkf.offset) pkf.type with _ | st
        · simp [hb, corm_arena_end_temp]
        · simp only [hb]
          exact arena_load_has_many_exec _ parent_result inst field relMeta _ _

theorem arena_load_belongs_to (s : S) (parent_result : corm_result_t)
    (inst : Instance) (meta : model_meta_t) (field : field_info_t) :
    (corm_load_belongs_to s parent_result inst meta field).2.2.2.arena_used
      = s.arena_used := by
  unfold corm_load_belongs_to
  rcases hfk : meta.fields.find? (fun f => f.name = field.fk_column_name) with _ | fkf
  · simp [hfk, S.emit]
  · simp only [hfk]
    rcases hrm : field.related_model.bind (fun i => s.models.get? i) with _ | relMeta
    · simp [hrm, S.emit]
    · simp only [hrm]
      split_ifs
      · rfl
      · rcases hf : corm_find s relMeta (inst fkf.offset) with ⟨relOpt, s2⟩
        have h2 : s2.arena_used = s.arena_used := by
          have h := arena_find s relMeta (inst fkf.offset)
          rwa [hf] at h
        simp only [hf]
        rcases relOpt with _ | rr
        · simpa using h2
        · rcases hdata : rr.data with _ | dptr
          · simpa [hdata] using h2
          · simp only [hdata]
            rcases ht : corm_result_track s2 parent_result dptr with ⟨ok, parent2, s3⟩
            have h3 : s3.arena_used = s2.arena_used := by
              have h := arena_result_track s2 parent_result dptr
              rwa [ht] at h
            simp only [ht]
            rcases ok with _ | _
            · simp only [Bool.not_false, if_true]
              have h4 := arena_free_fold rr.allocations s3
              simp [arena_free_fn, h4, h3, h2]
            · simp only [Bool.not_true, if_false]
              rcases hta : track_all s3 parent2 rr.allocations with ⟨allt, parent3, s4⟩
              have h5 : s4.arena_used = s3.arena_used := by
                have h := arena_track_all rr.allocations s3 parent2
                rwa [hta] at h
              simp only [hta]
              rcases allt with _ | _ <;>
                simp [arena_free_fn, S.emit, h5, h3, h2]

theorem arena_load_relation (s : S) (res : corm_result_t) (meta : model_meta_t)
    (inst : Instance) (field_name : String) :
    (corm_load_relation s res meta inst field_name).2.2.2.arena_used
      = s.arena_used := by
  unfold corm_load_relation
  rcases hfld : meta.fields.find? (fun f => f.name = field_name) with _ | field
  · simp [hfld, S.emit]
  · simp only [hfld]
    split_ifs
    · exact arena_load_belongs_to s res inst meta field
    · exact arena_load_has_many s res inst meta field
    · rfl

/-- C9 (amended): corm_save, corm_find, corm_find_all, corm_where_raw,
corm_delete and corm_load_relation all leave the scoped string arena's
used counter exactly where it was on entry, on every success and failure
path — each of these opens a temporary arena scope (or allocates nothing)
and rolls back on every exit.  corm_sync, by contrast, does not (see the
counterexample): its CREATE TABLE text generation has no checkpoint. -/
theorem C9_amended_arena_restored (s : S) (meta : model_meta_t) (inst : Instance)
    (pkv : Value) (wc : String) (params : List (Value × field_type_e))
    (res : corm_result_t) (field_name : String) :
    (corm_save s meta inst).2.2.arena_used = s.arena_used ∧
    (corm_find s meta pkv).2.arena_used = s.arena_used ∧
    (corm_find_all s meta).2.arena_used = s.arena_used ∧
    (corm_where_raw s meta wc params).2.arena_used = s.arena_used ∧
    (corm_delete s meta pkv).2.arena_used = s.arena_used ∧
    (corm_load_relation s res meta inst field_name).2.2.2.arena_used = s.arena_used :=
  ⟨arena_save s meta inst, arena_find s meta pkv, arena_find_all s meta,
   arena_where_raw s meta wc params, arena_delete s meta pkv,
   arena_load_relation s res meta inst field_name⟩

/-- C9 counterexample: corm_sync (Safe mode, creating one missing table)
is an SQL-building operation whose arena used counter on exit does not
equal its value on entry: the CREATE TABLE text is built with no
checkpoint, so the sync succeeds yet the arena keeps the transient SQL. -/
theorem C9_counterexample_sync_leaks_arena :
    (corm_sync S9 .CORM_SYNC_SAFE).1 = true ∧
    S9.arena_used = 0 ∧
    (corm_sync S9 .CORM_SYNC_SAFE).2.arena_used ≠ 0 := by
  refine ⟨rfl, rfl, ?_⟩
  decide

theorem hinv_init (s : S) (h : HeapFresh s.heap) : HInv s.heap s ∅ :=
  ⟨by simp, by simp, h, le_rfl⟩

theorem hinv_subset_live {h0 : Heap} {s : S} {F : Finset Nat} (hI : HInv h0 s F) :
    F ⊆ s.heap.live := by
  rw [hI.1]
  exact Finset.subset_union_right

theorem hinv_alloc_none {h0 : Heap} {s : S} {F : Finset Nat} (hI : HInv h0 s F)
    {s' : S} (h : corm_alloc_fn s = (none, s')) : HInv h0 s' F := by
  obtain ⟨h1, h2, h3, h4⟩ := hI
  unfold corm_alloc_fn at h
  split_ifs at h with hok
  · simp only [Prod.mk.injEq] at h
    exact absurd h.1 (by simp)
  · simp only [Prod.mk.injEq] at h
    obtain ⟨-, hs⟩ := h
    subst hs
    exact ⟨h1, h2, fun p hp => Nat.lt_succ_of_lt (h3 p hp), Nat.le_succ_of_le h4⟩

theorem hinv_alloc_some {h0 : Heap} {s : S} {F : Finset Nat} (hI : HInv h0 s F)
    {p : Nat} {s' : S} (h : corm_alloc_fn s = (some p, s')) :
    HInv h0 s' (insert p F) ∧ p ∉ s.heap.live ∧ p ∉ F ∧ p ∉ h0.live ∧
      s'.heap.live = insert p s.heap.live := by
  have hsub : F ⊆ s.heap.live := hinv_subset_live hI
  have hsub0 : h0.live ⊆ s.heap.live := by
    rw [hI.1]
    exact Finset.subset_union_left
  obtain ⟨h1, h2, h3, h4⟩ := hI
  unfold corm_alloc_fn at h
  split_ifs at h with hok
  · simp only [Prod.mk.injEq, Option.some.injEq] at h
    obtain ⟨hp, hs⟩ := h
    subst hp
    subst hs
    have hfre : s.heap.next ∉ s.heap.live := fun hmem => lt_irrefl _ (h3 _ hmem)
    have hF : s.heap.next ∉ F := fun hmem => hfre (hsub hmem)
    have h0mem : s.heap.next ∉ h0.live := fun hmem => hfre (hsub0 hmem)
    refine ⟨⟨?_, ?_, ?_, ?_⟩, hfre, hF, h0mem, rfl⟩
    · show insert s.heap.next s.heap.live = _
      rw [h1, Finset.union_insert]
    · rw [Finset.disjoint_insert_left]
      exact ⟨h0mem, h2⟩
    · intro q hq
      simp only [Finset.mem_insert] at hq
      rcases hq with hq | hq
      · simp [hq]
      · exact Nat.lt_succ_of_lt (h3 q hq)
    · exact Nat.le_succ_of_le h4
  · simp only [Prod.mk.injEq] at h
    exact absurd h.1 (by simp)

theorem hinv_free {h0 : Heap} {s : S} {F : Finset Nat} (hI : HInv h0 s F)
    {p : Nat} (hp : p ∈ F) : HInv h0 (corm_free_fn s p) (F.erase p) := by
  obtain ⟨h1, h2, h3, h4⟩ := hI
  have hp0 : p ∉ h0.live := Finset.disjoint_left.mp h2 hp
  refine ⟨?_, ?_, ?_, h4⟩
  · show s.heap.live.erase p = _
    rw [h1, Finset.erase_union_distrib, Finset.erase_eq_of_not_mem hp0]
  · exact Finset.disjoint_of_subset_left (Finset.erase_subset _ _) h2
  · intro q hq
    exact h3 q (Finset.mem_of_mem_erase hq)

theorem free_fold_live (ps : List Nat) :
    ∀ s : S, (ps.foldl corm_free_fn s).heap.live = s.heap.live \ ps.toFinset := by
  induction ps with
  | nil => intro s; simp
  | cons p rest ih =>
    intro s
    simp only [List.foldl_cons, ih, List.toFinset_cons]
    show (corm_free_fn s p).heap.live \ rest.toFinset = _
    simp only [corm_free_fn]
    rw [Finset.erase_eq, sdiff_sdiff_left]
    have hps : ({p} ⊔ rest.toFinset : Finset Nat) = insert p rest.toFinset := by
      ext q
      simp
    rw [hps]

theorem union_sdiff_of_disjoint {A F : Finset Nat} (h : Disjoint F A) :
    (A ∪ F) \ F = A := by
  rw [Finset.union_sdiff_distrib]
  simp [Finset.sdiff_eq_self_of_disjoint h.symm]

theorem free_result_restore {h0 : Heap} {s : S} {res : corm_result_t}
    (hI : HInv h0 s (resFootprint res)) :
    (corm_free_result s res).heap.live = h0.live := by
  have hmain : s.heap.live \ resFootprint res = h0.live := by
    rw [hI.1]
    exact union_sdiff_of_disjoint hI.2.1
  unfold corm_free_result
  rcases hd : res.data with _ | d
  · simp only [corm_free_opt, hd, corm_free_fn]
    show ((((res.allocations.foldl corm_free_fn s)).heap.live.erase
      res.allocations_ptr).erase res.self_ptr) = h0.live
    rw [free_fold_live, Finset.erase_eq, Finset.erase_eq, sdiff_sdiff_left,
      sdiff_sdiff_left, ← hmain]
    congr 1
    ext a
    simp [resFootprint, hd]
    tauto
  · simp only [corm_free_opt, hd, corm_free_fn]
    show ((((res.allocations.foldl corm_free_fn s)).heap.live.erase
      res.allocations_ptr).erase d).erase res.self_ptr = h0.live
    rw [free_fold_live, Finset.erase_eq, Finset.erase_eq, Finset.erase_eq,
      sdiff_sdiff_left, sdiff_sdiff_left, sdiff_sdiff_left, ← hmain]
    congr 1
    ext a
    simp [resFootprint, hd]
    tauto

theorem nodup_append_singleton {l : List Nat} {p : Nat} (h : l.Nodup)
    (hp : p ∉ l) : (l ++ [p]).Nodup := by
  simp [List.nodup_append, h, hp]

theorem hinv_result_track {h0 : Heap} {s : S} {res : corm_result_t} {p : Nat}
    (hI : HInv h0 s (resFootprint res ∪ {p})) (hsep : ResSep res)
    (hp : p ∉ resFootprint res) :
    (∀ res' s', corm_result_track s res p = (true, res', s') →
      HInv h0 s' (resFootprint res') ∧ ResSep res' ∧ res'.data = res.data ∧
      res'.self_ptr = res.self_ptr ∧ res'.allocations = res.allocations ++ [p] ∧
      ∀ a ∈ resFootprint res', a ∈ resFootprint res ∪ {p} ∨ a ∉ s.heap.live) ∧
    (∀ res' s', corm_result_track s res p = (false, res', s') →
      res' = res ∧ HInv h0 s' (resFootprint res ∪ {p})) := by
  have hlive : resFootprint res ∪ {p} ⊆ s.heap.live := hinv_subset_live hI
  have harr_fp : res.allocations_ptr ∈ resFootprint res := by simp [resFootprint]
  have hself_fp : res.self_ptr ∈ resFootprint res := by simp [resFootprint]
  have hallocs_fp : ∀ a ∈ res.allocations, a ∈ resFootprint res := by
    intro a ha
    simp [resFootprint, ha]
  have hdata_fp : ∀ d, res.data = some d → d ∈ resFootprint res := by
    intro d hd
    simp [resFootprint, hd, Option.mem_toFinset]
  have hp_arr : p ≠ res.allocations_ptr := fun h => hp (h ▸ harr_fp)
  have hp_self : p ≠ res.self_ptr := fun h => hp (h ▸ hself_fp)
  have hp_allocs : p ∉ res.allocations := fun h => hp (hallocs_fp p h)
  have hp_data : ∀ d, res.data = some d → p ≠ d := fun d hd h => hp (h ▸ hdata_fp d hd)
  by_cases hcap : res.allocations.length ≥ res.allocation_capacity
  · rcases hq : corm_alloc_fn s with ⟨qOpt, s1⟩
    rcases qOpt with _ | q
    · constructor
      · intro res' s' h
        unfold corm_result_track at h
        rw [if_pos hcap, hq] at h
        simp at h
      · intro res' s' h
        unfold corm_result_track at h
        rw [if_pos hcap, hq] at h
        simp only [Prod.mk.injEq, true_and] at h
        obtain ⟨hres, hs⟩ := h
        subst hres
        subst hs
        exact ⟨rfl, hinv_alloc_none hI hq⟩
    · have halloc := hinv_alloc_some hI hq
      have hq_live : q ∉ s.heap.live := halloc.2.1
      have hq_arr : q ≠ res.allocations_ptr := fun h =>
        hq_live (h ▸ hlive (Finset.mem_union_left _ harr_fp))
      have hq_self : q ≠ res.self_ptr := fun h =>
        hq_live (h ▸ hlive (Finset.mem_union_left _ hself_fp))
      have hq_allocs : q ∉ res.allocations := fun h =>
        hq_live (hlive (Finset.mem_union_left _ (hallocs_fp q h)))
      have hq_data : ∀ d, res.data = some d → q ≠ d := fun d hd h =>
        hq_live (h ▸ hlive (Finset.mem_union_left _ (hdata_fp d hd)))
      have hq_p : q ≠ p := fun h =>
        hq_live (h ▸ hlive (Finset.mem_union_right _ (Finset.mem_singleton_self p)))
      have harr_mem : res.allocations_ptr ∈ insert q (resFootprint res ∪ {p}) := by
        simp [harr_fp]
      have hfree := hinv_free halloc.1 harr_mem
      constructor
      · intro res' s' h
        unfold corm_result_track at h
        rw [if_pos hcap, hq] at h
        simp only [Prod.mk.injEq, true_and] at h
        obtain ⟨hres, hs⟩ := h
        subst hres
        subst hs
        have hseteq : (insert q (resFootprint res ∪ {p})).erase res.allocations_ptr = resFootprint ({ res with allocations_ptr := q, allocation_capacity := res.allocation_capacity * 2, allocations := res.allocations ++ [p] }) := by
          ext a
          simp only [resFootprint, Finset.mem_erase, Finset.mem_insert,
            Finset.mem_union, List.mem_toFinset, Finset.mem_singleton,
            List.mem_append, List.mem_cons, List.not_mem_nil, or_false,
            Option.mem_toFinset, Option.mem_def]
          have harrself : res.allocations_ptr ≠ res.self_ptr := hsep.2.1
          by_cases hA : a ∈ res.allocations
          · have h1 : a ≠ res.allocations_ptr := fun h => hsep.1 (h ▸ hA)
            simp [hA, h1]
          · by_cases hD : res.data = some a
            · have h2 : a ≠ res.allocations_ptr := (hsep.2.2.2.1 a hD).2.1
              simp [hA, hD, h2]
            · simp only [hA, hD, false_or, or_false]
              omega
        rw [hseteq] at hfree
        have hexp : ∀ a ∈ resFootprint ({ res with allocations_ptr := q, allocation_capacity := res.allocation_capacity * 2, allocations := res.allocations ++ [p] } : corm_result_t), a ∈ resFootprint res ∪ {p} ∨ a ∉ s.heap.live := by
          intro a ha
          by_cases hq2 : a = q
          · subst hq2
            exact Or.inr hq_live
          · refine Or.inl ?_
            simp only [resFootprint, Finset.mem_union, List.mem_toFinset,
              Finset.mem_insert, Finset.mem_singleton, List.mem_append,
              List.mem_cons, List.not_mem_nil, or_false, Option.mem_toFinset,
              Option.mem_def] at ha ⊢
            tauto
        refine ⟨hfree, ?_, rfl, rfl, rfl, hexp⟩
        refine ⟨?_, ?_, ?_, ?_, nodup_append_singleton hsep.2.2.2.2 hp_allocs⟩
        · intro hmem
          simp only [List.mem_append, List.mem_cons, List.not_mem_nil, or_false] at hmem
          rcases hmem with hmem | hmem
          · exact hq_allocs hmem
          · exact hq_p hmem
        · exact hq_self
        · intro hmem
          simp only [List.mem_append, List.mem_cons, List.not_mem_nil, or_false] at hmem
          rcases hmem with hmem | hmem
          · exact hsep.2.2.1 hmem
          · exact hp_self hmem.symm
        · intro d hd
          refine ⟨?_, ?_, ?_⟩
          · intro hmem
            simp only [List.mem_append, List.mem_cons, List.not_mem_nil, or_false] at hmem
            rcases hmem with hmem | hmem
            · exact (hsep.2.2.2.1 d hd).1 hmem
            · exact hp_data d hd hmem.symm
          · intro h
            exact hq_data d hd h.symm
          · exact (hsep.2.2.2.1 d hd).2.2
      · intro res' s' h
        unfold corm_result_track at h
        rw [if_pos hcap, hq] at h
        simp at h
  · constructor
    · intro res' s' h
      unfold corm_result_track at h
      rw [if_neg hcap] at h
      simp only [Prod.mk.injEq, true_and] at h
      obtain ⟨hres, hs⟩ := h
      subst hres
      subst hs
      have hseteq : resFootprint ({ res with allocations := res.allocations ++ [p] }) =
          resFootprint res ∪ {p} := by
        ext a
        simp only [resFootprint, Finset.mem_union, List.mem_toFinset,
          Finset.mem_singleton, List.mem_append, List.mem_cons,
          List.not_mem_nil, or_false, Finset.mem_insert, Option.mem_toFinset,
          Option.mem_def]
        tauto
      refine ⟨?_, ?_, rfl, rfl, rfl, fun a ha => Or.inl (hseteq ▸ ha)⟩
      · rw [hseteq]
        exact hI
      · refine ⟨?_, hsep.2.1, ?_, ?_, nodup_append_singleton hsep.2.2.2.2 hp_allocs⟩
        · intro hmem
          simp only [List.mem_append, List.mem_cons, List.not_mem_nil, or_false] at hmem
          rcases hmem with hmem | hmem
          · exact hsep.1 hmem
          · exact hp_arr hmem.symm
        · intro hmem
          simp only [List.mem_append, List.mem_cons, List.not_mem_nil, or_false] at hmem
          rcases hmem with hmem | hmem
          · exact hsep.2.2.1 hmem
          · exact hp_self hmem.symm
        · intro d hd
          refine ⟨?_, (hsep.2.2.2.1 d hd).2.1, (hsep.2.2.2.1 d hd).2.2⟩
          intro hmem
          simp only [List.mem_append, List.mem_cons, List.not_mem_nil, or_false] at hmem
          rcases hmem with hmem | hmem
          · exact (hsep.2.2.2.1 d hd).1 hmem
          · exact hp_data d hd hmem.symm
    · intro res' s' h
      unfold corm_result_track at h
      rw [if_neg hcap] at h
      simp at h

theorem insert_eq_union_singleton (p : Nat) (F : Finset Nat) : insert p F = F ∪ {p} := by
  ext a
  simp [or_comm]

theorem hinv_heap_congr {h0 : Heap} {s t : S} {F : Finset Nat} (h : t.heap = s.heap)
    (hI : HInv h0 s F) : HInv h0 t F := by
  unfold HInv at *
  rw [h]
  exact hI

theorem hinv_result_alloc {h0 : Heap} {s : S} {res : corm_result_t}
    (hI : HInv h0 s (resFootprint res)) (hsep : ResSep res) :
    (∀ res' s', corm_result_alloc s res = (none, res', s') →
      res' = res ∧ HInv h0 s' (resFootprint res)) ∧
    (∀ p res' s', corm_result_alloc s res = (some p, res', s') →
      HInv h0 s' (resFootprint res') ∧ ResSep res' ∧ res'.data = res.data ∧
      res'.self_ptr = res.self_ptr ∧ p ∈ res'.allocations) := by
  rcases hq : corm_alloc_fn s with ⟨pOpt, s1⟩
  rcases pOpt with _ | p
  · constructor
    · intro res' s' h
      unfold corm_result_alloc at h
      rw [hq] at h
      simp only [Prod.mk.injEq, true_and] at h
      obtain ⟨hres, hs⟩ := h
      subst hres
      subst hs
      exact ⟨rfl, hinv_alloc_none hI hq⟩
    · intro p res' s' h
      unfold corm_result_alloc at h
      rw [hq] at h
      simp at h
  · have halloc := hinv_alloc_some hI hq
    have hIu : HInv h0 s1 (resFootprint res ∪ {p}) := by
      rw [← insert_eq_union_singleton]
      exact halloc.1
    have hpfp : p ∉ resFootprint res := halloc.2.2.1
    have htrack := hinv_result_track hIu hsep hpfp
    rcases ht : corm_result_track s1 res p with ⟨ok, res2, s2⟩
    rcases ok with _ | _
    · obtain ⟨hres2, hI2⟩ := htrack.2 res2 s2 ht
      subst hres2
      constructor
      · intro res' s' h
        unfold corm_result_alloc at h
        rw [hq] at h
        simp only [ht] at h
        simp only [Bool.false_eq_true, if_false, Prod.mk.injEq, true_and] at h
        obtain ⟨hres, hs⟩ := h
        subst hs
        refine ⟨hres.symm, ?_⟩
        have hmem : p ∈ resFootprint res2 ∪ {p} := by simp
        have hfree := hinv_free hI2 hmem
        have hset : (resFootprint res2 ∪ {p}).erase p = resFootprint res2 := by
          rw [Finset.erase_union_distrib, Finset.erase_eq_of_not_mem hpfp]
          simp
        rwa [hset] at hfree
      · intro p' res' s' h
        unfold corm_result_alloc at h
        rw [hq] at h
        simp only [ht] at h
        simp at h
    · obtain ⟨hI2, hsep2, hdata2, hself2, hallocs2, -⟩ := htrack.1 res2 s2 ht
      constructor
      · intro res' s' h
        unfold corm_result_alloc at h
        rw [hq] at h
        simp only [ht] at h
        simp at h
      · intro p' res' s' h
        unfold corm_result_alloc at h
        rw [hq] at h
        simp only [ht] at h
        simp only [if_true, Prod.mk.injEq, Option.some.injEq] at h
        obtain ⟨hp', hres, hs⟩ := h
        subst hp'
        subst hres
        subst hs
        exact ⟨hI2, hsep2, hdata2, hself2, by simp [hallocs2]⟩

theorem hinv_extract {h0 : Heap} {s : S} {res : corm_result_t} (colv : SqlVal)
    (cur : Value) (ty : field_type_e)
    (hI : HInv h0 s (resFootprint res)) (hsep : ResSep res) :
    ∀ ok v res' s', extract_field_from_column s res colv cur ty = (ok, v, res', s') →
      HInv h0 s' (resFootprint res') ∧ ResSep res' ∧ res'.data = res.data ∧
      res'.self_ptr = res.self_ptr := by
  intro ok v res' s' h
  unfold extract_field_from_column at h
  split_ifs at h with hnull
  · simp only [Prod.mk.injEq] at h
    obtain ⟨-, -, hres, hs⟩ := h
    subst hres
    subst hs
    exact ⟨hI, hsep, rfl, rfl⟩
  · match ty with
    | .INT | .BOOL | .INT64 | .FLOAT | .DOUBLE =>
      simp only [Prod.mk.injEq] at h
      obtain ⟨-, -, hres, hs⟩ := h
      subst hres
      subst hs
      exact ⟨hI, hsep, rfl, rfl⟩
    | .BELONGS_TO | .HAS_MANY =>
      simp only [Prod.mk.injEq] at h
      obtain ⟨-, -, hres, hs⟩ := h
      subst hres
      subst hs
      refine ⟨hinv_heap_congr rfl hI, hsep, rfl, rfl⟩
    | .STRING =>
      rcases htext : column_text colv with _ | str
      · rw [htext] at h
        simp only [Prod.mk.injEq] at h
        obtain ⟨-, -, hres, hs⟩ := h
        subst hres
        subst hs
        exact ⟨hI, hsep, rfl, rfl⟩
      · rw [htext] at h
        have hra := hinv_result_alloc hI hsep
        rcases hq : corm_result_alloc s res with ⟨pOpt, res2, s2⟩
        rw [hq] at h
        rcases pOpt with _ | p
        · obtain ⟨hres2, hI2⟩ := hra.1 res2 s2 hq
          subst hres2
          simp only [Prod.mk.injEq] at h
          obtain ⟨-, -, hres, hs⟩ := h
          subst hres
          subst hs
          exact ⟨hI2, hsep, rfl, rfl⟩
        · obtain ⟨hI2, hsep2, hdata2, hself2, -⟩ := hra.2 p res2 s2 hq
          simp only [Prod.mk.injEq] at h
          obtain ⟨-, -, hres, hs⟩ := h
          subst hres
          subst hs
          exact ⟨hI2, hsep2, hdata2, hself2⟩
    | .BLOB =>
      by_cases hlen : (column_blob colv).length > 0
      · simp only [if_pos hlen] at h
        have hra := hinv_result_alloc hI hsep
        rcases hq : corm_result_alloc s res with ⟨pOpt, res2, s2⟩
        rw [hq] at h
        rcases pOpt with _ | p
        · obtain ⟨hres2, hI2⟩ := hra.1 res2 s2 hq
          subst hres2
          simp only [Prod.mk.injEq] at h
          obtain ⟨-, -, hres, hs⟩ := h
          subst hres
          subst hs
          exact ⟨hI2, hsep, rfl, rfl⟩
        · obtain ⟨hI2, hsep2, hdata2, hself2, -⟩ := hra.2 p res2 s2 hq
          simp only [Prod.mk.injEq] at h
          obtain ⟨-, -, hres, hs⟩ := h
          subst hres
          subst hs
          exact ⟨hI2, hsep2, hdata2, hself2⟩
      · simp only [if_neg hlen, Prod.mk.injEq] at h
        obtain ⟨-, -, hres, hs⟩ := h
        subst hres
        subst hs
        exact ⟨hI, hsep, rfl, rfl⟩

theorem hinv_materialize_fields {h0 : Heap} (row : Row) (warn : Bool) :
    ∀ (flds : List field_info_t) (s : S) (res : corm_result_t) (inst : Instance),
      HInv h0 s (resFootprint res) → ResSep res →
      ∀ inst' res' s', materialize_fields s res row inst warn flds = (inst', res', s') →
        HInv h0 s' (resFootprint res') ∧ ResSep res' ∧ res'.data = res.data ∧
        res'.self_ptr = res.self_ptr := by
  intro flds
  induction flds with
  | nil =>
    intro s res inst hI hsep inst' res' s' h
    simp only [materialize_fields, Prod.mk.injEq] at h
    obtain ⟨-, hres, hs⟩ := h
    subst hres
    subst hs
    exact ⟨hI, hsep, rfl, rfl⟩
  | cons f rest ih =>
    intro s res inst hI hsep inst' res' s' h
    unfold materialize_fields at h
    by_cases hrel : isRel f.type = true
    · rw [if_pos hrel] at h
      exact ih s res inst hI hsep inst' res' s' h
    · rw [if_neg hrel] at h
      rcases hcol : find_column_index row f.name with _ | j
      · simp only [hcol] at h
        cases warn with
        | false =>
          simp only [Bool.false_eq_true, if_false] at h
          exact ih s res inst hI hsep inst' res' s' h
        | true =>
          simp only [if_true] at h
          exact ih (s.emit (Event.logWarn ("Column " ++ f.name ++ " not found in result set")))
            res inst (hinv_heap_congr rfl hI) hsep inst' res' s' h
      · simp only [hcol] at h
        rcases hx : extract_field_from_column s res (column_at row j) (inst f.offset)
          f.type with ⟨ok, v, res2, s2⟩
        simp only [hx] at h
        obtain ⟨hI2, hsep2, hdata2, hself2⟩ :=
          hinv_extract (column_at row j) (inst f.offset) f.type hI hsep ok v res2 s2 hx
        obtain ⟨hI3, hsep3, hdata3, hself3⟩ :=
          ih s2 res2 (Function.update inst f.offset v) hI2 hsep2 inst' res' s' h
        exact ⟨hI3, hsep3, hdata3.trans hdata2, hself3.trans hself2⟩

theorem heap_exec_dml (s : S) (st : StmtState) :
    (exec_dml s st).2.heap = s.heap := by
  unfold exec_dml
  cases st.cmd with
  | insertCmd t cols =>
    rcases hdb : db_get_table s.db t with _ | td <;> simp [hdb, db_set_table]
  | updateCmd t sc wc =>
    rcases hdb : db_get_table s.db t with _ | td <;>
      rcases hl : (bound_params st).getLast? with _ | wv <;> simp [hdb, hl, db_set_table]
  | deleteWhereEq t c =>
    rcases hdb : db_get_table s.db t with _ | td <;>
      rcases hb : bound_param st 1 with _ | wv <;> simp [hdb, hb, db_set_table]
  | selectWhereEq t c => rfl
  | selectCount t c => rfl
  | selectCountAll t => rfl
  | selectAll t => rfl
  | selectWhereRaw t wc => rfl

theorem heap_backend_step (s : S) (st : StmtState) :
    (backend_step s st).2.2.2.heap = s.heap := by
  unfold backend_step
  split_ifs
  · simp only [List.get?_eq_getElem?]
    rcases hg : (stmt_rows (s.emit Event.stepEv) st)[st.cursor]? with _ | row <;>
      simp [hg, S.emit]
  · rcases hq : exec_dml (s.emit .stepEv) st with ⟨r, s'⟩
    have h := heap_exec_dml (s.emit .stepEv) st
    rw [hq] at h
    simp only [hq]
    simpa [S.emit] using h

theorem hinv_result_create {h0 : Heap} {s : S} (hI : HInv h0 s ∅) :
    (∀ s', corm_result_create s = (none, s') → HInv h0 s' ∅) ∧
    (∀ res s', corm_result_create s = (some res, s') →
      HInv h0 s' (resFootprint res) ∧ ResSep res ∧ res.data = none ∧
      res.allocations = []) := by
  rcases hc : corm_alloc_fn s with ⟨cOpt, s1⟩
  rcases cOpt with _ | c
  · constructor
    · intro s' h
      unfold corm_result_create at h
      simp only [hc] at h
      simp only [Prod.mk.injEq] at h
      obtain ⟨-, hs⟩ := h
      subst hs
      exact hinv_alloc_none hI hc
    · intro res s' h
      unfold corm_result_create at h
      simp only [hc] at h
      simp at h
  · have hca := hinv_alloc_some hI hc
    rcases ha : corm_alloc_fn s1 with ⟨aOpt, s2⟩
    rcases aOpt with _ | a
    · have h2 := hinv_alloc_none hca.1 ha
      constructor
      · intro s' h
        unfold corm_result_create at h
        simp only [hc, ha] at h
        simp only [Prod.mk.injEq] at h
        obtain ⟨-, hs⟩ := h
        subst hs
        have hfree := hinv_free h2 (by simp : c ∈ insert c (∅ : Finset Nat))
        simpa using hfree
      · intro res s' h
        unfold corm_result_create at h
        simp only [hc, ha] at h
        simp at h
    · have h2 := hinv_alloc_some hca.1 ha
      constructor
      · intro s' h
        unfold corm_result_create at h
        simp only [hc, ha] at h
        simp at h
      · intro res s' h
        unfold corm_result_create at h
        simp only [hc, ha] at h
        simp only [Prod.mk.injEq, Option.some.injEq] at h
        obtain ⟨hres, hs⟩ := h
        subst hs
        have hane : a ≠ c := by
          intro he
          apply h2.2.1
          rw [he, hca.2.2.2.2]
          simp
        subst hres
        refine ⟨?_, ?_, rfl, rfl⟩
        · have hset : resFootprint { data := none, instances := [], count := 0, allocations := [], allocation_capacity := 16, allocations_ptr := a, self_ptr := c } = insert a (insert c ∅) := by
            ext x
            simp [resFootprint]
          rw [hset]
          exact h2.1
        · refine ⟨by simp, hane, by simp, ?_, by simp⟩
          intro d hd
          simp at hd

theorem hinv_find_fill {h0 : Heap} {s : S} (meta : model_meta_t) (row : Row) (cp : Nat)
    (hI : HInv h0 s ∅) :
    (∀ s', corm_find_fill s meta row cp = (none, s') → s'.heap.live = h0.live) ∧
    (∀ res s', corm_find_fill s meta row cp = (some res, s') →
      HInv h0 s' (resFootprint res) ∧ ResSep res) := by
  have hrc := hinv_result_create hI
  rcases hq : corm_result_create s with ⟨resOpt, s1⟩
  rcases resOpt with _ | res0
  · have h1 := hrc.1 s1 hq
    constructor
    · intro s' h
      unfold corm_find_fill at h
      simp only [hq] at h
      simp only [Prod.mk.injEq] at h
      obtain ⟨-, hs⟩ := h
      subst hs
      simpa [corm_arena_end_temp, backend_finalize, S.emit] using h1.1
    · intro res s' h
      unfold corm_find_fill at h
      simp only [hq] at h
      simp at h
  · obtain ⟨hI1, hsep0, hdata0, hallocs0⟩ := hrc.2 res0 s1 hq
    rcases ha : corm_alloc_fn s1 with ⟨dOpt, s2⟩
    rcases dOpt with _ | d
    · have h2 := hinv_alloc_none hI1 ha
      constructor
      · intro s' h
        unfold corm_find_fill at h
        simp only [hq, ha] at h
        simp only [Prod.mk.injEq] at h
        obtain ⟨-, hs⟩ := h
        subst hs
        have hmA : res0.allocations_ptr ∈ resFootprint res0 := by simp [resFootprint]
        have h3 := hinv_free h2 hmA
        have hmS : res0.self_ptr ∈ (resFootprint res0).erase res0.allocations_ptr := by
          refine Finset.mem_erase.mpr ⟨?_, by simp [resFootprint]⟩
          exact (hsep0.2.1).symm
        have h4 := hinv_free h3 hmS
        have hE : ((resFootprint res0).erase res0.allocations_ptr).erase res0.self_ptr
            = ∅ := by
          ext x
          by_cases h1x : x = res0.allocations_ptr <;>
            by_cases h2x : x = res0.self_ptr <;>
            simp [resFootprint, hdata0, hallocs0, h1x, h2x]
        rw [hE] at h4
        simpa [corm_arena_end_temp, backend_finalize, S.emit] using h4.1
      · intro res s' h
        unfold corm_find_fill at h
        simp only [hq, ha] at h
        simp at h
    · have h2 := hinv_alloc_some hI1 ha
      have hdnot : d ∉ resFootprint res0 := h2.2.2.1
      have hd1 : d ∉ res0.allocations := fun hm => hdnot (by simp [resFootprint, hm])
      have hd2 : d ≠ res0.allocations_ptr := fun he => hdnot (by simp [resFootprint, he])
      have hd3 : d ≠ res0.self_ptr := fun he => hdnot (by simp [resFootprint, he])
      have hfp1 : resFootprint { res0 with data := some d, count := 1 } =
          insert d (resFootprint res0) := by
        ext x
        simp [resFootprint, hdata0, hallocs0]
        tauto
      have hsep1 : ResSep { res0 with data := some d, count := 1 } := by
        refine ⟨hsep0.1, hsep0.2.1, hsep0.2.2.1, ?_, hsep0.2.2.2.2⟩
        intro e he
        simp only [Option.some.injEq] at he
        subst he
        exact ⟨hd1, hd2, hd3⟩
      have hI2 : HInv h0 s2 (resFootprint { res0 with data := some d, count := 1 }) := by
        rw [hfp1]
        exact h2.1
      rcases hm : materialize_fields s2 { res0 with data := some d, count := 1 } row
        (zeroInstance meta) false meta.fields with ⟨inst, res2, s3⟩
      obtain ⟨hI3, hsep3, hdata3, hself3⟩ :=
        hinv_materialize_fields row false meta.fields s2
          { res0 with data := some d, count := 1 } (zeroInstance meta) hI2 hsep1
          inst res2 s3 hm
      constructor
      · intro s' h
        unfold corm_find_fill at h
        simp only [hq, ha, hm] at h
        simp at h
      · intro res s' h
        unfold corm_find_fill at h
        simp only [hq, ha, hm] at h
        simp only [Prod.mk.injEq, Option.some.injEq] at h
        obtain ⟨hres, hs⟩ := h
        subst hs
        rw [← hres]
        exact ⟨hinv_heap_congr rfl hI3, hsep3⟩

theorem hinv_find_exec {h0 : Heap} {s : S} (meta : model_meta_t) (st : StmtState)
    (cp : Nat) (hI : HInv h0 s ∅) :
    (∀ s', corm_find_exec s meta st cp = (none, s') → s'.heap.live = h0.live) ∧
    (∀ res s', corm_find_exec s meta st cp = (some res, s') →
      HInv h0 s' (resFootprint res) ∧ ResSep res) := by
  rcases hb : backend_step s st with ⟨r, rowOpt, st2, s1⟩
  have hheap : s1.heap = s.heap := by
    have hx := heap_backend_step s st
    rw [hb] at hx
    exact hx
  have hI1 : HInv h0 s1 ∅ := hinv_heap_congr hheap hI
  rcases rowOpt with _ | row
  · constructor
    · intro s' h
      unfold corm_find_exec at h
      simp only [hb] at h
      simp only [Prod.mk.injEq] at h
      obtain ⟨-, hs⟩ := h
      subst hs
      simpa [corm_arena_end_temp, backend_finalize, S.emit] using hI1.1
    · intro res s' h
      unfold corm_find_exec at h
      simp only [hb] at h
      simp at h
  · by_cases hr : r = 1
    · subst hr
      have hf := hinv_find_fill meta row cp hI1
      constructor
      · intro s' h
        unfold corm_find_exec at h
        simp only [hb] at h
        rw [if_pos trivial] at h
        exact hf.1 s' h
      · intro res s' h
        unfold corm_find_exec at h
        simp only [hb] at h
        rw [if_pos trivial] at h
        exact hf.2 res s' h
    · constructor
      · intro s' h
        unfold corm_find_exec at h
        simp only [hb] at h
        rw [if_neg hr] at h
        simp only [Prod.mk.injEq] at h
        obtain ⟨-, hs⟩ := h
        subst hs
        simpa [corm_arena_end_temp, backend_finalize, S.emit] using hI1.1
      · intro res s' h
        unfold corm_find_exec at h
        simp only [hb] at h
        rw [if_neg hr] at h
        simp at h

theorem hinv_find (s : S) (meta : model_meta_t) (pkv : Value)
    (hfresh : HeapFresh s.heap) :
    (∀ s', corm_find s meta pkv = (none, s') → s'.heap.live = s.heap.live) ∧
    (∀ res s', corm_find s meta pkv = (some res, s') →
      HInv s.heap s' (resFootprint res) ∧ ResSep res) := by
  have hI0 : HInv s.heap s ∅ := hinv_init s hfresh
  unfold corm_find
  rcases hpk : meta.primary_key_field with _ | pkf
  · simp only []
    constructor
    · intro s' h
      simp only [Prod.mk.injEq] at h
      obtain ⟨-, hs⟩ := h
      subst hs
      rfl
    · intro res s' h
      simp at h
  · simp only [corm_str_fmt, corm_arena_start_temp, backend_prepare_eq,
      stmt_kind.table]
    rcases hdb : db_get_table (corm_arena_alloc s (("SELECT * FROM " ++
        meta.table_name ++ " WHERE " ++ pkf.name ++ " = " ++
        s.backend.get_placeholder 1 ++ ";").length + 1)).db
        meta.table_name with _ | td
    · simp only [hdb, Option.map_none']
      constructor
      · intro s' h
        simp only [Prod.mk.injEq] at h
        obtain ⟨-, hs⟩ := h
        subst hs
        simp [corm_arena_end_temp, S.emit, arena_alloc_heap]
      · intro res s' h
        simp at h
    · simp only [hdb, Option.map_some']
      rcases hbind : bind_param_by_type
          ({ cmd := stmt_kind.selectWhereEq meta.table_name pkf.name }) 1 pkv
          pkf.type with _ | st
      · simp only [hbind]
        constructor
        · intro s' h
          simp only [Prod.mk.injEq] at h
          obtain ⟨-, hs⟩ := h
          subst hs
          simp [corm_arena_end_temp, backend_finalize, S.emit, arena_alloc_heap]
        · intro res s' h
          simp at h
      · simp only [hbind]
        have hIP : HInv s.heap ((corm_arena_alloc s (("SELECT * FROM " ++
            meta.table_name ++ " WHERE " ++ pkf.name ++ " = " ++
            s.backend.get_placeholder 1 ++ ";").length + 1)).emit
            (.prepare ("SELECT * FROM " ++ meta.table_name ++ " WHERE " ++
            pkf.name ++ " = " ++ s.backend.get_placeholder 1 ++ ";"))) ∅ :=
          hinv_heap_congr (by simp [S.emit, arena_alloc_heap]) hI0
        have hexec := hinv_find_exec meta st s.arena_used hIP
        exact ⟨fun s' h => hexec.1 s' h, fun res s' h => hexec.2 res s' h⟩

theorem alloc_none_live {s s1 : S} (h : corm_alloc_fn s = (none, s1)) :
    s1.heap.live = s.heap.live := by
  unfold corm_alloc_fn at h
  split_ifs at h with hok
  · simp at h
  · simp only [Prod.mk.injEq] at h
    obtain ⟨-, hs⟩ := h
    subst hs
    rfl

theorem alloc_some_live {s s1 : S} {p : Nat} (h : corm_alloc_fn s = (some p, s1)) :
    p = s.heap.next ∧ s1.heap.live = insert p s.heap.live := by
  unfold corm_alloc_fn at h
  split_ifs at h with hok
  · simp only [Prod.mk.injEq, Option.some.injEq] at h
    obtain ⟨hp, hs⟩ := h
    subst hs
    exact ⟨hp.symm, by rw [hp]⟩
  · simp at h

theorem track_true_mem (s : S) (res : corm_result_t) (p : Nat) :
    ∀ res' s', corm_result_track s res p = (true, res', s') →
      res'.allocations = res.allocations ++ [p] := by
  intro res' s' h
  unfold corm_result_track at h
  split_ifs at h with hcap
  · rcases hq : corm_alloc_fn s with ⟨nOpt, s1⟩
    simp only [hq] at h
    rcases nOpt with _ | q
    · simp at h
    · simp only [Prod.mk.injEq, true_and] at h
      obtain ⟨hres, -⟩ := h
      rw [← hres]
  · simp only [Prod.mk.injEq, true_and] at h
    obtain ⟨hres, -⟩ := h
    rw [← hres]

theorem track_false_inv (s : S) (res : corm_result_t) (p : Nat) :
    ∀ res' s', corm_result_track s res p = (false, res', s') →
      res' = res ∧ s'.heap.live = s.heap.live := by
  intro res' s' h
  unfold corm_result_track at h
  split_ifs at h with hcap
  · rcases hq : corm_alloc_fn s with ⟨nOpt, s1⟩
    simp only [hq] at h
    rcases nOpt with _ | q
    · simp only [Prod.mk.injEq, true_and] at h
      obtain ⟨hres, hs⟩ := h
      subst hs
      exact ⟨hres.symm, alloc_none_live hq⟩
    · simp at h
  · simp at h

theorem result_alloc_some_tracked (s : S) (res : corm_result_t) :
    ∀ p res' s', corm_result_alloc s res = (some p, res', s') →
      p ∈ res'.allocations := by
  intro p res' s' h
  unfold corm_result_alloc at h
  rcases hq : corm_alloc_fn s with ⟨pOpt, s1⟩
  simp only [hq] at h
  rcases pOpt with _ | q
  · simp at h
  · rcases ht : corm_result_track s1 res q with ⟨ok, res2, s2⟩
    simp only [ht] at h
    cases ok
    · simp at h
    · simp only [if_true, Prod.mk.injEq, Option.some.injEq] at h
      obtain ⟨hp, hres, -⟩ := h
      subst hp
      rw [← hres, track_true_mem s1 res q res2 s2 ht]
      simp

theorem result_alloc_none_live (s : S) (res : corm_result_t)
    (hfresh : HeapFresh s.heap) :
    ∀ res' s', corm_result_alloc s res = (none, res', s') →
      res' = res ∧ s'.heap.live = s.heap.live := by
  intro res' s' h
  have hnext : s.heap.next ∉ s.heap.live := fun hm => lt_irrefl _ (hfresh _ hm)
  unfold corm_result_alloc at h
  rcases hq : corm_alloc_fn s with ⟨pOpt, s1⟩
  simp only [hq] at h
  rcases pOpt with _ | p
  · simp only [Prod.mk.injEq, true_and] at h
    obtain ⟨hres, hs⟩ := h
    subst hs
    exact ⟨hres.symm, alloc_none_live hq⟩
  · obtain ⟨hp, hlive1⟩ := alloc_some_live hq
    rcases ht : corm_result_track s1 res p with ⟨ok, res2, s2⟩
    simp only [ht] at h
    cases ok
    · simp only [Bool.false_eq_true, if_false, Prod.mk.injEq, true_and] at h
      obtain ⟨hres, hs⟩ := h
      subst hs
      obtain ⟨hres2, hlive2⟩ := track_false_inv s1 res p res2 s2 ht
      refine ⟨hres.symm.trans hres2, ?_⟩
      show (s2.heap.live.erase p) = s.heap.live
      rw [hlive2, hlive1, hp, Finset.erase_insert hnext]
    · simp at h

theorem find_set_list (t : String) (td td' : table_data_t) :
    ∀ (l : List (String × table_data_t)),
      (l.find? (fun e => e.1 = t)).map (·.2) = some td →
      ((l.map (fun e => if e.1 = t then (t, td') else e)).find?
        (fun e => e.1 = t)).map (·.2) = some td' := by
  intro l
  induction l with
  | nil => intro h; simp at h
  | cons e rest ih =>
    intro h
    by_cases he : e.1 = t
    · simp [List.find?_cons, he]
    · rw [List.map_cons, if_neg he]
      rw [List.find?_cons_of_neg _ (by simp [he])] at h
      rw [List.find?_cons_of_neg _ (by simp [he])]
      exact ih h

theorem db_get_set {db : db_state_t} {t : String} {td : table_data_t}
    (td' : table_data_t) (h : db_get_table db t = some td) :
    db_get_table (db_set_table db t td') t = some td' := by
  unfold db_get_table at h ⊢
  unfold db_set_table
  exact find_set_list t td td' db.tables h

theorem nodup_map_inj {α β : Type} (f : α → β) :
    ∀ (l : List α), (l.map f).Nodup → ∀ x ∈ l, ∀ y ∈ l, f x = f y → x = y := by
  intro l
  induction l with
  | nil => intro _ x hx; simp at hx
  | cons h t ih =>
    intro hnd x hx y hy hf
    simp only [List.map_cons, List.nodup_cons] at hnd
    rcases List.mem_cons.mp hx with hx1 | hx2 <;>
      rcases List.mem_cons.mp hy with hy1 | hy2
    · rw [hx1, hy1]
    · subst hx1
      exact absurd (hf ▸ List.mem_map_of_mem f hy2) hnd.1
    · subst hy1
      exact absurd (hf ▸ List.mem_map_of_mem f hx2) hnd.1
    · exact ih hnd.2 x hx2 y hy2 hf

theorem find_name_mapped (sv : field_info_t → SqlVal) (g : field_info_t) :
    ∀ (m : List field_info_t), g ∈ m → ((m.map (·.name)).Nodup) →
      (m.map (fun f => (f.name, sv f))).find? (fun pv => pv.1 = g.name) =
        some (g.name, sv g) := by
  intro m
  induction m with
  | nil => intro hg; simp at hg
  | cons h t ih =>
    intro hg hnd
    simp only [List.map_cons, List.nodup_cons] at hnd
    by_cases hn : h.name = g.name
    · have hge : g = h := by
        rcases List.mem_cons.mp hg with h1 | h2
        · exact h1
        · exact absurd (hn ▸ List.mem_map_of_mem (·.name) h2) hnd.1
      subst hge
      simp [List.find?_cons]
    · rw [List.map_cons, List.find?_cons_of_neg _ (by simp [hn])]
      have hgt : g ∈ t := by
        rcases List.mem_cons.mp hg with h1 | h2
        · exact absurd (h1 ▸ rfl) hn
        · exact h2
      exact ih hgt hnd.2

theorem find_name_absent (sv : field_info_t → SqlVal) (nm : String) :
    ∀ (m : List field_info_t), (∀ f ∈ m, f.name ≠ nm) →
      (m.map (fun f => (f.name, sv f))).find? (fun pv => pv.1 = nm) = none := by
  intro m
  induction m with
  | nil => intro _; simp
  | cons h t ih =>
    intro hno
    rw [List.map_cons, List.find?_cons_of_neg _ (by simp [hno h (by simp)])]
    exact ih (fun f hf => hno f (by simp [hf]))

theorem col_at_name (sv : field_info_t → SqlVal) (g : field_info_t) :
    ∀ (m : List field_info_t), g ∈ m → ((m.map (·.name)).Nodup) →
      ∃ j, find_column_index ⟨m.map (fun f => (f.name, sv f))⟩ g.name = some j ∧
        column_at ⟨m.map (fun f => (f.name, sv f))⟩ j = sv g := by
  intro m
  induction m with
  | nil => intro hg; simp at hg
  | cons h t ih =>
    intro hg hnd
    simp only [List.map_cons, List.nodup_cons] at hnd
    by_cases hn : h.name = g.name
    · have hge : g = h := by
        rcases List.mem_cons.mp hg with h1 | h2
        · exact h1
        · exact absurd (hn ▸ List.mem_map_of_mem (·.name) h2) hnd.1
      subst hge
      refine ⟨0, ?_, ?_⟩
      · unfold find_column_index
        simp [List.findIdx?_cons]
      · unfold column_at
        simp
    · have hgt : g ∈ t := by
        rcases List.mem_cons.mp hg with h1 | h2
        · exact absurd (h1 ▸ rfl) hn
        · exact h2
      obtain ⟨j, hfi, hca⟩ := ih hgt hnd.2
      refine ⟨j + 1, ?_, ?_⟩
      · unfold find_column_index at hfi ⊢
        simp only [List.map_cons, List.findIdx?_cons]
        rw [if_neg (by simpa using hn)]
        rw [List.findIdx?_succ, hfi]
        rfl
      · unfold column_at at hca ⊢
        simpa using hca

theorem foldl_update_not_mem (l : List field_info_t) (o : Nat)
    (h : ∀ g ∈ l, g.offset ≠ o) :
    ∀ m : Instance,
      (l.foldl (fun m g => Function.update m g.offset (zeroValue g.type)) m) o = m o := by
  induction l with
  | nil => intro m; rfl
  | cons f t ih =>
    intro m
    simp only [List.foldl_cons]
    rw [ih (fun g hg => h g (by simp [hg]))]
    exact Function.update_noteq (fun he => h f (by simp) he.symm) _ m

theorem foldl_update_mem (f : field_info_t) :
    ∀ (l : List field_info_t), f ∈ l → ((l.map (·.offset)).Nodup) →
      ∀ m : Instance,
        (l.foldl (fun m g => Function.update m g.offset (zeroValue g.type)) m) f.offset =
          zeroValue f.type := by
  intro l
  induction l with
  | nil => intro hf; simp at hf
  | cons h t ih =>
    intro hf hnd m
    simp only [List.map_cons, List.nodup_cons] at hnd
    rcases List.mem_cons.mp hf with h1 | h2
    · subst h1
      simp only [List.foldl_cons]
      rw [foldl_update_not_mem t f.offset
        (fun g hg he => hnd.1 (he ▸ List.mem_map_of_mem (·.offset) hg))]
      simp
    · simp only [List.foldl_cons]
      exact ih h2 hnd.2 _

theorem zeroInstance_offset (meta : model_meta_t) (f : field_info_t)
    (hf : f ∈ meta.fields) (hnd : (meta.fields.map (·.offset)).Nodup) :
    zeroInstance meta f.offset = zeroValue f.type :=
  foldl_update_mem f meta.fields hf hnd _

theorem save_bind_fields_false (meta : model_meta_t) :
    save_bind_fields meta false = insert_fields meta := by
  unfold save_bind_fields insert_fields
  congr 1
  funext f
  cases isRel f.type <;> cases hasFlag f.flags AUTO_INC <;> rfl

theorem alloc_fn_oracle {s : S} (hok : OracleTrue s) :
    ∃ p s', corm_alloc_fn s = (some p, s') ∧ OracleTrue s' := by
  unfold corm_alloc_fn
  rw [if_pos (hok s.heap.next)]
  exact ⟨s.heap.next, _, rfl, fun n => hok n⟩

theorem track_oracle {s : S} (res : corm_result_t) (p : Nat) (hok : OracleTrue s) :
    ∃ res' s', corm_result_track s res p = (true, res', s') ∧ OracleTrue s' := by
  unfold corm_result_track
  split_ifs with hcap
  · obtain ⟨q, s1, hq, hok1⟩ := alloc_fn_oracle hok
    rw [hq]
    exact ⟨_, _, rfl, fun n => hok1 n⟩
  · exact ⟨_, _, rfl, hok⟩

theorem result_alloc_oracle {s : S} (res : corm_result_t) (hok : OracleTrue s) :
    ∃ p res' s', corm_result_alloc s res = (some p, res', s') ∧ OracleTrue s' := by
  unfold corm_result_alloc
  obtain ⟨p, s1, hq, hok1⟩ := alloc_fn_oracle hok
  obtain ⟨res2, s2, ht, hok2⟩ := track_oracle res p hok1
  refine ⟨p, res2, s2, ?_, fun n => hok2 n⟩
  simp only [hq, ht]
  rw [if_pos trivial]

theorem result_create_oracle {s : S} (hok : OracleTrue s) :
    ∃ res s', corm_result_create s = (some res, s') ∧ res.data = none ∧
      res.allocations = [] ∧ OracleTrue s' := by
  unfold corm_result_create
  obtain ⟨c, s1, hc, hok1⟩ := alloc_fn_oracle hok
  obtain ⟨a, s2, ha, hok2⟩ := alloc_fn_oracle hok1
  refine ⟨{ data := none, instances := [], count := 0, allocations := [], allocation_capacity := 16, allocations_ptr := a, self_ptr := c }, s2, ?_, rfl, rfl, fun n => hok2 n⟩
  simp only [hc, ha]

theorem extract_roundtrip {s : S} (res : corm_result_t) {v : Value} {ty : field_type_e}
    {sv : SqlVal} (hsv : corm_to_sql v ty = some sv) (hok : OracleTrue s) :
    ∃ res' s', extract_field_from_column s res sv (zeroValue ty) ty =
      (true, v, res', s') ∧ OracleTrue s' := by
  cases ty <;> cases v
  all_goals try simp only [corm_to_sql, Option.some.injEq] at hsv
  all_goals try exact Option.noConfusion hsv
  case INT.vInt n =>
    subst hsv
    exact ⟨res, s, rfl, hok⟩
  case BOOL.vBool b =>
    subst hsv
    cases b
    · exact ⟨res, s, rfl, hok⟩
    · exact ⟨res, s, rfl, hok⟩
  case INT64.vInt64 n =>
    subst hsv
    exact ⟨res, s, rfl, hok⟩
  case FLOAT.vFloat x =>
    subst hsv
    exact ⟨res, s, rfl, hok⟩
  case DOUBLE.vDouble x =>
    subst hsv
    exact ⟨res, s, rfl, hok⟩
  case STRING.vString os =>
    cases os with
    | none =>
      simp only [corm_to_sql, Option.some.injEq] at hsv
      subst hsv
      exact ⟨res, s, rfl, hok⟩
    | some str =>
      simp only [corm_to_sql, Option.some.injEq] at hsv
      subst hsv
      obtain ⟨p, res2, s2, hra, hok2⟩ := result_alloc_oracle res hok
      refine ⟨res2, s2, ?_, hok2⟩
      unfold extract_field_from_column
      rw [if_neg (by simp [column_type_of])]
      simp only [column_text, hra]
  case BLOB.vBlob b =>
    by_cases hb : b.length > 0
    · rw [if_pos hb] at hsv
      subst hsv
      obtain ⟨p, res2, s2, hra, hok2⟩ := result_alloc_oracle res hok
      refine ⟨res2, s2, ?_, hok2⟩
      unfold extract_field_from_column
      rw [if_neg (by simp [column_type_of])]
      simp only [column_blob, hra, if_pos hb]
    · have hb0 : b = [] := List.eq_nil_of_length_eq_zero (Nat.eq_zero_of_not_pos hb)
      subst hb0
      rw [if_neg (by decide)] at hsv
      subst hsv
      exact ⟨res, s, rfl, hok⟩

theorem insert_sql_loop_db :
    ∀ (flds : List field_info_t) (s : S) (sql vals : String) (first : Bool) (idx : Nat),
      (save_insert_sql_loop s sql vals first idx flds).2.2.2.db = s.db ∧
      (save_insert_sql_loop s sql vals first idx flds).2.2.2.heap = s.heap := by
  intro flds
  induction flds with
  | nil => intro s sql vals first idx; exact ⟨rfl, rfl⟩
  | cons f rest ih =>
    intro s sql vals first idx
    unfold save_insert_sql_loop
    by_cases h1 : isRel f.type = true
    · rw [if_pos h1]
      exact ih s sql vals first idx
    · rw [if_neg h1]
      by_cases h2 : hasFlag f.flags AUTO_INC = true
      · rw [if_pos h2]
        exact ih s sql vals first idx
      · rw [if_neg h2]
        cases first
        · simp only [Bool.false_eq_true, if_false, corm_str_cat, corm_str_fmt]
          constructor
          · rw [(ih _ _ _ _ _).1]
            simp [arena_alloc_db]
          · rw [(ih _ _ _ _ _).2]
            simp [arena_alloc_heap]
        · simp only [if_true, corm_str_cat, corm_str_fmt]
          constructor
          · rw [(ih _ _ _ _ _).1]
            simp [arena_alloc_db]
          · rw [(ih _ _ _ _ _).2]
            simp [arena_alloc_heap]

theorem build_insert_sql_comp (s : S) (meta : model_meta_t) :
    (save_build_insert_sql s meta).2.db = s.db ∧
    (save_build_insert_sql s meta).2.heap = s.heap := by
  unfold save_build_insert_sql
  simp only [corm_str_fmt, corm_str_cat]
  rcases hl : save_insert_sql_loop (corm_arena_alloc s
      (("INSERT INTO " ++ meta.table_name ++ " (").length + 1))
      ("INSERT INTO " ++ meta.table_name ++ " (") "VALUES (" true 1 meta.fields
    with ⟨sql1, vals1, k, s1⟩
  have hc := insert_sql_loop_db meta.fields (corm_arena_alloc s
      (("INSERT INTO " ++ meta.table_name ++ " (").length + 1))
      ("INSERT INTO " ++ meta.table_name ++ " (") "VALUES (" true 1
  rw [hl] at hc
  obtain ⟨hcd, hch⟩ := hc
  simp only [arena_alloc_db] at hcd
  simp only [arena_alloc_heap] at hch
  simp only [hl]
  constructor
  · simp [arena_alloc_db, hcd]
  · simp [arena_alloc_heap, hch]

theorem db_backend_step_select (s : S) (st : StmtState)
    (hsel : st.cmd.isSelect = true) :
    (backend_step s st).2.2.2.db = s.db := by
  unfold backend_step
  rw [if_pos hsel]
  simp only [List.get?_eq_getElem?]
  rcases hg : (stmt_rows (s.emit Event.stepEv) st)[st.cursor]? with _ | row <;>
    simp [hg, S.emit]

theorem bind_preserves_cmd {st st' : StmtState} {i : Nat} {v : Value}
    {ty : field_type_e} (h : bind_param_by_type st i v ty = some st') :
    st'.cmd = st.cmd := by
  unfold bind_param_by_type at h
  rcases hv : corm_to_sql v ty with _ | sv
  · rw [hv] at h
    simp at h
  · rw [hv] at h
    simp only [Option.map_some', Option.some.injEq] at h
    rw [← h]

theorem record_exists_comp (s : S) (meta : model_meta_t) (pkf : field_info_t)
    (pkv : Value) :
    (corm_record_exists s meta pkf pkv).2.db = s.db ∧
    (corm_record_exists s meta pkf pkv).2.heap = s.heap := by
  unfold corm_record_exists
  simp only [corm_str_fmt, backend_prepare_eq, stmt_kind.table]
  rcases hdb : db_get_table (corm_arena_alloc s (("SELECT COUNT(*) FROM " ++
      meta.table_name ++ " WHERE " ++ pkf.name ++ " = " ++
      s.backend.get_placeholder 1 ++ ";").length + 1)).db meta.table_name with _ | td
  · simp [hdb, corm_arena_end_temp, S.emit, arena_alloc_db, arena_alloc_heap]
  · simp only [hdb, Option.map_some']
    rcases hb : bind_param_by_type
        ({ cmd := stmt_kind.selectCount meta.table_name pkf.name }) 1 pkv pkf.type
      with _ | st
    · simp [hb, corm_arena_end_temp, backend_finalize, S.emit, arena_alloc_db,
        arena_alloc_heap]
    · simp only [hb]
      rcases hs : backend_step ((corm_arena_alloc s (("SELECT COUNT(*) FROM " ++
          meta.table_name ++ " WHERE " ++ pkf.name ++ " = " ++
          s.backend.get_placeholder 1 ++ ";").length + 1)).emit
          (.prepare ("SELECT COUNT(*) FROM " ++ meta.table_name ++ " WHERE " ++
          pkf.name ++ " = " ++ s.backend.get_placeholder 1 ++ ";"))) st
        with ⟨r, rowOpt, st2, s2⟩
      have hdbS : s2.db = s.db ∧ s2.heap = s.heap := by
        have h1 := heap_backend_step ((corm_arena_alloc s (("SELECT COUNT(*) FROM " ++
          meta.table_name ++ " WHERE " ++ pkf.name ++ " = " ++
          s.backend.get_placeholder 1 ++ ";").length + 1)).emit
          (.prepare ("SELECT COUNT(*) FROM " ++ meta.table_name ++ " WHERE " ++
          pkf.name ++ " = " ++ s.backend.get_placeholder 1 ++ ";"))) st
        have h2 := db_backend_step_select ((corm_arena_alloc s (("SELECT COUNT(*) FROM " ++
          meta.table_name ++ " WHERE " ++ pkf.name ++ " = " ++
          s.backend.get_placeholder 1 ++ ";").length + 1)).emit
          (.prepare ("SELECT COUNT(*) FROM " ++ meta.table_name ++ " WHERE " ++
          pkf.name ++ " = " ++ s.backend.get_placeholder 1 ++ ";"))) st
          (by rw [bind_preserves_cmd hb]; rfl)
        rw [hs] at h1 h2
        constructor
        · rw [h2]
          simp [S.emit, arena_alloc_db]
        · rw [h1]
          simp [S.emit, arena_alloc_heap]
      simp [hs, corm_arena_end_temp, backend_finalize, S.emit, hdbS.1, hdbS.2]

theorem record_exists_false (s : S) (meta : model_meta_t) (pkf : field_info_t)
    (pkv : Value) {td : table_data_t} {pv : SqlVal}
    (hdb : db_get_table s.db meta.table_name = some td)
    (hpv : corm_to_sql pkv pkf.type = some pv)
    (hfilter : td.rows.filter (fun r => lookupCol r pkf.name = some pv) = []) :
    (corm_record_exists s meta pkf pkv).1 = false := by
  unfold corm_record_exists
  simp only [corm_str_fmt, backend_prepare_eq, stmt_kind.table]
  have hdbA : db_get_table (corm_arena_alloc s (("SELECT COUNT(*) FROM " ++
      meta.table_name ++ " WHERE " ++ pkf.name ++ " = " ++
      s.backend.get_placeholder 1 ++ ";").length + 1)).db meta.table_name = some td := by
    rw [arena_alloc_db]
    exact hdb
  simp only [hdbA, Option.map_some']
  simp only [bind_param_by_type, hpv, Option.map_some']
  simp [backend_step, stmt_kind.isSelect, stmt_rows, S.emit, arena_alloc_db, hdb,
    bound_param, hfilter, column_at, column_int, corm_arena_end_temp,
    backend_finalize]

theorem bindsOf_map_snd (inst : Instance) :
    ∀ (flds : List field_info_t) (i : Nat),
      (bindsOf inst i flds).map (·.2) =
        flds.map (fun f => (corm_to_sql (inst f.offset) f.type).getD .null) := by
  intro flds
  induction flds with
  | nil => intro i; rfl
  | cons f rest ih =>
    intro i
    simp only [bindsOf, List.map_cons, ih]

theorem bind_fields_ok (inst : Instance) :
    ∀ (flds : List field_info_t),
      (∀ f ∈ flds, (corm_to_sql (inst f.offset) f.type).isSome) →
      ∀ (st : StmtState) (i : Nat),
        bind_fields st inst i flds =
          .ok ({ st with binds := st.binds ++ bindsOf inst i flds }, i + flds.length) := by
  intro flds
  induction flds with
  | nil =>
    intro _ st i
    simp [bind_fields, bindsOf]
  | cons f rest ih =>
    intro hall st i
    have hf := hall f (by simp)
    rcases hv : corm_to_sql (inst f.offset) f.type with _ | sv
    · rw [hv] at hf
      simp at hf
    · unfold bind_fields
      simp only [bind_param_by_type, hv, Option.map_some']
      rw [ih (fun g hg => hall g (by simp [hg])) _ (i + 1)]
      simp only [bindsOf, hv, Option.getD_some, List.length_cons]
      rw [List.append_assoc]
      simp only [List.singleton_append]
      have harith : i + 1 + rest.length = i + (rest.length + 1) := by omega
      rw [harith]

theorem exec_dml_insert (s : S) (t : String) (cols : List String)
    (B : List (Nat × SqlVal)) (cur : Nat) {td : table_data_t}
    (hdb : db_get_table s.db t = some td) :
    exec_dml s { cmd := .insertCmd t cols, binds := B, cursor := cur } =
      (0, { s with db := { tables := (db_set_table s.db t { td with rows := td.rows ++ [insertedRow td cols (B.map (·.2))], next_id := td.next_id + 1 }).tables, last_id := td.next_id } }) := by
  unfold exec_dml
  simp only [hdb]
  rfl

theorem filter_and_eq (p q : field_info_t → Bool) :
    ∀ l : List field_info_t, l.filter (fun f => p f && q f) = (l.filter p).filter q := by
  intro l
  induction l with
  | nil => rfl
  | cons f rest ih =>
    rcases hp : p f <;> rcases hq : q f <;>
      simp [List.filter_cons, hp, hq, ih]

theorem insert_fields_eq (meta : model_meta_t) :
    insert_fields meta = (nonRelFields meta).filter
      (fun f => !hasFlag f.flags AUTO_INC) := by
  unfold insert_fields nonRelFields
  exact filter_and_eq _ _ meta.fields

theorem insert_fields_names_nodup (meta : model_meta_t)
    (h : ((nonRelFields meta).map (·.name)).Nodup) :
    ((insert_fields meta).map (·.name)).Nodup := by
  rw [insert_fields_eq]
  exact h.sublist (List.Sublist.map _ (List.filter_sublist _))

theorem insertedRow_eq (td : table_data_t) (meta : model_meta_t)
    (pkf : field_info_t) (sv : field_info_t → SqlVal)
    (hschema : td.schema = schemaOf meta)
    (hnames : ((nonRelFields meta).map (·.name)).Nodup)
    (hpkmem : pkf ∈ nonRelFields meta)
    (hAI : hasFlag pkf.flags AUTO_INC = true)
    (hPK : hasFlag pkf.flags PRIMARY_KEY = true)
    (honlyAI : ∀ f ∈ nonRelFields meta, hasFlag f.flags AUTO_INC = true →
      f.name = pkf.name) :
    insertedRow td ((insert_fields meta).map (·.name)) ((insert_fields meta).map sv) =
      ⟨(nonRelFields meta).map (fun g =>
        (g.name, if hasFlag g.flags AUTO_INC then SqlVal.int td.next_id else sv g))⟩ := by
  unfold insertedRow
  rw [hschema]
  have hzip : ((insert_fields meta).map (·.name)).zip ((insert_fields meta).map sv) =
      (insert_fields meta).map (fun f => (f.name, sv f)) := by
    rw [List.zip_map']
  rw [hzip]
  have hsch : schemaOf meta = (nonRelFields meta).map
      (fun f => (f.name, hasFlag f.flags PRIMARY_KEY && hasFlag f.flags AUTO_INC)) := rfl
  rw [hsch, List.map_map]
  congr 1
  apply List.map_congr_left
  intro g hg
  simp only [Function.comp_apply]
  by_cases hAIg : hasFlag g.flags AUTO_INC = true
  · have hname : g.name = pkf.name := honlyAI g hg hAIg
    have hge : g = pkf := nodup_map_inj (·.name) (nonRelFields meta) hnames g hg pkf hpkmem hname
    subst hge
    have hnone : ((insert_fields meta).map (fun f => (f.name, sv f))).find?
        (fun pv => pv.1 = g.name) = none := by
      apply find_name_absent
      intro f hf hfn
      rw [insert_fields_eq] at hf
      have hfnr := List.mem_of_mem_filter hf
      have hfAI := List.of_mem_filter hf
      have hfe : f = g := nodup_map_inj (·.name) (nonRelFields meta) hnames f hfnr g hg hfn
      rw [hfe] at hfAI
      rw [hAIg] at hfAI
      simp at hfAI
    rw [hnone]
    simp [hPK, hAIg]
  · have hgin : g ∈ insert_fields meta := by
      rw [insert_fields_eq]
      exact List.mem_filter.mpr ⟨hg, by simp [hAIg]⟩
    have hfind := find_name_mapped sv g (insert_fields meta) hgin
      (insert_fields_names_nodup meta hnames)
    rw [hfind]
    simp [hAIg]

theorem materialize_values (row : Row) (colv : field_info_t → SqlVal)
    (tgt : field_info_t → Value) :
    ∀ (flds : List field_info_t) (s : S) (res : corm_result_t) (cur : Instance),
      OracleTrue s →
      ((flds.map (·.offset)).Nodup) →
      (∀ f ∈ flds, isRel f.type = false →
        ∃ j, find_column_index row f.name = some j ∧ column_at row j = colv f) →
      (∀ f ∈ flds, isRel f.type = false → corm_to_sql (tgt f) f.type = some (colv f)) →
      (∀ f ∈ flds, isRel f.type = false → cur f.offset = zeroValue f.type) →
      ∀ inst' res' s', materialize_fields s res row cur false flds = (inst', res', s') →
        (∀ f ∈ flds, isRel f.type = false → inst' f.offset = tgt f) ∧
        (∀ o, (∀ f ∈ flds, isRel f.type = false → f.offset ≠ o) → inst' o = cur o) ∧
        OracleTrue s' := by
  intro flds
  induction flds with
  | nil =>
    intro s res cur hok _ _ _ _ inst' res' s' h
    simp only [materialize_fields, Prod.mk.injEq] at h
    obtain ⟨hinst, -, hs⟩ := h
    subst hinst
    subst hs
    exact ⟨fun f hf => absurd hf (by simp), fun o _ => rfl, hok⟩
  | cons f rest ih =>
    intro s res cur hok hnd hcols hsql hcur inst' res' s' h
    simp only [List.map_cons, List.nodup_cons] at hnd
    unfold materialize_fields at h
    by_cases hrel : isRel f.type = true
    · rw [if_pos hrel] at h
      obtain ⟨c1, c2, c3⟩ := ih s res cur hok hnd.2
        (fun g hg hr => hcols g (by simp [hg]) hr)
        (fun g hg hr => hsql g (by simp [hg]) hr)
        (fun g hg hr => hcur g (by simp [hg]) hr) inst' res' s' h
      refine ⟨?_, ?_, c3⟩
      · intro g hg hr
        rcases List.mem_cons.mp hg with h1 | h2
        · subst h1
          rw [hrel] at hr
          simp at hr
        · exact c1 g h2 hr
      · intro o ho
        exact c2 o (fun g hg hr => ho g (by simp [hg]) hr)
    · rw [if_neg hrel] at h
      have hrelF : isRel f.type = false := by simpa using hrel
      obtain ⟨j, hj, hcv⟩ := hcols f (by simp) hrelF
      simp only [hj] at h
      rw [hcv, hcur f (by simp) hrelF] at h
      obtain ⟨res2, s2, hex, hok2⟩ := extract_roundtrip res (hsql f (by simp) hrelF) hok
      simp only [hex] at h
      have hcur2 : ∀ g ∈ rest, isRel g.type = false →
          Function.update cur f.offset (tgt f) g.offset = zeroValue g.type := by
        intro g hg hr
        have hne : g.offset ≠ f.offset := by
          intro he
          exact hnd.1 (he ▸ List.mem_map_of_mem (·.offset) hg)
        rw [Function.update_noteq hne]
        exact hcur g (by simp [hg]) hr
      obtain ⟨c1, c2, c3⟩ := ih s2 res2 (Function.update cur f.offset (tgt f)) hok2
        hnd.2 (fun g hg hr => hcols g (by simp [hg]) hr)
        (fun g hg hr => hsql g (by simp [hg]) hr) hcur2 inst' res' s' h
      refine ⟨?_, ?_, c3⟩
      · intro g hg hr
        rcases List.mem_cons.mp hg with h1 | h2
        · subst h1
          have hrest : ∀ g2 ∈ rest, isRel g2.type = false → g2.offset ≠ g.offset := by
            intro g2 hg2 hr2 he
            exact hnd.1 (he ▸ List.mem_map_of_mem (·.offset) hg2)
          rw [c2 g.offset hrest]
          simp
        · exact c1 g h2 hr
      · intro o ho
        rw [c2 o (fun g hg hr => ho g (by simp [hg]) hr)]
        exact Function.update_noteq (Ne.symm (ho f (by simp) hrelF)) _ cur

theorem exec_dml_insert2 (s : S) {st : StmtState} {t : String} {cols : List String}
    {td : table_data_t} (hcmd : st.cmd = .insertCmd t cols)
    (hdb : db_get_table s.db t = some td) :
    exec_dml s st =
      (0, { s with db := { tables := (db_set_table s.db t { td with rows := td.rows ++ [insertedRow td cols (bound_params st)], next_id := td.next_id + 1 }).tables, last_id := td.next_id } }) := by
  rcases st with ⟨cmd, B, cur⟩
  simp only [] at hcmd
  subst hcmd
  exact exec_dml_insert s t cols B cur hdb

theorem save_finish_insert (s : S) (st : StmtState) (cp : Nat) (pkf : field_info_t)
    (inst : Instance) {t : String} {cols : List String} {td : table_data_t}
    (hcmd : st.cmd = .insertCmd t cols)
    (hdb : db_get_table s.db t = some td)
    (hAI : hasFlag pkf.flags AUTO_INC = true)
    (hty : pkf.type = field_type_e.INT ∨ pkf.type = field_type_e.INT64) :
    ∃ s1, corm_save_finish s st cp false pkf inst =
      (true, Function.update inst pkf.offset
        (if pkf.type = field_type_e.INT then Value.vInt td.next_id
          else Value.vInt64 td.next_id), s1) ∧
      s1.db = { tables := (db_set_table s.db t { td with rows := td.rows ++ [insertedRow td cols (bound_params st)], next_id := td.next_id + 1 }).tables, last_id := td.next_id } ∧
      s1.heap = s.heap := by
  unfold corm_save_finish
  unfold backend_step
  rw [if_neg (by simp [hcmd, stmt_kind.isSelect])]
  have hdb2 : db_get_table (s.emit .stepEv).db t = some td := hdb
  have hdml := exec_dml_insert2 (s.emit .stepEv) hcmd hdb2
  simp only [hdml, hAI]
  rcases hty with h | h
  · simp only [h]
    exact ⟨_, rfl, rfl, rfl⟩
  · simp only [h]
    exact ⟨_, rfl, rfl, rfl⟩

theorem save_insert_pipeline (s : S) (meta : model_meta_t) (inst : Instance)
    (pkf : field_info_t) {td : table_data_t} {pv0 : SqlVal}
    (hpk : meta.primary_key_field = some pkf)
    (hval : run_validators inst meta.fields = none)
    (hdb : db_get_table s.db meta.table_name = some td)
    (hwt : ∀ f ∈ insert_fields meta, (corm_to_sql (inst f.offset) f.type).isSome)
    (hpv0 : corm_to_sql (inst pkf.offset) pkf.type = some pv0)
    (hfresh0 : td.rows.filter (fun r => lookupCol r pkf.name = some pv0) = [])
    (hAI : hasFlag pkf.flags AUTO_INC = true)
    (hty : pkf.type = field_type_e.INT ∨ pkf.type = field_type_e.INT64) :
    ∃ s1, corm_save s meta inst =
      (true, Function.update inst pkf.offset
        (if pkf.type = field_type_e.INT then Value.vInt td.next_id
          else Value.vInt64 td.next_id), s1) ∧
      s1.db = { tables := (db_set_table s.db meta.table_name { td with rows := td.rows ++ [insertedRow td ((insert_fields meta).map (·.name)) ((insert_fields meta).map (fun f => (corm_to_sql (inst f.offset) f.type).getD .null))], next_id := td.next_id + 1 }).tables, last_id := td.next_id } ∧
      s1.heap = s.heap := by
  unfold corm_save
  simp only [hpk, hval]
  rcases hre : corm_record_exists s meta pkf (inst pkf.offset) with ⟨isu, sre⟩
  have hisu : isu = false := by
    have h := record_exists_false s meta pkf (inst pkf.offset) hdb hpv0 hfresh0
    rw [hre] at h
    exact h
  subst hisu
  have hcomp := record_exists_comp s meta pkf (inst pkf.offset)
  rw [hre] at hcomp
  have hsred : sre.db = s.db := hcomp.1
  have hsreh : sre.heap = s.heap := hcomp.2
  simp only [hre, Bool.false_eq_true, if_false]
  rcases hbs : save_build_insert_sql sre meta with ⟨sqlI, s2⟩
  have hcomp2 := build_insert_sql_comp sre meta
  rw [hbs] at hcomp2
  have hs2d : s2.db = sre.db := hcomp2.1
  have hs2h : s2.heap = sre.heap := hcomp2.2
  simp only [hbs]
  have hdb2 : db_get_table s2.db meta.table_name = some td := by
    rw [hs2d, hsred]
    exact hdb
  unfold corm_save_exec
  simp only [backend_prepare_eq, stmt_kind.table, hdb2, Option.map_some']
  rw [save_bind_fields_false]
  rw [bind_fields_ok inst (insert_fields meta) hwt _ 1]
  simp only [Bool.false_eq_true, if_false, List.nil_append]
  have hdbP : db_get_table (s2.emit (.prepare sqlI)).db meta.table_name = some td := hdb2
  obtain ⟨s1, hfin, hdb1, hheap1⟩ := save_finish_insert (s2.emit (.prepare sqlI))
    ({ cmd := .insertCmd meta.table_name ((insert_fields meta).map (·.name)), binds := bindsOf inst 1 (insert_fields meta), cursor := 0 }) (corm_arena_start_temp s) pkf inst rfl hdbP hAI hty
  have hbp : bound_params ({ cmd := stmt_kind.insertCmd meta.table_name ((insert_fields meta).map (·.name)), binds := bindsOf inst 1 (insert_fields meta), cursor := 0 } : StmtState) = (insert_fields meta).map (fun f => (corm_to_sql (inst f.offset) f.type).getD .null) := by
    simp [bound_params, bindsOf_map_snd]
  rw [hbp] at hdb1
  refine ⟨s1, ?_, ?_, ?_⟩
  · exact hfin
  · rw [hdb1]
    rw [show (s2.emit (.prepare sqlI)).db = s.db from hs2d.trans hsred]
  · rw [hheap1]
    show (s2.emit (.prepare sqlI)).heap = s.heap
    exact hs2h.trans hsreh

theorem backend_step_select_single (s : S) (st : StmtState) {t c : String}
    {td : table_data_t} {v : SqlVal} {row : Row}
    (hcmd : st.cmd = .selectWhereEq t c)
    (hcur : st.cursor = 0)
    (hbp : bound_param st 1 = some v)
    (hdb : db_get_table s.db t = some td)
    (hfilter : td.rows.filter (fun r => lookupCol r c = some v) = [row]) :
    backend_step s st = (1, some row, { st with cursor := st.cursor + 1 },
      s.emit .stepEv) := by
  unfold backend_step
  rw [if_pos (by simp [hcmd, stmt_kind.isSelect])]
  have hrows : stmt_rows (s.emit .stepEv) st = [row] := by
    unfold stmt_rows
    have hdbe : db_get_table (s.emit Event.stepEv).db t = some td := hdb
    simp only [hcmd, hdbe, hbp, hfilter]
  rw [hrows, hcur]
  rfl

theorem find_exec_single (s : S) (meta : model_meta_t) (st : StmtState) (cp : Nat)
    (pkf : field_info_t) (rid : Int) {td : table_data_t} (row : Row)
    (colv : field_info_t → SqlVal) (tgt : field_info_t → Value)
    (hcmd : st.cmd = .selectWhereEq meta.table_name pkf.name)
    (hcur : st.cursor = 0)
    (hbp : bound_param st 1 = some (.int rid))
    (hdb : db_get_table s.db meta.table_name = some td)
    (hfilter : td.rows.filter (fun r => lookupCol r pkf.name = some (.int rid)) = [row])
    (hok : OracleTrue s)
    (hoffs : (meta.fields.map (·.offset)).Nodup)
    (hcols : ∀ f ∈ meta.fields, isRel f.type = false →
      ∃ j, find_column_index row f.name = some j ∧ column_at row j = colv f)
    (hsqlv : ∀ f ∈ meta.fields, isRel f.type = false →
      corm_to_sql (tgt f) f.type = some (colv f)) :
    ∃ res s2 minst, corm_find_exec s meta st cp = (some res, s2) ∧
      res.instances = [minst] ∧
      ∀ f ∈ meta.fields, isRel f.type = false → minst f.offset = tgt f := by
  have hstep := backend_step_select_single s st hcmd hcur hbp hdb hfilter
  unfold corm_find_exec
  simp only [hstep]
  rw [if_pos trivial]
  have hokS : OracleTrue (s.emit .stepEv) := fun n => hok n
  unfold corm_find_fill
  obtain ⟨res0, s3, hrc, hd0, ha0, hok3⟩ := result_create_oracle hokS
  simp only [hrc]
  obtain ⟨d, s4, hal, hok4⟩ := alloc_fn_oracle hok3
  simp only [hal]
  rcases hm : materialize_fields s4 { res0 with data := some d, count := 1 } row
    (zeroInstance meta) false meta.fields with ⟨minst, res2, s5⟩
  obtain ⟨c1, c2, c3⟩ := materialize_values row colv tgt meta.fields s4
    ({ res0 with data := some d, count := 1 }) (zeroInstance meta) hok4 hoffs hcols
    hsqlv (fun f hf _ => zeroInstance_offset meta f hf hoffs) minst res2 s5 hm
  simp only [hm]
  exact ⟨{ res2 with instances := [minst] }, _, minst, rfl, rfl,
    fun f hf hr => c1 f hf hr⟩

theorem find_single_pipeline (s : S) (meta : model_meta_t) (pkf : field_info_t)
    (pkVal : Value) (rid : Int) {td : table_data_t} (row : Row)
    (colv : field_info_t → SqlVal) (tgt : field_info_t → Value)
    (hpk : meta.primary_key_field = some pkf)
    (hdb : db_get_table s.db meta.table_name = some td)
    (hbind : corm_to_sql pkVal pkf.type = some (.int rid))
    (hfilter : td.rows.filter (fun r => lookupCol r pkf.name = some (.int rid)) = [row])
    (hok : OracleTrue s)
    (hoffs : (meta.fields.map (·.offset)).Nodup)
    (hcols : ∀ f ∈ meta.fields, isRel f.type = false →
      ∃ j, find_column_index row f.name = some j ∧ column_at row j = colv f)
    (hsqlv : ∀ f ∈ meta.fields, isRel f.type = false →
      corm_to_sql (tgt f) f.type = some (colv f)) :
    ∃ res s2 minst, corm_find s meta pkVal = (some res, s2) ∧
      res.instances = [minst] ∧
      ∀ f ∈ meta.fields, isRel f.type = false → minst f.offset = tgt f := by
  unfold corm_find
  simp only [hpk, corm_str_fmt]
  have hdbA : db_get_table (corm_arena_alloc s (("SELECT * FROM " ++
      meta.table_name ++ " WHERE " ++ pkf.name ++ " = " ++
      s.backend.get_placeholder 1 ++ ";").length + 1)).db meta.table_name
      = some td := by
    rw [arena_alloc_db]
    exact hdb
  simp only [backend_prepare_eq, stmt_kind.table, hdbA, Option.map_some']
  simp only [bind_param_by_type, hbind, Option.map_some']
  exact find_exec_single _ meta _ _ pkf rid row colv tgt rfl rfl
    (by simp [bound_param]) hdbA hfilter
    (by intro n; simp only [S.emit, arena_alloc_heap]; exact hok n) hoffs hcols hsqlv

theorem opt_eq_some_getD {o : Option SqlVal} (h : o.isSome = true) :
    o = some (o.getD .null) := by
  cases o
  · simp at h
  · rfl

theorem filter_nil_of_none {α : Type} (p : α → Bool) :
    ∀ l : List α, (∀ a ∈ l, p a = false) → l.filter p = [] := by
  intro l
  induction l with
  | nil => intro _; rfl
  | cons a rest ih =>
    intro h
    rw [List.filter_cons, if_neg (by simp [h a (by simp)])]
    exact ih (fun b hb => h b (by simp [hb]))

/-- C2: for a registered entity whose single auto-increment int primary
key is fresh, whose table is synced with distinct column names and field
offsets, whose instance passes its validators and has well-typed field
values, and whose heap allocations succeed, corm_save performs an INSERT
returning true with the fresh id written back into the primary-key field,
that id is nonzero and equals the connection's last-insert-id, and a
subsequent corm_find on that primary key returns a single instance whose
every non-relationship field equals the saved instance. -/
theorem C2_save_insert_find_roundtrip (s : S) (meta : model_meta_t)
    (inst : Instance) (pkf : field_info_t) (td : table_data_t) (pv0 : SqlVal)
    (hpk : meta.primary_key_field = some pkf)
    (hpkmem : pkf ∈ meta.fields)
    (hty : pkf.type = field_type_e.INT ∨ pkf.type = field_type_e.INT64)
    (hAI : hasFlag pkf.flags AUTO_INC = true)
    (hPK : hasFlag pkf.flags PRIMARY_KEY = true)
    (honlyAI : ∀ f ∈ nonRelFields meta, hasFlag f.flags AUTO_INC = true →
      f.name = pkf.name)
    (hnames : ((nonRelFields meta).map (·.name)).Nodup)
    (hoffs : (meta.fields.map (·.offset)).Nodup)
    (hval : run_validators inst meta.fields = none)
    (hwt : ∀ f ∈ meta.fields, isRel f.type = false →
      (corm_to_sql (inst f.offset) f.type).isSome = true)
    (hdb : db_get_table s.db meta.table_name = some td)
    (hschema : td.schema = schemaOf meta)
    (hok : OracleTrue s)
    (hpv0 : corm_to_sql (inst pkf.offset) pkf.type = some pv0)
    (hfresh0 : td.rows.filter (fun r => lookupCol r pkf.name = some pv0) = [])
    (hnotaken : ∀ r ∈ td.rows,
      ¬(lookupCol r pkf.name = some (SqlVal.int td.next_id)))
    (hid0 : td.next_id ≠ 0) :
    ∃ s1 res s2 minst,
      corm_save s meta inst = (true, Function.update inst pkf.offset
        (if pkf.type = field_type_e.INT then Value.vInt td.next_id
          else Value.vInt64 td.next_id), s1) ∧
      s1.db.last_id = td.next_id ∧ td.next_id ≠ 0 ∧
      corm_find s1 meta (Function.update inst pkf.offset
        (if pkf.type = field_type_e.INT then Value.vInt td.next_id
          else Value.vInt64 td.next_id) pkf.offset) = (some res, s2) ∧
      res.instances = [minst] ∧
      ∀ f ∈ meta.fields, isRel f.type = false →
        minst f.offset = Function.update inst pkf.offset
          (if pkf.type = field_type_e.INT then Value.vInt td.next_id
            else Value.vInt64 td.next_id) f.offset := by
  have hpkrel : isRel pkf.type = false := by
    rcases hty with h | h <;> simp [isRel, h]
  have hpkNR : pkf ∈ nonRelFields meta :=
    List.mem_filter.mpr ⟨hpkmem, by simp [hpkrel]⟩
  have hwtI : ∀ f ∈ insert_fields meta, (corm_to_sql (inst f.offset) f.type).isSome := by
    intro f hf
    have hmem := List.mem_of_mem_filter hf
    have hcond := List.of_mem_filter hf
    simp only [Bool.and_eq_true, Bool.not_eq_true'] at hcond
    exact hwt f hmem hcond.1
  obtain ⟨s1, hsave, hdb1, hheap1⟩ :=
    save_insert_pipeline s meta inst pkf hpk hval hdb hwtI hpv0 hfresh0 hAI hty
  have hbind2 : corm_to_sql (if pkf.type = field_type_e.INT then Value.vInt td.next_id
      else Value.vInt64 td.next_id) pkf.type = some (SqlVal.int td.next_id) := by
    rcases hty with h | h <;> simp [corm_to_sql, h]
  have hrow := insertedRow_eq td meta pkf
    (fun f => (corm_to_sql (inst f.offset) f.type).getD .null)
    hschema hnames hpkNR hAI hPK honlyAI
  have hlook : lookupCol (insertedRow td ((insert_fields meta).map (·.name))
      ((insert_fields meta).map (fun f => (corm_to_sql (inst f.offset) f.type).getD .null)))
      pkf.name = some (SqlVal.int td.next_id) := by
    rw [hrow]
    unfold lookupCol
    rw [find_name_mapped _ pkf (nonRelFields meta) hpkNR hnames]
    simp [hAI]
  have hok1 : OracleTrue s1 := by
    intro n
    rw [hheap1]
    exact hok n
  have hdbtd : db_get_table s1.db meta.table_name = some { td with rows := td.rows ++ [insertedRow td ((insert_fields meta).map (·.name)) ((insert_fields meta).map (fun f => (corm_to_sql (inst f.offset) f.type).getD .null))], next_id := td.next_id + 1 } := by
    rw [hdb1]
    exact db_get_set _ hdb
  have hfilter2 : ({ td with rows := td.rows ++ [insertedRow td ((insert_fields meta).map (·.name)) ((insert_fields meta).map (fun f => (corm_to_sql (inst f.offset) f.type).getD .null))], next_id := td.next_id + 1 } : table_data_t).rows.filter (fun r => lookupCol r pkf.name = some (SqlVal.int td.next_id)) = [insertedRow td ((insert_fields meta).map (·.name)) ((insert_fields meta).map (fun f => (corm_to_sql (inst f.offset) f.type).getD .null))] := by
    show (td.rows ++ [_]).filter _ = _
    rw [List.filter_append]
    rw [filter_nil_of_none _ td.rows (fun r hr => by simp [hnotaken r hr])]
    rw [List.filter_cons]
    rw [if_pos (by simp [hlook])]
    rfl
  have hcols2 : ∀ f ∈ meta.fields, isRel f.type = false →
      ∃ j, find_column_index (insertedRow td ((insert_fields meta).map (·.name))
        ((insert_fields meta).map (fun f => (corm_to_sql (inst f.offset) f.type).getD .null)))
        f.name = some j ∧
        column_at (insertedRow td ((insert_fields meta).map (·.name))
        ((insert_fields meta).map (fun f => (corm_to_sql (inst f.offset) f.type).getD .null))) j =
        (if hasFlag f.flags AUTO_INC then SqlVal.int td.next_id
          else (corm_to_sql (inst f.offset) f.type).getD .null) := by
    intro f hf hr
    rw [hrow]
    exact col_at_name _ f (nonRelFields meta)
      (List.mem_filter.mpr ⟨hf, by simp [hr]⟩) hnames
  have hsqlv2 : ∀ f ∈ meta.fields, isRel f.type = false →
      corm_to_sql (Function.update inst pkf.offset
        (if pkf.type = field_type_e.INT then Value.vInt td.next_id
          else Value.vInt64 td.next_id) f.offset) f.type =
      some (if hasFlag f.flags AUTO_INC then SqlVal.int td.next_id
        else (corm_to_sql (inst f.offset) f.type).getD .null) := by
    intro f hf hr
    by_cases hfAI : hasFlag f.flags AUTO_INC = true
    · have hfNR : f ∈ nonRelFields meta := List.mem_filter.mpr ⟨hf, by simp [hr]⟩
      have hfe : f = pkf := nodup_map_inj (·.name) (nonRelFields meta) hnames
        f hfNR pkf hpkNR (honlyAI f hfNR hfAI)
      rw [hfe, Function.update_same]
      simp only [hfe ▸ hfAI, if_true]
      exact hbind2
    · have hne : f ≠ pkf := fun he => hfAI (he ▸ hAI)
      have hoffne : f.offset ≠ pkf.offset := fun he =>
        hne (nodup_map_inj (·.offset) meta.fields hoffs f hf pkf hpkmem he)
      rw [Function.update_noteq hoffne]
      simp only [hfAI, if_false]
      exact opt_eq_some_getD (hwt f hf hr)
  obtain ⟨res, s2, minst, hfind, hinsts, hvals⟩ :=
    find_single_pipeline s1 meta pkf (Function.update inst pkf.offset
      (if pkf.type = field_type_e.INT then Value.vInt td.next_id
        else Value.vInt64 td.next_id) pkf.offset) td.next_id
      (insertedRow td ((insert_fields meta).map (·.name))
        ((insert_fields meta).map (fun f => (corm_to_sql (inst f.offset) f.type).getD .null)))
      (fun f => if hasFlag f.flags AUTO_INC then SqlVal.int td.next_id
        else (corm_to_sql (inst f.offset) f.type).getD .null)
      (fun f => Function.update inst pkf.offset
        (if pkf.type = field_type_e.INT then Value.vInt td.next_id
          else Value.vInt64 td.next_id) f.offset)
      hpk hdbtd (by rw [Function.update_same]; exact hbind2) hfilter2 hok1 hoffs
      hcols2 hsqlv2
  exact ⟨s1, res, s2, minst, hsave, by rw [hdb1], hid0, hfind, hinsts, hvals⟩

/-- C2 witness: the round trip at the concrete fixture: saving the fresh
alice instance into the empty synced users table under the sqlite backend
inserts id 1, writes it back, and find(1) rematerializes every
non-relationship field. -/
theorem C2_roundtrip_witness :
    ∃ s1 res s2 minst,
      corm_save (S0 (sqlite_backend rawNone)) user_meta user_inst =
        (true, Function.update user_inst user_id_field.offset
          (if user_id_field.type = field_type_e.INT
            then Value.vInt users_table.next_id
            else Value.vInt64 users_table.next_id), s1) ∧
      s1.db.last_id = users_table.next_id ∧ users_table.next_id ≠ 0 ∧
      corm_find s1 user_meta (Function.update user_inst user_id_field.offset
        (if user_id_field.type = field_type_e.INT
          then Value.vInt users_table.next_id
          else Value.vInt64 users_table.next_id) user_id_field.offset) =
        (some res, s2) ∧
      res.instances = [minst] ∧
      ∀ f ∈ user_meta.fields, isRel f.type = false →
        minst f.offset = Function.update user_inst user_id_field.offset
          (if user_id_field.type = field_type_e.INT
            then Value.vInt users_table.next_id
            else Value.vInt64 users_table.next_id) f.offset :=
  C2_save_insert_find_roundtrip (S0 (sqlite_backend rawNone)) user_meta user_inst
    user_id_field users_table (SqlVal.int 0)
    rfl
    (by simp [user_meta])
    (Or.inl rfl)
    (by decide)
    (by decide)
    (by decide)
    (by decide)
    (by decide)
    rfl
    (by decide)
    rfl
    rfl
    (fun _ => rfl)
    rfl
    rfl
    (by simp [users_table])
    (by decide)

theorem hinv_rebase {h0 : Heap} {s : S} {F G : Finset Nat}
    (h : HInv h0 s (F ∪ G)) (hFG : Disjoint F G) :
    HInv { next := h0.next, live := h0.live ∪ G, ok := h0.ok } s F := by
  obtain ⟨h1, h2, h3, h4⟩ := h
  refine ⟨?_, ?_, h3, h4⟩
  · rw [h1]
    ext a
    simp only [Finset.mem_union]
    tauto
  · simp only [Finset.disjoint_union_right]
    exact ⟨Finset.disjoint_of_subset_left Finset.subset_union_left h2, hFG⟩

theorem hinv_unbase {h0 : Heap} {s : S} {F G : Finset Nat}
    (h : HInv { next := h0.next, live := h0.live ∪ G, ok := h0.ok } s F)
    (hG : Disjoint G h0.live) :
    HInv h0 s (F ∪ G) := by
  obtain ⟨h1, h2, h3, h4⟩ := h
  simp only [Finset.disjoint_union_right] at h2
  refine ⟨?_, ?_, h3, h4⟩
  · rw [h1]
    ext a
    simp only [Finset.mem_union]
    tauto
  · simp only [Finset.disjoint_union_left]
    exact ⟨h2.1, hG.symm.symm⟩

theorem hinv_track_gen {h0 : Heap} {s : S} {res : corm_result_t} {p : Nat}
    {G : Finset Nat}
    (hI : HInv h0 s ((resFootprint res ∪ G) ∪ {p})) (hsep : ResSep res)
    (hp : p ∉ resFootprint res ∪ G) (hFG : Disjoint (resFootprint res) G)
    (hGb : Disjoint G h0.live) :
    (∀ res' s', corm_result_track s res p = (true, res', s') →
      HInv h0 s' (resFootprint res' ∪ G) ∧ ResSep res' ∧ res'.data = res.data ∧
      res'.self_ptr = res.self_ptr ∧ res'.allocations = res.allocations ++ [p] ∧
      ∀ a ∈ resFootprint res', a ∈ resFootprint res ∪ {p} ∨ a ∉ s.heap.live) ∧
    (∀ res' s', corm_result_track s res p = (false, res', s') →
      res' = res ∧ HInv h0 s' ((resFootprint res ∪ G) ∪ {p})) := by
  simp only [Finset.mem_union, not_or] at hp
  have hset1 : (resFootprint res ∪ G) ∪ {p} = (resFootprint res ∪ {p}) ∪ G := by
    ext a
    simp only [Finset.mem_union]
    tauto
  have hI' := hinv_rebase (hset1 ▸ hI) (by
    simp only [Finset.disjoint_union_left]
    exact ⟨hFG, by simp [Finset.disjoint_left, hp.2]⟩)
  have htrack := hinv_result_track hI' hsep (by simp [hp.1])
  constructor
  · intro res' s' h
    obtain ⟨hI2, hsep2, hd2, hs2, ha2, he2⟩ := htrack.1 res' s' h
    refine ⟨hinv_unbase hI2 hGb, hsep2, hd2, hs2, ha2, he2⟩
  · intro res' s' h
    obtain ⟨hres, hI2⟩ := htrack.2 res' s' h
    refine ⟨hres, ?_⟩
    rw [hset1]
    exact hinv_unbase hI2 hGb

theorem hinv_track_all {h0 : Heap} :
    ∀ (ps : List Nat) (s : S) (parent : corm_result_t) (G : Finset Nat),
      HInv h0 s ((resFootprint parent ∪ G) ∪ ps.toFinset) → ResSep parent →
      ps.Nodup → (∀ p ∈ ps, p ∉ resFootprint parent ∪ G) →
      Disjoint (resFootprint parent) G → Disjoint G h0.live →
      ∀ ok parent' s', track_all s parent ps = (ok, parent', s') → ok = true →
        HInv h0 s' (resFootprint parent' ∪ G) ∧ ResSep parent' ∧
        parent'.data = parent.data ∧ parent'.self_ptr = parent.self_ptr ∧
        ∀ a ∈ resFootprint parent',
          a ∈ resFootprint parent ∪ ps.toFinset ∨ a ∉ s.heap.live := by
  intro ps
  induction ps with
  | nil =>
    intro s parent G hI hsep _ _ _ _ ok parent' s' h hok
    simp only [track_all, Prod.mk.injEq] at h
    obtain ⟨-, hres, hs⟩ := h
    subst hres
    subst hs
    refine ⟨?_, hsep, rfl, rfl, fun a ha => Or.inl (by simp [ha])⟩
    have hset : (resFootprint parent ∪ G) ∪ ([] : List Nat).toFinset =
        resFootprint parent ∪ G := by simp
    rwa [hset] at hI
  | cons p rest ih =>
    intro s parent G hI hsep hnd hps hFG hGb ok parent' s' h hok
    simp only [List.nodup_cons] at hnd
    have hlive := hinv_subset_live hI
    have hset1 : (resFootprint parent ∪ G) ∪ (p :: rest).toFinset =
        (resFootprint parent ∪ (G ∪ rest.toFinset)) ∪ {p} := by
      ext a
      simp only [Finset.mem_union, List.toFinset_cons, Finset.mem_insert,
        Finset.mem_singleton, List.mem_toFinset]
      tauto
    have hrest_h0 : Disjoint (rest.toFinset : Finset Nat) h0.live := by
      have h2 := hI.2.1
      refine Finset.disjoint_left.mpr ?_
      intro a ha
      exact Finset.disjoint_left.mp h2 (by simp [ha])
    have htg := hinv_track_gen (hset1 ▸ hI) hsep
      (by
        simp only [Finset.mem_union, not_or, List.mem_toFinset]
        have := hps p (by simp)
        simp only [Finset.mem_union, not_or] at this
        exact ⟨this.1, this.2, hnd.1⟩)
      (by
        simp only [Finset.disjoint_union_right]
        refine ⟨hFG, Finset.disjoint_right.mpr ?_⟩
        intro a ha
        have := hps a (by simp [List.mem_toFinset.mp ha])
        simp only [Finset.mem_union, not_or] at this
        exact fun hm => this.1 hm)
      (by
        simp only [Finset.disjoint_union_left]
        exact ⟨hGb, hrest_h0⟩)
    unfold track_all at h
    rcases ht : corm_result_track s parent p with ⟨okt, parent2, s2⟩
    simp only [ht] at h
    rcases okt with _ | _
    · simp only [Bool.false_eq_true, if_false, Prod.mk.injEq] at h
      rw [← h.1] at hok
      simp at hok
    · simp only [if_true] at h
      obtain ⟨hI2, hsep2, hd2, hs2, ha2, he2⟩ := htg.1 parent2 s2 ht
      have hmem_s : ∀ a ∈ (resFootprint parent ∪ G) ∪ (p :: rest).toFinset,
          a ∈ s.heap.live := fun a ha => hlive ha
      have hnotin2 : ∀ q ∈ rest, q ∉ resFootprint parent2 ∪ G := by
        intro q hq
        simp only [Finset.mem_union, not_or]
        have hqs : q ∈ s.heap.live := hmem_s q (by simp [hq])
        have hqps := hps q (by simp [hq])
        simp only [Finset.mem_union, not_or] at hqps
        constructor
        · intro hqm
          rcases he2 q hqm with hq2 | hq2
          · simp only [Finset.mem_union, Finset.mem_singleton] at hq2
            rcases hq2 with hq2 | hq2
            · exact hqps.1 hq2
            · exact hnd.1 (hq2 ▸ hq)
          · exact hq2 hqs
        · exact hqps.2
      have hFG2 : Disjoint (resFootprint parent2) G := by
        refine Finset.disjoint_left.mpr ?_
        intro a ha hG
        have has : a ∈ s.heap.live := hmem_s a (by simp [hG])
        rcases he2 a ha with h2 | h2
        · simp only [Finset.mem_union, Finset.mem_singleton] at h2
          rcases h2 with h2 | h2
          · exact Finset.disjoint_left.mp hFG h2 hG
          · subst h2
            have := hps a (by simp)
            simp only [Finset.mem_union, not_or] at this
            exact this.2 hG
        · exact h2 has
      have hIset : HInv h0 s2 ((resFootprint parent2 ∪ G) ∪ rest.toFinset) := by
        have hset2 : resFootprint parent2 ∪ (G ∪ rest.toFinset) =
            (resFootprint parent2 ∪ G) ∪ rest.toFinset := by
          ext a
          simp only [Finset.mem_union]
          tauto
        rwa [hset2] at hI2
      obtain ⟨hI3, hsep3, hd3, hs3, he3⟩ := ih s2 parent2 G hIset hsep2 hnd.2
        hnotin2 hFG2 hGb ok parent' s' h hok
      refine ⟨hI3, hsep3, hd3.trans hd2, hs3.trans hs2, ?_⟩
      intro a ha
      rcases he3 a ha with h3 | h3
      · simp only [Finset.mem_union, List.mem_toFinset] at h3
        rcases h3 with h3 | h3
        · rcases he2 a h3 with h2 | h2
          · simp only [Finset.mem_union, Finset.mem_singleton] at h2
            rcases h2 with h2 | h2
            · exact Or.inl (by simp [h2])
            · exact Or.inl (by simp [h2])
          · exact Or.inr h2
        · exact Or.inl (by simp [h3])
      · by_cases hsl : a ∈ s.heap.live
        · have hIa : HInv h0 s ((resFootprint parent ∪ (G ∪ rest.toFinset)) ∪ {p}) :=
            hset1 ▸ hI
          have ha_in : a ∈ h0.live ∪ ((resFootprint parent ∪ (G ∪ rest.toFinset)) ∪ {p}) :=
            hIa.1 ▸ hsl
          have ha_out : a ∉ h0.live ∪ (resFootprint parent2 ∪ (G ∪ rest.toFinset)) :=
            hI2.1 ▸ h3
          simp only [Finset.mem_union, Finset.mem_singleton, not_or] at ha_in ha_out
          rcases ha_in with hin | ⟨hin | hin | hin⟩ | hin
          · exact absurd hin ha_out.1
          · exact Or.inl (by simp [hin])
          · exact absurd hin ha_out.2.2.1
          · exact absurd hin ha_out.2.2.2
          · exact Or.inl (by simp [hin])
        · exact Or.inr hsl

theorem hinv_materialize_rows {h0 : Heap} (meta : model_meta_t) (warn : Bool) :
    ∀ (rows : List Row) (s : S) (res : corm_result_t),
      HInv h0 s (resFootprint res) → ResSep res →
      ∀ insts res' s', materialize_rows s res meta warn rows = (insts, res', s') →
        HInv h0 s' (resFootprint res') ∧ ResSep res' ∧ res'.data = res.data ∧
        res'.self_ptr = res.self_ptr := by
  intro rows
  induction rows with
  | nil =>
    intro s res hI hsep insts res' s' h
    simp only [materialize_rows, Prod.mk.injEq] at h
    obtain ⟨-, hres, hs⟩ := h
    subst hres
    subst hs
    exact ⟨hI, hsep, rfl, rfl⟩
  | cons row rest ih =>
    intro s res hI hsep insts res' s' h
    unfold materialize_rows at h
    rcases hm : materialize_fields (s.emit .stepEv) res row (zeroInstance meta)
      warn meta.fields with ⟨inst1, res1, s1⟩
    simp only [hm] at h
    obtain ⟨hI1, hsep1, hd1, hs1⟩ := hinv_materialize_fields row warn meta.fields
      (s.emit .stepEv) res (zeroInstance meta) (hinv_heap_congr rfl hI) hsep
      inst1 res1 s1 hm
    rcases hr : materialize_rows s1 res1 meta warn rest with ⟨insts2, res2, s2⟩
    simp only [hr] at h
    obtain ⟨hI2, hsep2, hd2, hs2⟩ := ih s1 res1 hI1 hsep1 insts2 res2 s2 hr
    simp only [Prod.mk.injEq] at h
    obtain ⟨-, hres, hs⟩ := h
    subst hres
    subst hs
    exact ⟨hI2, hsep2, hd2.trans hd1, hs2.trans hs1⟩

theorem hinv_find_all_fill {h0 : Heap} {s : S} (meta : model_meta_t)
    (res : corm_result_t) (d : Nat) (record_count : Int) (cp : Nat)
    (hI : HInv h0 s (insert d (resFootprint res))) (hsep : ResSep res)
    (hd0 : res.data = none) (ha0 : res.allocations = [])
    (hdn : d ∉ resFootprint res) :
    (∀ s', corm_find_all_fill s meta res d record_count cp = (none, s') →
      s'.heap.live = h0.live) ∧
    (∀ res' s', corm_find_all_fill s meta res d record_count cp = (some res', s') →
      HInv h0 s' (resFootprint res') ∧ ResSep res') := by
  have hd1 : d ∉ res.allocations := fun hm => hdn (by simp [resFootprint, hm])
  have hd2 : d ≠ res.allocations_ptr := fun he => hdn (by simp [resFootprint, he])
  have hd3 : d ≠ res.self_ptr := fun he => hdn (by simp [resFootprint, he])
  have hfp1 : resFootprint { res with data := some d, count := record_count } =
      insert d (resFootprint res) := by
    ext x
    simp [resFootprint, hd0, ha0]
    tauto
  have hsep1 : ResSep { res with data := some d, count := record_count } := by
    refine ⟨hsep.1, hsep.2.1, hsep.2.2.1, ?_, hsep.2.2.2.2⟩
    intro e he
    simp only [Option.some.injEq] at he
    subst he
    exact ⟨hd1, hd2, hd3⟩
  rcases hdb : db_get_table (corm_arena_alloc s
      (("SELECT * FROM " ++ meta.table_name ++ ";").length + 1)).db
      meta.table_name with _ | td
  · constructor
    · intro s' h
      unfold corm_find_all_fill at h
      simp only [corm_str_fmt, backend_prepare_eq, stmt_kind.table, hdb,
        Option.map_none'] at h
      simp only [Prod.mk.injEq] at h
      obtain ⟨-, hs⟩ := h
      subst hs
      have hIP : HInv h0 (((corm_arena_alloc s (("SELECT * FROM " ++
          meta.table_name ++ ";").length + 1)).emit
          (.prepare ("SELECT * FROM " ++ meta.table_name ++ ";"))).emit
          (.logError "Failed to prepare find_all query"))
          (insert d (resFootprint res)) :=
        hinv_heap_congr (by simp [S.emit, arena_alloc_heap]) hI
      have h3 := hinv_free hIP (by simp : d ∈ insert d (resFootprint res))
      rw [Finset.erase_insert hdn] at h3
      have h4 := hinv_free h3 (by simp [resFootprint] :
        res.allocations_ptr ∈ resFootprint res)
      have h5 := hinv_free h4 (Finset.mem_erase.mpr
        ⟨(hsep.2.1).symm, by simp [resFootprint]⟩)
      have hE : ((resFootprint res).erase res.allocations_ptr).erase res.self_ptr
          = ∅ := by
        ext x
        by_cases h1x : x = res.allocations_ptr <;>
          by_cases h2x : x = res.self_ptr <;>
          simp [resFootprint, hd0, ha0, h1x, h2x]
      rw [hE] at h5
      simpa [corm_arena_end_temp] using h5.1
    · intro res' s' h
      unfold corm_find_all_fill at h
      simp only [corm_str_fmt, backend_prepare_eq, stmt_kind.table, hdb,
        Option.map_none'] at h
      simp at h
  · have hI1 : HInv h0 ((corm_arena_alloc s (("SELECT * FROM " ++
        meta.table_name ++ ";").length + 1)).emit
        (.prepare ("SELECT * FROM " ++ meta.table_name ++ ";")))
        (resFootprint { res with data := some d, count := record_count }) := by
      rw [hfp1]
      exact hinv_heap_congr (by simp [S.emit, arena_alloc_heap]) hI
    rcases hm : materialize_rows ((corm_arena_alloc s (("SELECT * FROM " ++
        meta.table_name ++ ";").length + 1)).emit
        (.prepare ("SELECT * FROM " ++ meta.table_name ++ ";")))
        ({ res with data := some d, count := record_count }) meta true
        ((stmt_rows ((corm_arena_alloc s (("SELECT * FROM " ++
        meta.table_name ++ ";").length + 1)).emit
        (.prepare ("SELECT * FROM " ++ meta.table_name ++ ";")))
        { cmd := stmt_kind.selectAll meta.table_name }).take record_count.toNat)
      with ⟨insts, res2, s2⟩
    obtain ⟨hI2, hsep2, -, -⟩ := hinv_materialize_rows meta true _ _ _ hI1 hsep1
      insts res2 s2 hm
    constructor
    · intro s' h
      unfold corm_find_all_fill at h
      simp only [corm_str_fmt, backend_prepare_eq, stmt_kind.table, hdb,
        Option.map_some', hm] at h
      simp at h
    · intro res' s' h
      unfold corm_find_all_fill at h
      simp only [corm_str_fmt, backend_prepare_eq, stmt_kind.table, hdb,
        Option.map_some', hm] at h
      simp only [Prod.mk.injEq, Option.some.injEq] at h
      obtain ⟨hres, hs⟩ := h
      subst hs
      rw [← hres]
      exact ⟨hinv_heap_congr rfl hI2, hsep2⟩

theorem hinv_find_all_alloc {h0 : Heap} {s : S} (meta : model_meta_t)
    (record_count : Int) (cp : Nat) (hI : HInv h0 s ∅) :
    (∀ s', corm_find_all_alloc s meta record_count cp = (none, s') →
      s'.heap.live = h0.live) ∧
    (∀ res s', corm_find_all_alloc s meta record_count cp = (some res, s') →
      HInv h0 s' (resFootprint res) ∧ ResSep res) := by
  have hrc := hinv_result_create hI
  rcases hq : corm_result_create s with ⟨resOpt, s1⟩
  rcases resOpt with _ | res0
  · have h1 := hrc.1 s1 hq
    constructor
    · intro s' h
      unfold corm_find_all_alloc at h
      simp only [hq] at h
      simp only [Prod.mk.injEq] at h
      obtain ⟨-, hs⟩ := h
      subst hs
      simpa [corm_arena_end_temp] using h1.1
    · intro res s' h
      unfold corm_find_all_alloc at h
      simp only [hq] at h
      simp at h
  · obtain ⟨hI1, hsep0, hd0, ha0⟩ := hrc.2 res0 s1 hq
    rcases ha : corm_alloc_fn s1 with ⟨dOpt, s2⟩
    rcases dOpt with _ | d
    · have h2 := hinv_alloc_none hI1 ha
      constructor
      · intro s' h
        unfold corm_find_all_alloc at h
        simp only [hq, ha] at h
        simp only [Prod.mk.injEq] at h
        obtain ⟨-, hs⟩ := h
        subst hs
        have h3 := hinv_free h2 (by simp [resFootprint] :
          res0.allocations_ptr ∈ resFootprint res0)
        have h4 := hinv_free h3 (Finset.mem_erase.mpr
          ⟨(hsep0.2.1).symm, by simp [resFootprint]⟩)
        have hE : ((resFootprint res0).erase res0.allocations_ptr).erase
            res0.self_ptr = ∅ := by
          ext x
          by_cases h1x : x = res0.allocations_ptr <;>
            by_cases h2x : x = res0.self_ptr <;>
            simp [resFootprint, hd0, ha0, h1x, h2x]
        rw [hE] at h4
        simpa [corm_arena_end_temp, S.emit] using h4.1
      · intro res s' h
        unfold corm_find_all_alloc at h
        simp only [hq, ha] at h
        simp at h
    · have h2 := hinv_alloc_some hI1 ha
      have hfill := hinv_find_all_fill meta res0 d record_count cp h2.1 hsep0
        hd0 ha0 h2.2.2.1
      constructor
      · intro s' h
        unfold corm_find_all_alloc at h
        simp only [hq, ha] at h
        exact hfill.1 s' h
      · intro res s' h
        unfold corm_find_all_alloc at h
        simp only [hq, ha] at h
        exact hfill.2 res s' h

theorem hinv_find_all_exec {h0 : Heap} {s : S} (meta : model_meta_t)
    (cst : StmtState) (cp : Nat) (hI : HInv h0 s ∅) :
    (∀ s', corm_find_all_exec s meta cst cp = (none, s') →
      s'.heap.live = h0.live) ∧
    (∀ res s', corm_find_all_exec s meta cst cp = (some res, s') →
      HInv h0 s' (resFootprint res) ∧ ResSep res) := by
  rcases hb : backend_step s cst with ⟨r, rowOpt, cst2, s1⟩
  have hheap : s1.heap = s.heap := by
    have hx := heap_backend_step s cst
    rw [hb] at hx
    exact hx
  have hI1 : HInv h0 (backend_finalize s1) ∅ :=
    hinv_heap_congr (by simp [backend_finalize, S.emit, hheap]) hI
  constructor
  · intro s' h
    unfold corm_find_all_exec at h
    simp only [hb] at h
    split_ifs at h
    all_goals
      first
        | exact (hinv_find_all_alloc meta _ cp hI1).1 s' h
        | (simp only [Prod.mk.injEq] at h
           obtain ⟨-, hs⟩ := h
           subst hs
           simpa [corm_arena_end_temp] using hI1.1)
  · intro res s' h
    unfold corm_find_all_exec at h
    simp only [hb] at h
    split_ifs at h
    all_goals
      first
        | exact (hinv_find_all_alloc meta _ cp hI1).2 res s' h
        | simp at h

theorem hinv_find_all (s : S) (meta : model_meta_t) (hfresh : HeapFresh s.heap) :
    (∀ s', corm_find_all s meta = (none, s') → s'.heap.live = s.heap.live) ∧
    (∀ res s', corm_find_all s meta = (some res, s') →
      HInv s.heap s' (resFootprint res) ∧ ResSep res) := by
  have hI0 : HInv s.heap s ∅ := hinv_init s hfresh
  unfold corm_find_all
  simp only [corm_str_fmt, corm_arena_start_temp, backend_prepare_eq,
    stmt_kind.table]
  rcases hdb : db_get_table (corm_arena_alloc s (("SELECT COUNT(*) FROM " ++
      meta.table_name ++ ";").length + 1)).db meta.table_name with _ | td
  · simp only [hdb, Option.map_none']
    constructor
    · intro s' h
      simp only [Prod.mk.injEq] at h
      obtain ⟨-, hs⟩ := h
      subst hs
      simp [corm_arena_end_temp, S.emit, arena_alloc_heap]
    · intro res s' h
      simp at h
  · simp only [hdb, Option.map_some']
    have hIP : HInv s.heap ((corm_arena_alloc s (("SELECT COUNT(*) FROM " ++
        meta.table_name ++ ";").length + 1)).emit
        (.prepare ("SELECT COUNT(*) FROM " ++ meta.table_name ++ ";"))) ∅ :=
      hinv_heap_congr (by simp [S.emit, arena_alloc_heap]) hI0
    have hexec := hinv_find_all_exec meta
      ({ cmd := stmt_kind.selectCountAll meta.table_name }) s.arena_used hIP
    exact ⟨fun s' h => hexec.1 s' h, fun res s' h => hexec.2 res s' h⟩

theorem hinv_where_raw_fill {h0 : Heap} {s : S} (meta : model_meta_t)
    (st : StmtState) (cp : Nat) (result_count : Nat) (hI : HInv h0 s ∅) :
    (∀ s', corm_where_raw_fill s meta st cp result_count = (none, s') →
      s'.heap.live = h0.live) ∧
    (∀ res s', corm_where_raw_fill s meta st cp result_count = (some res, s') →
      HInv h0 s' (resFootprint res) ∧ ResSep res) := by
  have hI0 : HInv h0 (s.emit .resetEv) ∅ := hinv_heap_congr rfl hI
  have hrc := hinv_result_create hI0
  rcases hq : corm_result_create (s.emit .resetEv) with ⟨resOpt, s1⟩
  rcases resOpt with _ | res0
  · have h1 := hrc.1 s1 hq
    constructor
    · intro s' h
      unfold corm_where_raw_fill at h
      simp only [backend_reset, hq] at h
      simp only [Prod.mk.injEq] at h
      obtain ⟨-, hs⟩ := h
      subst hs
      simpa [corm_arena_end_temp, backend_finalize, S.emit] using h1.1
    · intro res s' h
      unfold corm_where_raw_fill at h
      simp only [backend_reset, hq] at h
      simp at h
  · obtain ⟨hI1, hsep0, hd0, ha0⟩ := hrc.2 res0 s1 hq
    rcases ha : corm_alloc_fn s1 with ⟨dOpt, s2⟩
    rcases dOpt with _ | d
    · have h2 := hinv_alloc_none hI1 ha
      constructor
      · intro s' h
        unfold corm_where_raw_fill at h
        simp only [backend_reset, hq, ha] at h
        simp only [Prod.mk.injEq] at h
        obtain ⟨-, hs⟩ := h
        subst hs
        have h2e : HInv h0 (s2.emit (.logError "Failed to allocate instances array"))
            (resFootprint res0) := hinv_heap_congr rfl h2
        have h3 := hinv_free h2e (by simp [resFootprint] :
          res0.allocations_ptr ∈ resFootprint res0)
        have h4 := hinv_free h3 (Finset.mem_erase.mpr
          ⟨(hsep0.2.1).symm, by simp [resFootprint]⟩)
        have hE : ((resFootprint res0).erase res0.allocations_ptr).erase
            res0.self_ptr = ∅ := by
          ext x
          by_cases h1x : x = res0.allocations_ptr <;>
            by_cases h2x : x = res0.self_ptr <;>
            simp [resFootprint, hd0, ha0, h1x, h2x]
        rw [hE] at h4
        simpa [corm_arena_end_temp, backend_finalize, S.emit] using h4.1
      · intro res s' h
        unfold corm_where_raw_fill at h
        simp only [backend_reset, hq, ha] at h
        simp at h
    · have h2 := hinv_alloc_some hI1 ha
      have hdn : d ∉ resFootprint res0 := h2.2.2.1
      have hd1 : d ∉ res0.allocations := fun hm => hdn (by simp [resFootprint, hm])
      have hd2 : d ≠ res0.allocations_ptr := fun he => hdn (by simp [resFootprint, he])
      have hd3 : d ≠ res0.self_ptr := fun he => hdn (by simp [resFootprint, he])
      have hfp1 : resFootprint
          { res0 with data := some d, count := (result_count : Int) } =
          insert d (resFootprint res0) := by
        ext x
        simp [resFootprint, hd0, ha0]
        tauto
      have hsep1 : ResSep
          { res0 with data := some d, count := (result_count : Int) } := by
        refine ⟨hsep0.1, hsep0.2.1, hsep0.2.2.1, ?_, hsep0.2.2.2.2⟩
        intro e he
        simp only [Option.some.injEq] at he
        subst he
        exact ⟨hd1, hd2, hd3⟩
      have hI2 : HInv h0 s2 (resFootprint
          { res0 with data := some d, count := (result_count : Int) }) := by
        rw [hfp1]
        exact h2.1
      rcases hm : materialize_rows s2
          ({ res0 with data := some d, count := (result_count : Int) }) meta true
          ((stmt_rows s2 { st with cursor := 0 }).take result_count)
        with ⟨insts, res2, s3⟩
      obtain ⟨hI3, hsep3, -, -⟩ := hinv_materialize_rows meta true _ _ _ hI2 hsep1
        insts res2 s3 hm
      constructor
      · intro s' h
        unfold corm_where_raw_fill at h
        simp only [backend_reset, hq, ha, hm] at h
        simp at h
      · intro res s' h
        unfold corm_where_raw_fill at h
        simp only [backend_reset, hq, ha, hm] at h
        simp only [Prod.mk.injEq, Option.some.injEq] at h
        obtain ⟨hres, hs⟩ := h
        subst hs
        rw [← hres]
        exact ⟨hinv_heap_congr rfl hI3, hsep3⟩

theorem hinv_where_raw_exec {h0 : Heap} {s : S} (meta : model_meta_t)
    (st : StmtState) (cp : Nat) (params : List (Value × field_type_e))
    (hI : HInv h0 s ∅) :
    (∀ s', corm_where_raw_exec s meta st cp params = (none, s') →
      s'.heap.live = h0.live) ∧
    (∀ res s', corm_where_raw_exec s meta st cp params = (some res, s') →
      HInv h0 s' (resFootprint res) ∧ ResSep res) := by
  rcases hb : bind_raw_params st 0 params with i | st2
  · constructor
    · intro s' h
      unfold corm_where_raw_exec at h
      simp only [hb] at h
      simp only [Prod.mk.injEq] at h
      obtain ⟨-, hs⟩ := h
      subst hs
      simpa [corm_arena_end_temp, backend_finalize, S.emit] using hI.1
    · intro res s' h
      unfold corm_where_raw_exec at h
      simp only [hb] at h
      simp at h
  · rcases hsa : step_all s st2 with ⟨result_count, st3, s1⟩
    have hheap : s1.heap = s.heap := by
      simp only [step_all, Prod.mk.injEq] at hsa
      rw [← hsa.2.2]
    have hI1 : HInv h0 s1 ∅ := hinv_heap_congr hheap hI
    constructor
    · intro s' h
      unfold corm_where_raw_exec at h
      simp only [hb, hsa] at h
      split_ifs at h
      all_goals
        first
          | exact (hinv_where_raw_fill meta st3 cp result_count hI1).1 s' h
          | (simp only [Prod.mk.injEq] at h
             obtain ⟨-, hs⟩ := h
             subst hs
             simpa [corm_arena_end_temp, backend_finalize, S.emit] using hI1.1)
    · intro res s' h
      unfold corm_where_raw_exec at h
      simp only [hb, hsa] at h
      split_ifs at h
      all_goals
        first
          | exact (hinv_where_raw_fill meta st3 cp result_count hI1).2 res s' h
          | simp at h

theorem hinv_where_raw (s : S) (meta : model_meta_t) (wc : String)
    (params : List (Value × field_type_e)) (hfresh : HeapFresh s.heap) :
    (∀ s', corm_where_raw s meta wc params = (none, s') →
      s'.heap.live = s.heap.live) ∧
    (∀ res s', corm_where_raw s meta wc params = (some res, s') →
      HInv s.heap s' (resFootprint res) ∧ ResSep res) := by
  have hI0 : HInv s.heap s ∅ := hinv_init s hfresh
  unfold corm_where_raw
  simp only [corm_str_fmt, corm_arena_start_temp, backend_prepare_eq,
    stmt_kind.table]
  rcases hdb : db_get_table (corm_arena_alloc s (("SELECT * FROM " ++
      meta.table_name ++ " WHERE " ++ wc ++ ";").length + 1)).db
      meta.table_name with _ | td
  · simp only [hdb, Option.map_none']
    constructor
    · intro s' h
      simp only [Prod.mk.injEq] at h
      obtain ⟨-, hs⟩ := h
      subst hs
      simp [corm_arena_end_temp, S.emit, arena_alloc_heap]
    · intro res s' h
      simp at h
  · simp only [hdb, Option.map_some']
    have hIP : HInv s.heap ((corm_arena_alloc s (("SELECT * FROM " ++
        meta.table_name ++ " WHERE " ++ wc ++ ";").length + 1)).emit
        (.prepare ("SELECT * FROM " ++ meta.table_name ++ " WHERE " ++ wc ++
        ";"))) ∅ :=
      hinv_heap_congr (by simp [S.emit, arena_alloc_heap]) hI0
    have hexec := hinv_where_raw_exec meta
      ({ cmd := stmt_kind.selectWhereRaw meta.table_name wc }) s.arena_used
      params hIP
    exact ⟨fun s' h => hexec.1 s' h, fun res s' h => hexec.2 res s' h⟩

theorem hinv_comp {h0 : Heap} {s t : S} {F G : Finset Nat}
    (h1 : HInv h0 s F) (h2 : HInv s.heap t G) : HInv h0 t (F ∪ G) := by
  obtain ⟨h1a, h1b, h1c, h1d⟩ := h1
  obtain ⟨h2a, h2b, h2c, h2d⟩ := h2
  refine ⟨?_, ?_, h2c, le_trans h1d h2d⟩
  · rw [h2a, h1a, Finset.union_assoc]
  · simp only [Finset.disjoint_union_left]
    refine ⟨h1b, ?_⟩
    have hsub : h0.live ⊆ s.heap.live := by
      rw [h1a]
      exact Finset.subset_union_left
    exact Finset.disjoint_of_subset_right hsub h2b

theorem hinv_load_belongs_to {h0 : Heap} {s : S} (parent : corm_result_t)
    (inst : Instance) (meta : model_meta_t) (field : field_info_t)
    (hI : HInv h0 s (resFootprint parent)) (hsep : ResSep parent) :
    ∀ ok parent' inst' s',
      corm_load_belongs_to s parent inst meta field = (ok, parent', inst', s') →
      ok = true → HInv h0 s' (resFootprint parent') ∧ ResSep parent' := by
  intro ok parent' inst' s' h hok
  subst hok
  unfold corm_load_belongs_to at h
  rcases hff : meta.fields.find? (fun f => f.name = field.fk_column_name)
    with _ | fk_field
  · simp only [hff] at h
    simp at h
  · simp only [hff] at h
    rcases hrm : field.related_model.bind (fun i => s.models.get? i)
      with _ | related_meta
    · simp only [hrm] at h
      simp at h
    · simp only [hrm] at h
      by_cases hnull : fk_is_null (inst fk_field.offset) fk_field.type = true
      · rw [if_pos hnull] at h
        simp only [Prod.mk.injEq] at h
        obtain ⟨-, hp2, -, hs2⟩ := h
        subst hs2
        rw [← hp2]
        exact ⟨hI, hsep⟩
      · rw [if_neg hnull] at h
        rcases hfq : corm_find s related_meta (inst fk_field.offset)
          with ⟨relOpt, s1⟩
        rcases relOpt with _ | rel
        · simp only [hfq] at h
          simp at h
        · obtain ⟨hrelI, hrelsep⟩ :=
            (hinv_find s related_meta (inst fk_field.offset) hI.2.2.1).2 rel s1 hfq
          have hrel_nl : Disjoint (resFootprint rel) s.heap.live := hrelI.2.1
          have hpar_live : resFootprint parent ⊆ s.heap.live := hinv_subset_live hI
          have h0_live : h0.live ⊆ s.heap.live := by
            rw [hI.1]
            exact Finset.subset_union_left
          have hrel_live1 : resFootprint rel ⊆ s1.heap.live :=
            hinv_subset_live hrelI
          have hcomb : HInv h0 s1 (resFootprint parent ∪ resFootprint rel) :=
            hinv_comp hI hrelI
          rcases hd : rel.data with _ | dptr
          · simp only [hfq, hd] at h
            simp at h
          · have hda := hrelsep.2.2.2.1 dptr hd
            have hdfp : dptr ∈ resFootprint rel := by
              simp [resFootprint, hd]
            have hdnl : dptr ∉ s.heap.live := Finset.disjoint_left.mp hrel_nl hdfp
            have hsplit : resFootprint parent ∪ resFootprint rel =
                (resFootprint parent ∪ (resFootprint rel).erase dptr) ∪ {dptr} := by
              ext a
              by_cases hda2 : a = dptr
              · subst hda2
                simp [hdfp]
              · simp [Finset.mem_erase, hda2]
            have h1' : HInv h0 s1
                ((resFootprint parent ∪ (resFootprint rel).erase dptr) ∪ {dptr}) :=
              hsplit ▸ hcomb
            have hp : dptr ∉ resFootprint parent ∪ (resFootprint rel).erase dptr := by
              simp only [Finset.mem_union, Finset.mem_erase, not_or]
              exact ⟨fun hm => hdnl (hpar_live hm), fun hm => hm.1 rfl⟩
            have hPR : Disjoint (resFootprint parent) (resFootprint rel) := by
              rw [Finset.disjoint_left]
              intro a ha hm
              exact Finset.disjoint_left.mp hrel_nl hm (hpar_live ha)
            have hFG : Disjoint (resFootprint parent)
                ((resFootprint rel).erase dptr) :=
              Finset.disjoint_of_subset_right (Finset.erase_subset _ _) hPR
            have hGb : Disjoint ((resFootprint rel).erase dptr) h0.live := by
              rw [Finset.disjoint_left]
              intro a ha hm
              exact Finset.disjoint_left.mp hrel_nl (Finset.mem_of_mem_erase ha)
                (h0_live hm)
            have htg := hinv_track_gen h1' hsep hp hFG hGb
            rcases htr : corm_result_track s1 parent dptr with ⟨okt, parent1, s2⟩
            cases okt
            · simp only [hfq, hd, htr] at h
              simp at h
            · obtain ⟨hI2, hsep1, -, -, -, hexp1⟩ := htg.1 parent1 s2 htr
              have hnp1 : ∀ a ∈ resFootprint rel, a ≠ dptr →
                  a ∉ resFootprint parent1 := by
                intro a hafp hne hmem
                rcases hexp1 a hmem with hin | hout
                · rcases Finset.mem_union.mp hin with hP | hD
                  · exact Finset.disjoint_left.mp hrel_nl hafp (hpar_live hP)
                  · exact hne (Finset.mem_singleton.mp hD)
                · exact hout (hrel_live1 hafp)
              have hGeq : (resFootprint rel).erase dptr =
                  rel.allocations.toFinset ∪
                    {rel.allocations_ptr, rel.self_ptr} := by
                ext a
                by_cases hda2 : a = dptr
                · subst hda2
                  simp [resFootprint, hd, hda.1, hda.2.1, hda.2.2]
                · simp [resFootprint, hd, hda2]
              have hset2 : resFootprint parent1 ∪ (resFootprint rel).erase dptr =
                  (resFootprint parent1 ∪ {rel.allocations_ptr, rel.self_ptr}) ∪
                    rel.allocations.toFinset := by
                rw [hGeq]
                ext a
                simp only [Finset.mem_union]
                tauto
              have hI2' : HInv h0 s2
                  ((resFootprint parent1 ∪ {rel.allocations_ptr, rel.self_ptr}) ∪
                    rel.allocations.toFinset) := hset2 ▸ hI2
              have hps : ∀ p ∈ rel.allocations,
                  p ∉ resFootprint parent1 ∪
                    {rel.allocations_ptr, rel.self_ptr} := by
                intro p hpm
                have hpfp : p ∈ resFootprint rel := by
                  simp [resFootprint, hpm]
                simp only [Finset.mem_union, Finset.mem_insert,
                  Finset.mem_singleton, not_or]
                refine ⟨hnp1 p hpfp (fun he => hda.1 (he ▸ hpm)), ?_, ?_⟩
                · intro he
                  exact hrelsep.1 (he ▸ hpm)
                · intro he
                  exact hrelsep.2.2.1 (he ▸ hpm)
              have harr_fp : rel.allocations_ptr ∈ resFootprint rel := by
                simp [resFootprint]
              have hself_fp : rel.self_ptr ∈ resFootprint rel := by
                simp [resFootprint]
              have hFG2 : Disjoint (resFootprint parent1)
                  ({rel.allocations_ptr, rel.self_ptr} : Finset Nat) := by
                rw [Finset.disjoint_right]
                intro a ham hmem
                rcases Finset.mem_insert.mp ham with he | he
                · subst he
                  exact hnp1 _ harr_fp (fun he2 => hda.2.1 he2.symm) hmem
                · have he2 := Finset.mem_singleton.mp he
                  subst he2
                  exact hnp1 _ hself_fp (fun he2 => hda.2.2 he2.symm) hmem
              have hGb2 : Disjoint
                  ({rel.allocations_ptr, rel.self_ptr} : Finset Nat) h0.live := by
                rw [Finset.disjoint_left]
                intro a ham hmem
                rcases Finset.mem_insert.mp ham with he | he
                · subst he
                  exact Finset.disjoint_left.mp hrel_nl harr_fp (h0_live hmem)
                · have he2 := Finset.mem_singleton.mp he
                  subst he2
                  exact Finset.disjoint_left.mp hrel_nl hself_fp (h0_live hmem)
              rcases hta : track_all s2 parent1 rel.allocations
                with ⟨allt, parent2, s3⟩
              cases allt
              · simp only [hfq, hd, htr, hta] at h
                simp at h
              · obtain ⟨hI3, hsep2, -, -, hexp2⟩ :=
                  hinv_track_all rel.allocations s2 parent1
                    {rel.allocations_ptr, rel.self_ptr} hI2' hsep1
                    hrelsep.2.2.2.2 hps hFG2 hGb2 true parent2 s3 hta rfl
                have harr2 : rel.allocations_ptr ∈ s2.heap.live :=
                  hinv_subset_live hI2' (by simp)
                have hself2l : rel.self_ptr ∈ s2.heap.live :=
                  hinv_subset_live hI2' (by simp)
                have harr_nfp2 : rel.allocations_ptr ∉ resFootprint parent2 := by
                  intro hmem
                  rcases hexp2 _ hmem with hin | hout
                  · rcases Finset.mem_union.mp hin with hP1 | hA
                    · exact hnp1 _ harr_fp (fun he => hda.2.1 he.symm) hP1
                    · exact hrelsep.1 (List.mem_toFinset.mp hA)
                  · exact hout harr2
                have hself_nfp2 : rel.self_ptr ∉ resFootprint parent2 := by
                  intro hmem
                  rcases hexp2 _ hmem with hin | hout
                  · rcases Finset.mem_union.mp hin with hP1 | hA
                    · exact hnp1 _ hself_fp (fun he => hda.2.2 he.symm) hP1
                    · exact hrelsep.2.2.1 (List.mem_toFinset.mp hA)
                  · exact hout hself2l
                have hf1 := hinv_free hI3 (by simp :
                  rel.allocations_ptr ∈ resFootprint parent2 ∪
                    {rel.allocations_ptr, rel.self_ptr})
                have hE1 : (resFootprint parent2 ∪
                    {rel.allocations_ptr, rel.self_ptr}).erase
                    rel.allocations_ptr =
                    resFootprint parent2 ∪ {rel.self_ptr} := by
                  ext a
                  by_cases h1x : a = rel.allocations_ptr
                  · subst h1x
                    simp [harr_nfp2, hrelsep.2.1]
                  · simp [h1x]
                rw [hE1] at hf1
                have hf2 := hinv_free hf1 (by simp :
                  rel.self_ptr ∈ resFootprint parent2 ∪ {rel.self_ptr})
                have hE2 : (resFootprint parent2 ∪ {rel.self_ptr}).erase
                    rel.self_ptr = resFootprint parent2 := by
                  ext a
                  by_cases h1x : a = rel.self_ptr
                  · subst h1x
                    simp [hself_nfp2]
                  · simp [h1x]
                rw [hE2] at hf2
                simp only [hfq, hd, htr, hta] at h
                rw [if_neg (by simp : ¬((!true) = true)),
                  if_neg (by simp : ¬((!true) = true))] at h
                simp only [Prod.mk.injEq] at h
                obtain ⟨-, hp2, -, hs2⟩ := h
                subst hs2
                rw [← hp2]
                exact ⟨hf2, hsep2⟩

theorem hinv_load_has_many_exec {h0 : Heap} {s : S} (parent : corm_result_t)
    (inst : Instance) (field : field_info_t) (related_meta : model_meta_t)
    (st : StmtState) (cp : Nat)
    (hI : HInv h0 s (resFootprint parent)) (hsep : ResSep parent) :
    ∀ ok parent' inst' s',
      corm_load_has_many_exec s parent inst field related_meta st cp =
        (ok, parent', inst', s') →
      ok = true → HInv h0 s' (resFootprint parent') ∧ ResSep parent' := by
  intro ok parent' inst' s' h hok
  subst hok
  unfold corm_load_has_many_exec at h
  rcases hsa : step_all s st with ⟨count, st2, s1⟩
  have hheap : s1.heap = s.heap := by
    simp only [step_all, Prod.mk.injEq] at hsa
    rw [← hsa.2.2]
  simp only [hsa, backend_reset] at h
  have hI1 : HInv h0 (s1.emit .resetEv) (resFootprint parent) :=
    hinv_heap_congr (by simp [S.emit, hheap]) hI
  by_cases hc : count > 0
  · rw [if_pos hc] at h
    rcases ha : corm_alloc_fn (s1.emit .resetEv) with ⟨dOpt, s2⟩
    rcases dOpt with _ | d
    · simp only [ha] at h
      simp at h
    · simp only [ha] at h
      have h2 := hinv_alloc_some hI1 ha
      have hIu : HInv h0 s2 (resFootprint parent ∪ {d}) := by
        rw [Finset.union_comm, ← Finset.insert_eq]
        exact h2.1
      have htk := hinv_result_track hIu hsep h2.2.2.1
      rcases htr : corm_result_track s2 parent d with ⟨okt, parent1, s3⟩
      cases okt
      · simp only [htr] at h
        simp at h
      · obtain ⟨hI3, hsep3, -, -, -, -⟩ := htk.1 parent1 s3 htr
        simp only [htr] at h
        rw [if_neg (by simp : ¬((!true) = true))] at h
        rcases hm : materialize_rows s3 parent1 related_meta true
            ((stmt_rows s3 { st2 with cursor := 0 }).take count)
          with ⟨insts, parent2, s4⟩
        simp only [hm] at h
        obtain ⟨hI4, hsep4, -, -⟩ := hinv_materialize_rows related_meta true
          _ _ _ hI3 hsep3 insts parent2 s4 hm
        simp only [Prod.mk.injEq] at h
        obtain ⟨-, hp2, -, hs2⟩ := h
        subst hs2
        rw [← hp2]
        exact ⟨hinv_heap_congr (by
          simp [corm_arena_end_temp, backend_finalize, S.emit]) hI4, hsep4⟩
  · rw [if_neg hc] at h
    simp only [Prod.mk.injEq] at h
    obtain ⟨-, hp2, -, hs2⟩ := h
    subst hs2
    rw [← hp2]
    exact ⟨hinv_heap_congr (by
      simp [corm_arena_end_temp, backend_finalize, S.emit, hheap]) hI, hsep⟩

theorem hinv_load_has_many {h0 : Heap} {s : S} (parent : corm_result_t)
    (inst : Instance) (meta : model_meta_t) (field : field_info_t)
    (hI : HInv h0 s (resFootprint parent)) (hsep : ResSep parent) :
    ∀ ok parent' inst' s',
      corm_load_has_many s parent inst meta field = (ok, parent', inst', s') →
      ok = true → HInv h0 s' (resFootprint parent') ∧ ResSep parent' := by
  intro ok parent' inst' s' h hok
  subst hok
  unfold corm_load_has_many at h
  rcases hrm : field.related_model.bind (fun i => s.models.get? i)
    with _ | related_meta
  · simp only [hrm] at h
    simp at h
  · simp only [hrm] at h
    rcases hpk : meta.primary_key_field with _ | pkf
    · simp only [hpk] at h
      simp at h
    · simp only [hpk, corm_str_fmt, corm_arena_start_temp, backend_prepare_eq,
        stmt_kind.table] at h
      rcases hdb : db_get_table (corm_arena_alloc s (("SELECT * FROM " ++
          related_meta.table_name ++ " WHERE " ++ field.fk_column_name ++
          " = " ++ s.backend.get_placeholder 1 ++ ";").length + 1)).db
          related_meta.table_name with _ | td
      · simp only [hdb, Option.map_none'] at h
        simp at h
      · simp only [hdb, Option.map_some'] at h
        rcases hb2 : bind_param_by_type ({ cmd := stmt_kind.selectWhereEq related_meta.table_name field.fk_column_name }) 1 (inst pkf.offset) pkf.type
          with _ | st2
        · simp only [hb2] at h
          simp at h
        · simp only [hb2] at h
          have hIP : HInv h0 ((corm_arena_alloc s (("SELECT * FROM " ++
              related_meta.table_name ++ " WHERE " ++ field.fk_column_name ++
              " = " ++ s.backend.get_placeholder 1 ++ ";").length + 1)).emit
              (.prepare ("SELECT * FROM " ++ related_meta.table_name ++
              " WHERE " ++ field.fk_column_name ++ " = " ++
              s.backend.get_placeholder 1 ++ ";"))) (resFootprint parent) :=
            hinv_heap_congr (by simp [S.emit, arena_alloc_heap]) hI
          exact hinv_load_has_many_exec parent inst field related_meta st2
            s.arena_used hIP hsep true parent' inst' s' h rfl

theorem hinv_load_relation {h0 : Heap} {s : S} (result : corm_result_t)
    (meta : model_meta_t) (inst : Instance) (field_name : String)
    (hI : HInv h0 s (resFootprint result)) (hsep : ResSep result) :
    ∀ ok result' inst' s',
      corm_load_relation s result meta inst field_name =
        (ok, result', inst', s') →
      ok = true → HInv h0 s' (resFootprint result') ∧ ResSep result' := by
  intro ok result' inst' s' h hok
  subst hok
  unfold corm_load_relation at h
  rcases hff : meta.fields.find? (fun f => f.name = field_name) with _ | field
  · simp only [hff] at h
    simp at h
  · simp only [hff] at h
    by_cases hbt : field.type = field_type_e.BELONGS_TO
    · rw [if_pos hbt] at h
      exact hinv_load_belongs_to result inst meta field hI hsep
        true result' inst' s' h rfl
    · rw [if_neg hbt] at h
      by_cases hhm : field.type = field_type_e.HAS_MANY
      · rw [if_pos hhm] at h
        exact hinv_load_has_many result inst meta field hI hsep
          true result' inst' s' h rfl
      · rw [if_neg hhm] at h
        simp at h

/-- C8: every heap allocation owned by a result container that a query
operation returns lives in the container footprint (tracked list,
tracking array, instance buffer, container), the footprint pointers never
alias, and corm_free_result therefore returns the heap live set exactly
to its pre-query state.  This holds for corm_find, corm_find_all and
corm_where_raw containers; for corm_load_relation the relationship
sub-allocations of the related query (the belongs_to cross-container
merge and the has_many instance buffer) are re-tracked into the
caller-provided container, whose footprint keeps the whole invariant;
moreover corm_result_alloc (allocate-then-track) either records the fresh
pointer in the returned tracking list, or frees it, returns null and
leaves the container and the heap live set unchanged, so no untracked
allocation escapes. -/
theorem C8_allocations_tracked_and_reclaimed (s : S) (meta : model_meta_t)
    (pkv : Value) (wc : String) (params : List (Value × field_type_e))
    (hfresh : HeapFresh s.heap) :
    (∀ res s', corm_find s meta pkv = (some res, s') →
      ResSep res ∧ (corm_free_result s' res).heap.live = s.heap.live) ∧
    (∀ res s', corm_find_all s meta = (some res, s') →
      ResSep res ∧ (corm_free_result s' res).heap.live = s.heap.live) ∧
    (∀ res s', corm_where_raw s meta wc params = (some res, s') →
      ResSep res ∧ (corm_free_result s' res).heap.live = s.heap.live) ∧
    (∀ h0 parent lmeta inst fname ok parent' inst' s',
      HInv h0 s (resFootprint parent) → ResSep parent →
      corm_load_relation s parent lmeta inst fname = (ok, parent', inst', s') →
      ok = true →
      ResSep parent' ∧ (corm_free_result s' parent').heap.live = h0.live) ∧
    (∀ res p res' s', corm_result_alloc s res = (some p, res', s') →
      p ∈ res'.allocations) ∧
    (∀ res res' s', corm_result_alloc s res = (none, res', s') →
      res' = res ∧ s'.heap.live = s.heap.live) := by
  refine ⟨?_, ?_, ?_, ?_, ?_, ?_⟩
  · intro res s' h
    have hf := (hinv_find s meta pkv hfresh).2 res s' h
    exact ⟨hf.2, free_result_restore hf.1⟩
  · intro res s' h
    have hf := (hinv_find_all s meta hfresh).2 res s' h
    exact ⟨hf.2, free_result_restore hf.1⟩
  · intro res s' h
    have hf := (hinv_where_raw s meta wc params hfresh).2 res s' h
    exact ⟨hf.2, free_result_restore hf.1⟩
  · intro h0 parent lmeta inst fname ok parent' inst' s' hI hsep h hok
    have hf := hinv_load_relation parent lmeta inst fname hI hsep
      ok parent' inst' s' h hok
    exact ⟨hf.2, free_result_restore hf.1⟩
  · intro res p res' s' h
    exact result_alloc_some_tracked s res p res' s' h
  · intro res res' s' h
    exact result_alloc_none_live s res hfresh res' s' h

/-- C8 witness: the tracking contract instantiated at a populated fixture
state whose queries all return containers, with a live parent container
satisfying the relation-load hypotheses and a belongs_to load that
succeeds through the cross-container merge. -/
theorem C8_allocations_witness :
    HeapFresh S8.heap ∧
    (corm_find S8 user_meta (.vInt 1)).1.isSome = true ∧
    (corm_find_all S8 user_meta).1.isSome = true ∧
    (corm_where_raw S8 user_meta "1=1" []).1.isSome = true ∧
    HInv heap0 S8 (resFootprint parent8) ∧ ResSep parent8 ∧
    (corm_load_relation S8 parent8 post_meta post_inst "user").1 = true ∧
    ((∀ res s', corm_find S8 user_meta (.vInt 1) = (some res, s') →
      ResSep res ∧ (corm_free_result s' res).heap.live = S8.heap.live) ∧
    (∀ res s', corm_find_all S8 user_meta = (some res, s') →
      ResSep res ∧ (corm_free_result s' res).heap.live = S8.heap.live) ∧
    (∀ res s', corm_where_raw S8 user_meta "1=1" [] = (some res, s') →
      ResSep res ∧ (corm_free_result s' res).heap.live = S8.heap.live) ∧
    (∀ h0 parent lmeta inst fname ok parent' inst' s',
      HInv h0 S8 (resFootprint parent) → ResSep parent →
      corm_load_relation S8 parent lmeta inst fname = (ok, parent', inst', s') →
      ok = true →
      ResSep parent' ∧ (corm_free_result s' parent').heap.live = h0.live) ∧
    (∀ res p res' s', corm_result_alloc S8 res = (some p, res', s') →
      p ∈ res'.allocations) ∧
    (∀ res res' s', corm_result_alloc S8 res = (none, res', s') →
      res' = res ∧ s'.heap.live = S8.heap.live)) := by
  have hfr : HeapFresh S8.heap := by
    intro p hp
    simp only [S8, heap8] at hp ⊢
    fin_cases hp <;> decide
  refine ⟨hfr, rfl, rfl, rfl, ⟨by decide, by decide, hfr, by decide⟩, ?_, rfl,
    C8_allocations_tracked_and_reclaimed S8 user_meta (.vInt 1) "1=1" [] hfr⟩
  refine ⟨by decide, by decide, by decide, ?_, by decide⟩
  intro d hd
  simp only [parent8, Option.some.injEq] at hd
  subst hd
  exact ⟨by decide, by decide, by decide⟩
